import Mathlib

/-!
# managed-gitops: admission webhook, workspace resource event loop, application state cache

A shallow embedding of three parts of the repository:

* `backend-shared/apis/managed-gitops/v1alpha1/gitopsdeploymentsyncrun_webhook.go`
* `backend/eventloop/workspace_resource_event_loop.go`
* `backend-shared/config/db/util/application_state_cache.go`

Go `error` values are modelled by their message (`GoError`), `nil` errors by `none`.
Calls to collaborators (Kubernetes client, shared resource loop, database, channels, logger)
are recorded in an explicit list of effects, so that "is never invoked" is a statement about
that list. A Go run-time panic is an explicit outcome.
-/

namespace ManagedGitops

/-! ## Common Go notions -/

/-- A non-nil Go `error`, identified with the text of its `Error()` method. -/
abbrev GoError := String

/-! ## gitopsdeploymentsyncrun_webhook.go -/

def error_invalid_name : String :=
  "name should not be zyxwvutsrqponmlkjihgfedcba-abcdefghijklmnoqrstuvwxyz"

def invalid_name : String := "zyxwvutsrqponmlkjihgfedcba-abcdefghijklmnoqrstuvwxyz"

/-- The fields of the custom resource that the webhook reads (`metav1.ObjectMeta`). -/
structure GitOpsDeploymentSyncRun where
  Name : String
  Namespace : String
deriving DecidableEq, Repr

/-- Go `admission.Warnings` (a `[]string`); the nil slice is `none`. -/
abbrev Warnings := Option (List String)

/-- Go `ValidateCreate`: the two log calls have no influence on the result. -/
def GitOpsDeploymentSyncRun.ValidateCreate (r : GitOpsDeploymentSyncRun) :
    Warnings × Option GoError :=
  if r.Name = invalid_name then
    let err : GoError := error_invalid_name
    (none, some err)
  else
    (none, none)

/-! ## workspace_resource_event_loop.go : data -/

/-- Go `ctrl.Request` (a `types.NamespacedName`). -/
structure Request where
  Namespace : String
  Name : String
deriving DecidableEq, Repr

/-- Modelled from the spec: `eventlooptypes.EventLoopEvent` is declared outside the available
sources. The fields are the ones the sources read or set (`Request` in the workspace resource
loop; `EventType`, `ReqResource`, `WorkspaceID` in the runner tests); the `Client` handle of the
event is left out. -/
structure EventLoopEvent where
  EventType : String
  Request : Request
  ReqResource : String
  WorkspaceID : String
deriving DecidableEq, Repr

/-- Modelled from the spec: `eventlooptypes.EventLoopMessage` is declared outside the available
sources. `Event` is a pointer in the sources (it is compared with `nil`), hence an `Option`. -/
structure EventLoopMessage where
  MessageType : String
  Event : Option EventLoopEvent
deriving DecidableEq, Repr

/-- The dynamic type and value of a Go `any` payload, as far as the loop distinguishes them. -/
inductive Payload where
  | nil
  | request (req : Request)
  | eventLoopMessage (m : EventLoopMessage)
  | other (goType : String)
deriving DecidableEq, Repr

/-- Go `corev1.Namespace`, reduced to its identifying metadata. -/
structure Namespace where
  Name : String
  UID : String
deriving DecidableEq, Repr

/-- An error returned by the Kubernetes client; `notFound` is what `apierr.IsNotFound` reports. -/
structure K8sError where
  msg : String
  notFound : Bool
deriving DecidableEq, Repr

/-- Go `client.Client`, reduced to the one call the loop makes: `Get` of a `Namespace` by key.
The object is passed by pointer, so the call returns the object as it is afterwards, together
with the error. -/
structure Client where
  Get : (key : String) → (obj : Namespace) → Namespace × Option K8sError

abbrev workspaceResourceLoopMessageType := String

def workspaceResourceLoopMessageType_processRepositoryCredential :
    workspaceResourceLoopMessageType := "processRepositoryCredential"

def workspaceResourceLoopMessageType_processManagedEnvironment :
    workspaceResourceLoopMessageType := "processManagedEnvironment"

@[reducible] def retry : Bool := true

@[reducible] def noRetry : Bool := false

structure workspaceResourceLoopMessage where
  apiNamespaceClient : Option Client
  messageType : workspaceResourceLoopMessageType
  payload : Payload

/-- Modelled from the spec: `workspaceEventLoopMessageType` and its constants are declared in
`workspace_event_loop.go`, outside the available sources; the spec names the message
`managedEnvProcessed_Event`. -/
abbrev workspaceEventLoopMessageType := String

/-- Modelled from the spec: the constant is declared in `workspace_event_loop.go`, outside the
available sources; the spec names the message `managedEnvProcessed_Event`. -/
def workspaceEventLoopMessageType_managedEnvProcessed_Event : workspaceEventLoopMessageType :=
  "managedEnvProcessed_Event"

/-- Modelled from the spec: `workspaceEventLoopMessage` is declared in `workspace_event_loop.go`,
outside the available sources; the loop sets its fields `messageType` and `payload`. -/
structure workspaceEventLoopMessage where
  messageType : workspaceEventLoopMessageType
  payload : Payload
deriving DecidableEq, Repr

/-- Modelled from the spec: the result of `SharedResourceEventLoop.ReconcileSharedManagedEnv`
(package `shared_resource_loop`, outside the available sources), `(_, isUserError, err)`; the
first component is discarded by the caller. -/
structure ReconcileSharedManagedEnvResult where
  isUserErr : Bool
  err : Option GoError
deriving DecidableEq, Repr

/-- Modelled from the spec: the two operations of `shared_resource_loop.SharedResourceEventLoop`
(outside the available sources) that the workspace resource loop calls, as functions of the
arguments the loop passes (context, client, client factory and logger are handles). -/
structure SharedResourceEventLoop where
  ReconcileSharedManagedEnv : (ns : Namespace) → (name : String) → (reqNamespace : String) →
    (isWorkspaceTarget : Bool) → ReconcileSharedManagedEnvResult
  ReconcileRepositoryCredential : (ns : Namespace) → (name : String) → Option GoError

inductive LogKind where
  | error
  | info
  | warn
  | debug
deriving DecidableEq, Repr

/-- What a handler does to the outside world, in order. -/
inductive Effect where
  | log (kind : LogKind) (text : String)
  | getNamespace (key : String)
  | reconcileRepositoryCredential (ns : Namespace) (name : String)
  | reconcileSharedManagedEnv (ns : Namespace) (name : String) (reqNamespace : String)
      (isWorkspaceTarget : Bool)
  | post (m : workspaceEventLoopMessage)
deriving DecidableEq, Repr

/-- A call of one of the shared resource loop's reconcile operations. -/
def Effect.isReconcile : Effect → Bool
  | .reconcileRepositoryCredential _ _ => true
  | .reconcileSharedManagedEnv _ _ _ _ => true
  | _ => false

/-- The message of a send to the workspace event loop's input channel, if the effect is one. -/
def Effect.posted? : Effect → Option workspaceEventLoopMessage
  | .post m => some m
  | _ => none

/-- How a Go function call ends: it returns, or it panics (here: nil dereference). -/
inductive Outcome (α : Type) where
  | returned (a : α)
  | panicked (reason : String)
deriving DecidableEq, Repr

/-- The effects of a call, in order, and how it ended. -/
structure Run (α : Type) where
  effects : List Effect
  outcome : Outcome α
deriving DecidableEq, Repr

/-- The messages sent to the workspace event loop during a run, in order. -/
def Run.posts {α : Type} (r : Run α) : List workspaceEventLoopMessage :=
  r.effects.filterMap Effect.posted?

def nilDereference : String := "invalid memory address or nil pointer dereference"

/-! ## workspace_resource_event_loop.go : handlers -/

/-- Go `handleResourceLoopRepositoryCredential`. -/
def handleResourceLoopRepositoryCredential (msg : workspaceResourceLoopMessage)
    (sharedResourceLoop : SharedResourceEventLoop) : Run (Bool × Option GoError) :=
  match msg.payload with
  | .request req =>
    let ns0 : Namespace := { Name := req.Namespace, UID := "" }
    match msg.apiNamespaceClient with
    | none => ⟨[], .panicked nilDereference⟩
    | some c =>
      match c.Get ns0.Name ns0 with
      | (_, some err) =>
        if !err.notFound then
          ⟨[.getNamespace ns0.Name],
            .returned (retry, some ("unexpected error in retrieving repo credentials: " ++ err.msg))⟩
        else
          ⟨[.getNamespace ns0.Name,
            .log .warn "Received a message for a repository credential in a namepace that doesn't exist"],
            .returned (noRetry, none)⟩
      | (ns, none) =>
        match sharedResourceLoop.ReconcileRepositoryCredential ns req.Name with
        | some err =>
          ⟨[.getNamespace ns0.Name, .reconcileRepositoryCredential ns req.Name],
            .returned (retry, some ("unable to reconcile repository credential. Error: " ++ err))⟩
        | none =>
          ⟨[.getNamespace ns0.Name, .reconcileRepositoryCredential ns req.Name],
            .returned (noRetry, none)⟩
  | _ =>
    ⟨[], .returned (noRetry,
      some "invalid RepositoryCredential payload in processWorkspaceResourceMessage")⟩

/-- Go `handleResourceLoopManagedEnvironment`. A nil `Event` is logged and then dereferenced. -/
def handleResourceLoopManagedEnvironment (msg : workspaceResourceLoopMessage)
    (sharedResourceLoop : SharedResourceEventLoop) : Run (Bool × Option GoError) :=
  match msg.payload with
  | .eventLoopMessage evlMessage =>
    match evlMessage.Event with
    | none =>
      ⟨[.log .error "SEVERE: process managed env event is nil"], .panicked nilDereference⟩
    | some event =>
      let req := event.Request
      let ns0 : Namespace := { Name := req.Namespace, UID := "" }
      match msg.apiNamespaceClient with
      | none => ⟨[], .panicked nilDereference⟩
      | some c =>
        match c.Get ns0.Name ns0 with
        | (_, some err) =>
          if !err.notFound then
            ⟨[.getNamespace ns0.Name],
              .returned (retry,
                some ("unexpected error in retrieving namespace of managed env CR: " ++ err.msg))⟩
          else
            ⟨[.getNamespace ns0.Name,
              .log .warn "Received a message for a managed env CR in a namespace that doesn't exist"],
              .returned (noRetry, none)⟩
        | (ns, none) =>
          let res := sharedResourceLoop.ReconcileSharedManagedEnv ns req.Name req.Namespace false
          match res.err with
          | some err =>
            if res.isUserErr then
              ⟨[.getNamespace ns0.Name,
                .reconcileSharedManagedEnv ns req.Name req.Namespace false,
                .log .info "user error: user specified invalid managed environment parameters"],
                .returned (noRetry, none)⟩
            else
              ⟨[.getNamespace ns0.Name,
                .reconcileSharedManagedEnv ns req.Name req.Namespace false],
                .returned (retry, some ("unable to reconcile shared managed env: " ++ err))⟩
          | none =>
            ⟨[.getNamespace ns0.Name,
              .reconcileSharedManagedEnv ns req.Name req.Namespace false,
              .post { messageType := workspaceEventLoopMessageType_managedEnvProcessed_Event,
                      payload := .eventLoopMessage evlMessage }],
              .returned (noRetry, none)⟩
  | _ =>
    ⟨[], .returned (noRetry,
      some "invalid ManagedEnvironment payload in processWorkspaceResourceMessage")⟩

/-- The tail of `internalProcessWorkspaceResourceMessage` after a handler call: a handler error
is wrapped and returned with the handler's retry flag, success returns `(noRetry, nil)`. -/
def wrapHandlerRun (before : List Effect) (r : Run (Bool × Option GoError)) :
    Run (Bool × Option GoError) :=
  match r.outcome with
  | .panicked reason => ⟨before ++ r.effects, .panicked reason⟩
  | .returned (shouldRetry, some err) =>
    ⟨before ++ r.effects,
      .returned (shouldRetry, some ("failed to process workspace resource message: " ++ err))⟩
  | .returned (_, none) => ⟨before ++ r.effects, .returned (noRetry, none)⟩

/-- Go `internalProcessWorkspaceResourceMessage`. -/
def internalProcessWorkspaceResourceMessage (msg : workspaceResourceLoopMessage)
    (sharedResourceLoop : SharedResourceEventLoop) : Run (Bool × Option GoError) :=
  let entry : List Effect :=
    [.log .debug ("processWorkspaceResource received message: " ++ msg.messageType)]
  if msg.apiNamespaceClient.isNone then
    ⟨entry, .returned (noRetry, some "invalid namespace client")⟩
  else if msg.messageType = workspaceResourceLoopMessageType_processRepositoryCredential then
    wrapHandlerRun entry (handleResourceLoopRepositoryCredential msg sharedResourceLoop)
  else if msg.messageType = workspaceResourceLoopMessageType_processManagedEnvironment then
    wrapHandlerRun entry (handleResourceLoopManagedEnvironment msg sharedResourceLoop)
  else
    ⟨entry, .returned (noRetry,
      some ("SEVERE: unrecognized sharedResourceLoopMessageType: " ++ msg.messageType))⟩

/-! ## workspace_resource_event_loop.go : one iteration of the loop -/

/-- Go `time.Duration` values are nanosecond counts. -/
def Millisecond : Nat := 1000000

def Second : Nat := 1000 * Millisecond

/-- Modelled from the spec: `sharedutil.ExponentialBackoff` is declared outside the available
sources; the spec gives its parameters as factor, min, max and jitter. -/
structure ExponentialBackoff where
  Factor : Nat
  Min : Nat
  Max : Nat
  Jitter : Bool
deriving DecidableEq, Repr

/-- Go `workspaceResourceEventTask`; database, logger, channel and client factory are handles
and are left out. -/
structure workspaceResourceEventTask where
  msg : workspaceResourceLoopMessage
  sharedResourceLoop : SharedResourceEventLoop

/-- What one iteration of the `for` loop of `internalWorkspaceResourceEventLoop` does with the
message it received: log and `continue`, hand a task to the retry loop, or panic. -/
inductive LoopIteration where
  | continued (logged : String)
  | addTaskIfNotPresent (mapKey : String) (task : workspaceResourceEventTask)
      (backoff : ExponentialBackoff)
  | panicked (reason : String)

/-- The body of the `for` loop of Go `internalWorkspaceResourceEventLoop`. -/
def internalWorkspaceResourceEventLoop (msg : workspaceResourceLoopMessage)
    (sharedResourceLoop : SharedResourceEventLoop) : LoopIteration :=
  let register (mapKey : String) : LoopIteration :=
    .addTaskIfNotPresent mapKey { msg := msg, sharedResourceLoop := sharedResourceLoop }
      { Factor := 2, Min := Millisecond * 200, Max := Second * 10, Jitter := true }
  if msg.messageType = workspaceResourceLoopMessageType_processRepositoryCredential then
    match msg.payload with
    | .request repoCred => register ("repo-cred-" ++ repoCred.Namespace ++ "-" ++ repoCred.Name)
    | _ => .continued "SEVERE: Unexpected payload type in workspace resource event loop"
  else if msg.messageType = workspaceResourceLoopMessageType_processManagedEnvironment then
    match msg.payload with
    | .eventLoopMessage evlMsg =>
      match evlMsg.Event with
      | none => .panicked nilDereference
      | some event =>
        register ("managed-env-" ++ event.Request.Namespace ++ "-" ++ event.Request.Name)
    | _ => .continued "SEVERE: Unexpected payload type in workspace resource event loop"
  else
    .continued ("SEVERE: Unexpected message type: " ++ msg.messageType)

/-- The retry-loop key of an iteration, when a task was handed to the retry loop. -/
def LoopIteration.mapKey? : LoopIteration → Option String
  | .addTaskIfNotPresent mapKey _ _ => some mapKey
  | _ => none

/-- The request a message is about: the payload itself for a repository credential, the
request of the event for a managed environment. -/
def workspaceResourceLoopMessage.request? (msg : workspaceResourceLoopMessage) : Option Request :=
  match msg.payload with
  | .request req => some req
  | .eventLoopMessage m => m.Event.map (fun ev => ev.Request)
  | _ => none

/-! ## application_state_cache.go -/

/-- Modelled from the spec: `db.ApplicationState` is declared outside the available sources;
the fields are those of the spec's data model, under the names the sources use. Byte slices
are lists of byte values. The Go zero value is `{}` below. -/
structure ApplicationState where
  Applicationstate_application_id : String := ""
  Health : String := ""
  Sync_Status : String := ""
  Message : String := ""
  Revision : String := ""
  Resources : List Nat := []
  ReconciledState : String := ""
  OperationState : List Nat := []
  Conditions : List Nat := []
deriving DecidableEq, Repr

inductive ApplicationStateCacheMessageType where
  | ApplicationStateCacheMessage_Get
  | ApplicationStateCacheMessage_Create
  | ApplicationStateCacheMessage_Update
  | ApplicationStateCacheMessage_Delete
deriving DecidableEq, Repr

/-- Go `applicationStateCacheRequest`; the context is a handle, and the response channel is
replaced by the response being returned. -/
structure applicationStateCacheRequest where
  msgType : ApplicationStateCacheMessageType
  createOrUpdateObject : ApplicationState := {}
  primaryKey : String := ""
deriving DecidableEq, Repr

structure applicationStateCacheResponse where
  applicationState : ApplicationState := {}
  err : Option GoError := none
  valueFromCache : Bool := false
  rowsAffectedForDelete : Int := 0
deriving DecidableEq, Repr

/-- The Go `map[string]db.ApplicationState` of the cache loop: a finite list of bindings in
which the first binding of a key is the one that counts. -/
abbrev Cache := List (String × ApplicationState)

/-- Go `v, ok := cache[k]`. -/
def Cache.get (cache : Cache) (k : String) : Option ApplicationState :=
  match cache with
  | [] => none
  | (k1, v) :: rest => if k1 = k then some v else Cache.get rest k

/-- Go `delete(cache, k)`. -/
def Cache.delete (cache : Cache) (k : String) : Cache :=
  cache.filter (fun kv => kv.1 ≠ k)

/-- Go `cache[k] = v`. -/
def Cache.set (cache : Cache) (k : String) (v : ApplicationState) : Cache :=
  (k, v) :: Cache.delete cache k

/-- Modelled from the spec: `db.DatabaseQueries` is declared outside the available sources.
These are the three operations the cache calls, over an arbitrary database state `σ`. An
object passed by pointer is returned as it is after the call. -/
structure DatabaseQueries (σ : Type) where
  GetApplicationStateById : σ → ApplicationState → σ × ApplicationState × Option GoError
  UpdateApplicationState : σ → ApplicationState → σ × ApplicationState × Option GoError
  DeleteApplicationStateById : σ → String → σ × Int × Option GoError

inductive DbCall where
  | getApplicationStateById (obj : ApplicationState)
  | updateApplicationState (obj : ApplicationState)
  | deleteApplicationStateById (id : String)
deriving DecidableEq, Repr

/-- The state after a message was processed, the response sent on the response channel, and
the database calls made. -/
structure Processed (σ : Type) where
  cache : Cache
  db : σ
  response : applicationStateCacheResponse
  dbCalls : List DbCall

/-- Go `processUpdateMessage`. -/
def processUpdateMessage {σ : Type} (dbQueries : DatabaseQueries σ) (db : σ)
    (req : applicationStateCacheRequest) (cache : Cache) : Processed σ :=
  match dbQueries.UpdateApplicationState db req.createOrUpdateObject with
  | (db1, createOrUpdateObject, err) =>
    let cache1 :=
      if err ≠ none then
        let appState : ApplicationState := createOrUpdateObject
        Cache.set cache req.primaryKey appState
      else cache
    { cache := cache1, db := db1, response := { err := err },
      dbCalls := [.updateApplicationState req.createOrUpdateObject] }

/-- Go `processDeleteMessage`. -/
def processDeleteMessage {σ : Type} (dbQueries : DatabaseQueries σ) (db : σ)
    (req : applicationStateCacheRequest) (cache : Cache) : Processed σ :=
  let cache1 := Cache.delete cache req.primaryKey
  match dbQueries.DeleteApplicationStateById db req.primaryKey with
  | (db1, rowsAffected, err) =>
    { cache := cache1, db := db1,
      response := { rowsAffectedForDelete := rowsAffected, err := err },
      dbCalls := [.deleteApplicationStateById req.primaryKey] }

/-- Go `processGetMessage`. The response carries `res`, the result of the map lookup. -/
def processGetMessage {σ : Type} (dbQueries : DatabaseQueries σ) (db : σ)
    (req : applicationStateCacheRequest) (cache : Cache) : Processed σ :=
  let appState0 : ApplicationState := { Applicationstate_application_id := req.primaryKey }
  match Cache.get cache appState0.Applicationstate_application_id with
  | none =>
    let res : ApplicationState := {}
    match dbQueries.GetApplicationStateById db appState0 with
    | (db1, appState1, err) =>
      let appState : ApplicationState := if err ≠ none then {} else appState1
      let cache1 :=
        if err = none ∧ appState.Applicationstate_application_id ≠ "" then
          Cache.set cache appState.Applicationstate_application_id appState
        else cache
      { cache := cache1, db := db1, response := { applicationState := res, err := err },
        dbCalls := [.getApplicationStateById appState0] }
  | some res =>
    { cache := cache, db := db, response := { applicationState := res, err := none },
      dbCalls := [] }

/-- One iteration of Go `applicationStateCacheLoop`: only `Get` requests are processed; for any
other message type the loop prints an error and continues without sending a response. -/
def applicationStateCacheLoop {σ : Type} (dbQueries : DatabaseQueries σ) (db : σ)
    (request : applicationStateCacheRequest) (cache : Cache) : Option (Processed σ) :=
  if request.msgType = .ApplicationStateCacheMessage_Get then
    some (processGetMessage dbQueries db request cache)
  else
    none

/-- Which case of the `select` in `GetApplicationStateById` fires. -/
inductive SelectCase where
  | response (r : applicationStateCacheResponse)
  | ctxDone
deriving DecidableEq, Repr

/-- Go `ApplicationStateCache.GetApplicationStateById`, after the request was sent: what the
caller gets for each case of the `select`. -/
def GetApplicationStateById_result (fired : SelectCase) : ApplicationState × Option GoError :=
  match fired with
  | .ctxDone => ({}, some "context cancelled in GetApplicationStateById")
  | .response response =>
    if response.err ≠ none then ({}, response.err)
    else (response.applicationState, none)

/-- The Go `select` of `GetApplicationStateById` over the response channel and `ctx.Done()`.
`response` is the response the cache loop sends, if it sends one; `ctxDone` says whether the
context of the caller is done while the call lasts. A case that is not ready cannot fire; when
both are ready the Go runtime chooses one of them, which is the choice `takeDone`; when none is
ready the `select` blocks for ever (`none`). -/
def selectCase (response : Option applicationStateCacheResponse) (ctxDone takeDone : Bool) :
    Option SelectCase :=
  match response, ctxDone with
  | none, false => none
  | none, true => some .ctxDone
  | some r, false => some (.response r)
  | some r, true => some (if takeDone then .ctxDone else .response r)

/-- How a call of a method ends: it returns a result, or it blocks for ever. -/
inductive Call (α : Type) where
  | returned (result : α)
  | blocked
deriving DecidableEq, Repr

/-- The goroutine of `applicationStateCacheLoop` as a caller meets it: `some (cache, db)` when
it waits at `request := <-inputChan` with that cache and database; `none` when it will never
receive again, because it returned at startup (the database could not be opened) or because it
is blocked in the send of a response that no caller reads. -/
abbrev CacheActor (σ : Type) := Option (Cache × σ)

/-- A call of a method of the cache: how it ended, and the cache loop after it. -/
structure CacheCall (σ : Type) (α : Type) where
  outcome : Call α
  actor : CacheActor σ

/-- Go `ApplicationStateCache.GetApplicationStateById` against the cache loop `actor`.
The request is sent on the unbuffered channel of the loop outside any `select`, so the call
blocks for ever when the loop does not receive. Otherwise the loop processes the request and
the `select` decides. When the `ctx.Done()` case fires after the loop took the request, the
loop stays blocked in its send on the response channel, which is unbuffered and has no reader
left. -/
def GetApplicationStateById {σ : Type} (dbQueries : DatabaseQueries σ) (actor : CacheActor σ)
    (ctxDone takeDone : Bool) (id : String) :
    CacheCall σ (ApplicationState × Option GoError) :=
  match actor with
  | none => { outcome := .blocked, actor := none }
  | some (cache, db) =>
    let processed := applicationStateCacheLoop dbQueries db
      { primaryKey := id, msgType := .ApplicationStateCacheMessage_Get } cache
    match selectCase (processed.map (fun p => p.response)) ctxDone takeDone with
    | none => { outcome := .blocked, actor := some (cache, db) }
    | some fired =>
      { outcome := .returned (GetApplicationStateById_result fired),
        actor :=
          match processed, fired with
          | some p, .response _ => some (p.cache, p.db)
          | some _, .ctxDone => none
          | none, _ => some (cache, db) }

/-! ### Databases used as concrete inputs -/

/-- A database holding a list of rows: `Get` fills the object from the row with its id,
`Update` replaces the row with the object's id, `Delete` removes it; a missing row is an error
for `Get` and `Update`. -/
def rowsDatabase : DatabaseQueries (List ApplicationState) where
  GetApplicationStateById rows obj :=
    match rows.find? (fun r => r.Applicationstate_application_id = obj.Applicationstate_application_id) with
    | some r => (rows, r, none)
    | none => (rows, obj, some "no results found")
  UpdateApplicationState rows obj :=
    if rows.any (fun r => r.Applicationstate_application_id = obj.Applicationstate_application_id) then
      (rows.map (fun r =>
        if r.Applicationstate_application_id = obj.Applicationstate_application_id then obj else r),
        obj, none)
    else (rows, obj, some "no rows affected")
  DeleteApplicationStateById rows id :=
    (rows.filter (fun r => r.Applicationstate_application_id ≠ id),
      ((rows.filter (fun r => r.Applicationstate_application_id = id)).length : Int), none)

/-- A Kubernetes client in whose cluster exactly the namespaces of `existing` exist. -/
def clientOf (existing : List Namespace) : Client where
  Get key obj :=
    match existing.find? (fun n => n.Name = key) with
    | some n => (n, none)
    | none => (obj, some { msg := "namespace not found: " ++ key, notFound := true })

/-- A Kubernetes client whose every call fails with a server error. -/
def unreachableClient : Client where
  Get _ obj := (obj, some { msg := "the server is currently unable to handle the request",
                            notFound := false })

/-- A shared resource loop whose reconcile operations always succeed. -/
def succeedingSharedResourceLoop : SharedResourceEventLoop where
  ReconcileSharedManagedEnv _ _ _ _ := { isUserErr := false, err := none }
  ReconcileRepositoryCredential _ _ := none

/-- A shared resource loop whose reconcile operations always fail with the given error. -/
def failingSharedResourceLoop (isUserErr : Bool) (err : GoError) : SharedResourceEventLoop where
  ReconcileSharedManagedEnv _ _ _ _ := { isUserErr := isUserErr, err := some err }
  ReconcileRepositoryCredential _ _ := some err

/-- The namespace `my-user` of the repository's test setup. -/
def myUserNamespace : Namespace := { Name := "my-user", UID := "uid-1" }

/-- A managed-environment event for `my-user/my-managed-env`. -/
def managedEnvEvent : EventLoopEvent :=
  { EventType := "ManagedEnvironmentModified",
    Request := { Namespace := "my-user", Name := "my-managed-env" },
    ReqResource := "GitOpsDeploymentManagedEnvironment", WorkspaceID := "uid-1" }

def managedEnvMessage : EventLoopMessage :=
  { MessageType := "ManagedEnvironmentModified", Event := some managedEnvEvent }

/-- The row `app-1`, with the status values of the repository's tests. -/
def healthyRow : ApplicationState :=
  { Applicationstate_application_id := "app-1", Health := "Healthy", Sync_Status := "Synced",
    Revision := "abcdefg", Message := "Success" }

/-- An older version of the row `app-1`. -/
def staleRow : ApplicationState :=
  { Applicationstate_application_id := "app-1", Health := "Progressing",
    Sync_Status := "OutOfSync" }

/-! ### application_state_cache.go : the methods of `ApplicationStateCache` -/

/-- What a method of `ApplicationStateCache` does: the requests it sends on the channel of the
cache loop, in order, and the value it returns. -/
structure MethodCall (α : Type) where
  sent : List applicationStateCacheRequest
  result : α

/-- Go `ApplicationStateCache.CreateApplicationState`. -/
def CreateApplicationState (_appState : ApplicationState) : MethodCall (Option GoError) :=
  { sent := [], result := some "unimplemented" }

/-- Go `ApplicationStateCache.UpdateApplicationState`: a request of message type `Get` that
carries the object is sent, and `unimplemented` is returned without reading a response. -/
def UpdateApplicationState (appState : ApplicationState) : MethodCall (Option GoError) :=
  { sent := [{ createOrUpdateObject := appState,
               msgType := .ApplicationStateCacheMessage_Get }],
    result := some "unimplemented" }

/-- Go `ApplicationStateCache.DeleteApplicationStateById`. -/
def DeleteApplicationStateById (_id : String) : MethodCall (Int × Option GoError) :=
  { sent := [], result := (0, some "unimplemented") }

/-- Go `processCreateMessage`: no parameters, empty body. -/
def processCreateMessage : Unit := ()

/-- The cache loop receiving the given requests in order, from the state `(cache, db)`: the
state it ends in. -/
def applicationStateCacheLoop_run {σ : Type} (dbQueries : DatabaseQueries σ) :
    Cache → σ → List applicationStateCacheRequest → Cache × σ
  | cache, db, [] => (cache, db)
  | cache, db, request :: rest =>
    match applicationStateCacheLoop dbQueries db request cache with
    | some p => applicationStateCacheLoop_run dbQueries p.cache p.db rest
    | none => applicationStateCacheLoop_run dbQueries cache db rest

/-! ## Task retry loop (spec §4.1) -/

/-- Modelled from the spec: a task held by the `TaskRetryLoop`, with the key it was added
under, its backoff parameters and the number of attempts made so far. The retry loop
(`sharedutil.TaskRetryLoop`, in `backend-shared/util`) is outside the available sources. -/
structure TaskEntry (τ : Type) where
  key : String
  task : τ
  backoff : ExponentialBackoff
  attempts : Nat

/-- Modelled from the spec: the state of `sharedutil.TaskRetryLoop`, which is outside the
available sources. Spec §4.1 describes a keyed executor; its state is the tasks that are
queued (waiting to be dispatched, rescheduled ones included), the tasks that are running, and
the keys of running tasks that were added again during their execution ("Re-adds during
execution are coalesced to a single follow-up attempt (edge-triggered)"). Delays are not
modelled. -/
structure TaskRetryLoop (τ : Type) where
  queued : List (TaskEntry τ)
  running : List (TaskEntry τ)
  followUp : List String

/-- Modelled from the spec: `NewTaskRetryLoop`, outside the available sources; a new loop holds
no task. -/
def NewTaskRetryLoop {τ : Type} : TaskRetryLoop τ :=
  { queued := [], running := [], followUp := [] }

/-- The keys of the tasks that are queued or running, one per task. -/
def TaskRetryLoop.keys {τ : Type} (loop : TaskRetryLoop τ) : List String :=
  loop.queued.map (fun e => e.key) ++ loop.running.map (fun e => e.key)

/-- Modelled from the spec: `TaskRetryLoop.AddTaskIfNotPresent`, outside the available sources.
Spec §4.1: "if no task is currently queued or running for `key`, enqueue `task`; otherwise
drop silently", and "Re-adds during execution are coalesced to a single follow-up attempt
(edge-triggered)": the task of a key that is queued or running is dropped, and when the key is
running the key is marked, once, for a follow-up attempt. -/
def TaskRetryLoop.AddTaskIfNotPresent {τ : Type} (loop : TaskRetryLoop τ) (key : String)
    (task : τ) (backoff : ExponentialBackoff) : TaskRetryLoop τ :=
  if key ∈ loop.keys then
    if key ∈ loop.running.map (fun e => e.key) ∧ key ∉ loop.followUp then
      { loop with followUp := key :: loop.followUp }
    else loop
  else { loop with
    queued := loop.queued ++ [{ key := key, task := task, backoff := backoff, attempts := 0 }] }

/-- Modelled from the spec: the internal dispatch of the retry loop, outside the available
sources. Spec §4.1: it "selects a ready task" and runs it; here the first queued task of the
given key starts running. -/
def TaskRetryLoop.dispatch {τ : Type} (loop : TaskRetryLoop τ) (key : String) :
    TaskRetryLoop τ :=
  match loop.queued.find? (fun e => e.key = key) with
  | none => loop
  | some e =>
    { loop with
      queued := loop.queued.eraseP (fun e => e.key = key), running := e :: loop.running }

/-- Modelled from the spec: the end of a run of the task of a key, outside the available
sources. Spec §4.1: "on `retry=true` reschedules the same key", "on `retry=false` clears the
attempt counter"; a rescheduled task is queued again with one more attempt. Without retry the
task leaves the loop, unless its key was added again during the run: then it is queued for the
one follow-up attempt, with the attempt counter cleared. Either way the mark of the key is
used up. -/
def TaskRetryLoop.completed {τ : Type} (loop : TaskRetryLoop τ) (key : String) (retry : Bool) :
    TaskRetryLoop τ :=
  match loop.running.find? (fun e => e.key = key) with
  | none => loop
  | some e =>
    if retry then
      { queued := loop.queued ++ [{ e with attempts := e.attempts + 1 }],
        running := loop.running.eraseP (fun e => e.key = key),
        followUp := loop.followUp.filter (fun k => k ≠ key) }
    else if key ∈ loop.followUp then
      { queued := loop.queued ++ [{ e with attempts := 0 }],
        running := loop.running.eraseP (fun e => e.key = key),
        followUp := loop.followUp.filter (fun k => k ≠ key) }
    else
      { queued := loop.queued, running := loop.running.eraseP (fun e => e.key = key),
        followUp := loop.followUp }

/-- The retry loop of the workspace resource event loop after an iteration of the loop: a task
handed over is passed to `AddTaskIfNotPresent`, anything else leaves the retry loop alone. -/
def LoopIteration.register (taskRetryLoop : TaskRetryLoop workspaceResourceEventTask) :
    LoopIteration → TaskRetryLoop workspaceResourceEventTask
  | .addTaskIfNotPresent mapKey task backoff =>
    taskRetryLoop.AddTaskIfNotPresent mapKey task backoff
  | .continued _ => taskRetryLoop
  | .panicked _ => taskRetryLoop

/-- The states the retry loop of a workspace resource event loop can be in: it starts empty;
the event loop receives a message; the retry loop dispatches a task; a running task ends. -/
inductive RetryLoopReachable (srl : SharedResourceEventLoop) :
    TaskRetryLoop workspaceResourceEventTask → Prop where
  | start : RetryLoopReachable srl NewTaskRetryLoop
  | received {loop : TaskRetryLoop workspaceResourceEventTask}
      (msg : workspaceResourceLoopMessage) :
      RetryLoopReachable srl loop →
      RetryLoopReachable srl ((internalWorkspaceResourceEventLoop msg srl).register loop)
  | dispatched {loop : TaskRetryLoop workspaceResourceEventTask} (key : String) :
      RetryLoopReachable srl loop → RetryLoopReachable srl (loop.dispatch key)
  | completed {loop : TaskRetryLoop workspaceResourceEventTask} (key : String) (retry : Bool) :
      RetryLoopReachable srl loop → RetryLoopReachable srl (loop.completed key retry)

/-! ## Compression codec (spec §4.5) -/

/-- Modelled from the spec: the gzip reader and the deserialiser that the decompress functions
of the application event loop call are library code outside the repository; they are
parameters here. Bytes are lists of byte values. -/
structure Decoders (α : Type) where
  gunzip : List Nat → Except GoError (List Nat)
  unmarshal : List Nat → Except GoError α

/-- Modelled from the spec: `decompressOperationState` (package `application_event_loop`) is
outside the available sources. Spec §4.5: "`operation_state` and `resources` are stored as
gzip-compressed serialized payloads; an empty byte sequence decompresses to a nil result (not
an error)". The result is the pointer returned (`none` for nil) and the error. -/
def decompressOperationState {OperationState : Type} (decoders : Decoders OperationState)
    (operationStateData : List Nat) : Option OperationState × Option GoError :=
  if operationStateData = [] then (none, none)
  else
    match decoders.gunzip operationStateData with
    | .error err => (none, some err)
    | .ok bytes =>
      match decoders.unmarshal bytes with
      | .error err => (none, some err)
      | .ok operationState => (some operationState, none)

/-- Modelled from the spec: `decompressResourceData` (package `application_event_loop`) is
outside the available sources; same codec as `decompressOperationState`. The result is the
slice returned (`none` for the nil slice) and the error. -/
def decompressResourceData {ResourceStatus : Type}
    (decoders : Decoders (Option (List ResourceStatus))) (resourceData : List Nat) :
    Option (List ResourceStatus) × Option GoError :=
  if resourceData = [] then (none, none)
  else
    match decoders.gunzip resourceData with
    | .error err => (none, some err)
    | .ok bytes =>
      match decoders.unmarshal bytes with
      | .error err => (none, some err)
      | .ok resourceList => (resourceList, none)

/-! ## Database of record (spec §3) -/

/-- Modelled from the spec: the `Application` row (`db.Application`, outside the available
sources), spec §3 `{id, name, spec_field, engine_instance_inst_id, managed_environment_id}`,
under the field names the tests use. -/
structure Application where
  Application_id : String
  Name : String := ""
  Spec_field : String := ""
  Engine_instance_inst_id : String := ""
  Managed_environment_id : String := ""
deriving DecidableEq, Repr

/-- Modelled from the spec: the `DeploymentToApplicationMapping` row, spec §3
`{id, deployment_name, deployment_namespace, namespace_uid, application_id}`, under the field
names the tests use. -/
structure DeploymentToApplicationMapping where
  Deploymenttoapplicationmapping_uid_id : String
  DeploymentName : String
  DeploymentNamespace : String
  NamespaceUID : String
  Application_id : String
deriving DecidableEq, Repr

/-- Modelled from the spec: the `APICRToDatabaseMapping` row, spec §3, under the field names
the tests use. -/
structure APICRToDatabaseMapping where
  APIResourceType : String
  APIResourceUID : String
  APIResourceName : String
  APIResourceNamespace : String
  NamespaceUID : String
  DBRelationType : String
  DBRelationKey : String
deriving DecidableEq, Repr

/-- Modelled from the spec: the resource-type tag of mappings of managed-environment CRs; the
constant is declared in package `db`, outside the available sources. -/
def APICRToDatabaseMapping_ResourceType_GitOpsDeploymentManagedEnvironment : String :=
  "GitOpsDeploymentManagedEnvironment"

/-- Modelled from the spec: the relation-type tag of mappings to `ManagedEnvironment` rows; the
constant is declared in package `db`, outside the available sources. -/
def APICRToDatabaseMapping_DBRelationType_ManagedEnvironment : String := "ManagedEnvironment"

/-- Modelled from the spec: the `ManagedEnvironment` row, spec §3
`{id, name, clustercredentials_id}`, under the field names the tests use. -/
structure ManagedEnvironment where
  Managedenvironment_id : String
  Name : String := ""
  Clustercredentials_id : String := ""
deriving DecidableEq, Repr

/-- Modelled from the spec: the `Operation` row, spec §3
`{id, resource_id, resource_type, instance_id, owner_user_id, state, ...}` without the two
timestamps. -/
structure Operation where
  Operation_id : String
  Resource_id : String
  Resource_type : String := ""
  Instance_id : String := ""
  Operation_owner_user_id : String := ""
  State : String := ""
deriving DecidableEq, Repr

/-- Modelled from the spec: a `SyncOperation` row. The spec names the rows (§4.5) without
listing their fields; only the reference to the application is modelled. -/
structure SyncOperation where
  SyncOperation_id : String
  Application_id : String
deriving DecidableEq, Repr

/-- Modelled from the spec: the `ClusterUser` row (`db.ClusterUser`, outside the available
sources), spec §3 `{id, user_name}`, under the field names the tests use. -/
structure ClusterUser where
  Clusteruser_id : String := ""
  User_name : String := ""
deriving DecidableEq, Repr

/-- Modelled from the spec: the tables of the database of record that the application event
loop reads and writes (the database itself is outside the available sources). Queries on this
state do not fail. `nextId` counts the rows created so far; the primary key of a new row is
derived from it. -/
structure Database where
  clusterUsers : List ClusterUser := []
  applications : List Application := []
  applicationStates : List ApplicationState := []
  deploymentToApplicationMappings : List DeploymentToApplicationMapping := []
  apiCRToDatabaseMappings : List APICRToDatabaseMapping := []
  managedEnvironments : List ManagedEnvironment := []
  operations : List Operation := []
  syncOperations : List SyncOperation := []
  nextId : Nat := 0
deriving DecidableEq, Repr

/-- The mapping of the deployment `(name, namespace)` in the workspace `namespaceUID`, looked
up by the composite key of spec §3. -/
def Database.getDeploymentToApplicationMapping (db : Database) (name namespace_ namespaceUID : String) :
    Option DeploymentToApplicationMapping :=
  db.deploymentToApplicationMappings.find? (fun m =>
    m.DeploymentName = name ∧ m.DeploymentNamespace = namespace_ ∧ m.NamespaceUID = namespaceUID)

/-- The `Application` row with the given primary key. -/
def Database.getApplicationById (db : Database) (id : String) : Option Application :=
  db.applications.find? (fun app => app.Application_id = id)

/-- The `ApplicationState` row with the given primary key. -/
def Database.getApplicationStateById (db : Database) (id : String) : Option ApplicationState :=
  db.applicationStates.find? (fun s => s.Applicationstate_application_id = id)

/-! ## GitOpsDeployment custom resource -/

/-- Modelled from the spec: `managedgitopsv1alpha1.ApplicationSource`, outside the available
sources; the fields the tests set. -/
structure ApplicationSource where
  RepoURL : String := ""
  Path : String := ""
  TargetRevision : String := ""
deriving DecidableEq, Repr

/-- Modelled from the spec: `managedgitopsv1alpha1.ApplicationDestination`, outside the
available sources; the fields the tests set. -/
structure ApplicationDestination where
  Environment : String := ""
  Namespace : String := ""
deriving DecidableEq, Repr

/-- Modelled from the spec: `managedgitopsv1alpha1.GitOpsDeploymentSpec`, outside the available
sources; the fields the tests set (`Type_` is the Go field `Type`). -/
structure GitOpsDeploymentSpec where
  Source : ApplicationSource := {}
  Destination : ApplicationDestination := {}
  Type_ : String := ""
deriving DecidableEq, Repr

/-- Modelled from the spec: `managedgitopsv1alpha1.HealthStatus`, outside the available
sources; the fields the tests read. -/
structure HealthStatus where
  Status : String := ""
  Message : String := ""
deriving DecidableEq, Repr

/-- Modelled from the spec: `managedgitopsv1alpha1.SyncStatus`, outside the available sources;
the fields the tests read. -/
structure SyncStatus where
  Status : String := ""
  Revision : String := ""
deriving DecidableEq, Repr

/-- Modelled from the spec: `managedgitopsv1alpha1.ResourceStatus`, outside the available
sources; the fields the tests set. -/
structure ResourceStatus where
  Group : String := ""
  Version : String := ""
  Kind : String := ""
  Namespace : String := ""
  Name : String := ""
  Status : String := ""
  Health : Option HealthStatus := none
deriving DecidableEq, Repr

/-- Modelled from the spec: `managedgitopsv1alpha1.OperationState`, outside the available
sources, reduced to the scalar fields the tests set (`Operation.InitiatedBy.Automated` and
`Operation.Retry.Limit` are flattened; the sync result and the two time stamps are left
out). -/
structure OperationState where
  Message : String := ""
  RetryCount : Int := 0
  Automated : Bool := false
  RetryLimit : Int := 0
deriving DecidableEq, Repr

/-- Modelled from the spec: `managedgitopsv1alpha1.ApplicationCondition`, an element of the
YAML list stored in the `conditions` column (spec §6: `{type, message, status?}`). -/
structure ApplicationCondition where
  Type_ : String := ""
  Message : String := ""
deriving DecidableEq, Repr

/-- Modelled from the spec: `managedgitopsv1alpha1.GitOpsDeploymentCondition`, outside the
available sources; the fields the tests read. -/
structure GitOpsDeploymentCondition where
  Type_ : String := ""
  Message : String := ""
  Status : String := ""
  Reason : String := ""
deriving DecidableEq, Repr

/-- Modelled from the spec: the source part of `.status.reconciledState`. -/
structure ReconciledSource where
  RepoURL : String := ""
  Path : String := ""
  Branch : String := ""
deriving DecidableEq, Repr

/-- Modelled from the spec: the destination part of `.status.reconciledState`. -/
structure ReconciledDestination where
  Name : String := ""
  Namespace : String := ""
deriving DecidableEq, Repr

/-- Modelled from the spec: `.status.reconciledState` of a GitOpsDeployment. -/
structure ReconciledState where
  Source : ReconciledSource := {}
  Destination : ReconciledDestination := {}
deriving DecidableEq, Repr

/-- Modelled from the spec: `.status` of a GitOpsDeployment, outside the available sources; the
fields the tests read. Slices are lists (the nil slice is the empty list). -/
structure GitOpsDeploymentStatus where
  Health : HealthStatus := {}
  Sync : SyncStatus := {}
  Resources : List ResourceStatus := []
  Conditions : List GitOpsDeploymentCondition := []
  ReconciledState : ReconciledState := {}
  OperationState : Option OperationState := none
deriving DecidableEq, Repr

/-- Modelled from the spec: the `GitOpsDeployment` custom resource
(`managedgitopsv1alpha1.GitOpsDeployment`, outside the available sources). `Finalizers` and
`ResourceVersion` are the fields of its object metadata that finalizer handling and optimistic
concurrency use. -/
structure GitOpsDeployment where
  Name : String
  Namespace : String
  UID : String := ""
  Spec : GitOpsDeploymentSpec := {}
  Status : GitOpsDeploymentStatus := {}
  Finalizers : List String := []
  ResourceVersion : Nat := 0
deriving DecidableEq, Repr

/-- The GitOpsDeployment `(name, namespace)` among the custom resources of a workspace, as a
client `Get` finds it. -/
def getGitOpsDeployment (gitopsDeployments : List GitOpsDeployment) (name namespace_ : String) :
    Option GitOpsDeployment :=
  gitopsDeployments.find? (fun d => d.Name = name ∧ d.Namespace = namespace_)

/-- Modelled from the spec: the fields of `applicationEventLoopRunner_Action` (outside the
available sources) that identify the event; clients, logger and factories are handles. -/
structure applicationEventLoopRunner_Action where
  eventResourceName : String
  eventResourceNamespace : String
  workspaceID : String
deriving DecidableEq, Repr

/-! ## Workspace event loop: who is told about a managed environment (spec §4.6) -/

/-- Modelled from the spec: `handleManagedEnvironmentModified_shouldInformGitOpsDeployment` is
outside the available sources. Spec §4.6: the predicate "returns true when either (a) the
deployment's `destination.environment` matches the event's resource name, or (b) the
Application row reachable via DeploymentToApplicationMapping currently references a
ManagedEnvironment row that maps back to the event's resource via APICRToDatabaseMapping."
The rows are looked up by their keys; the result is the flag and the error. -/
def handleManagedEnvironmentModified_shouldInformGitOpsDeployment
    (gitopsDeployment : GitOpsDeployment) (managedEnvEvent : EventLoopEvent) (db : Database) :
    Bool × Option GoError :=
  if gitopsDeployment.Spec.Destination.Environment = managedEnvEvent.Request.Name then
    (true, none)
  else
    match db.getDeploymentToApplicationMapping gitopsDeployment.Name gitopsDeployment.Namespace
        managedEnvEvent.WorkspaceID with
    | none => (false, none)
    | some mapping =>
      match db.getApplicationById mapping.Application_id with
      | none => (false, none)
      | some application =>
        (db.apiCRToDatabaseMappings.any (fun m =>
          m.APIResourceType = APICRToDatabaseMapping_ResourceType_GitOpsDeploymentManagedEnvironment
            ∧ m.APIResourceName = managedEnvEvent.Request.Name
            ∧ m.APIResourceNamespace = managedEnvEvent.Request.Namespace
            ∧ m.NamespaceUID = managedEnvEvent.WorkspaceID
            ∧ m.DBRelationType = APICRToDatabaseMapping_DBRelationType_ManagedEnvironment
            ∧ m.DBRelationKey = application.Managed_environment_id), none)

/-! ### Rows and resources of the runner tests, used as concrete inputs -/

/-- The GitOpsDeployment `my-user/my-gitops-depl` of the tests of the workspace event loop; it
names no managed environment. -/
def abcDeployment : GitOpsDeployment :=
  { Name := "my-gitops-depl", Namespace := "my-user", UID := "uid-depl",
    Spec := { Source := { RepoURL := "https://github.com/abc-org/abc-repo", Path := "/abc-path",
                          TargetRevision := "abc-commit" },
              Destination := { Namespace := "abc-namespace" }, Type_ := "automated" } }

/-- The mapping from the managed-environment CR `my-user/my-managed-env` to the row
`test-managed-env`. -/
def managedEnvMapping : APICRToDatabaseMapping :=
  { APIResourceType := "GitOpsDeploymentManagedEnvironment", APIResourceUID := "uid-env",
    APIResourceName := "my-managed-env", APIResourceNamespace := "my-user",
    NamespaceUID := "uid-1", DBRelationType := "ManagedEnvironment",
    DBRelationKey := "test-managed-env" }

/-- The database of the test "should return true if there are applications that match managed
environments": the application of `my-gitops-depl` references the row `test-managed-env`. -/
def testDatabase : Database :=
  { applications :=
      [{ Application_id := "test-my-application", Name := "application", Spec_field := "{}",
         Engine_instance_inst_id := "test-fake-engine-instance-id",
         Managed_environment_id := "test-managed-env" }],
    deploymentToApplicationMappings :=
      [{ Deploymenttoapplicationmapping_uid_id := "test-dtam",
         DeploymentName := "my-gitops-depl", DeploymentNamespace := "my-user",
         NamespaceUID := "uid-1", Application_id := "test-my-application" }],
    apiCRToDatabaseMappings := [managedEnvMapping],
    managedEnvironments :=
      [{ Managedenvironment_id := "test-managed-env", Name := "my-managed-env",
         Clustercredentials_id := "test-cluster-creds-test" }] }

/-! ## Application event loop runner: status tick (spec §4.5) -/

/-- Modelled from the spec: the source part of `fauxargocd.FauxComparedTo` (outside the
available sources), spec §6 `{repoURL, path, targetRevision}`. -/
structure FauxApplicationSource where
  RepoURL : String := ""
  Path : String := ""
  TargetRevision : String := ""
deriving DecidableEq, Repr

/-- Modelled from the spec: the destination part of `fauxargocd.FauxComparedTo`, spec §6
`{namespace, name}`. -/
structure FauxApplicationDestination where
  Namespace : String := ""
  Name : String := ""
deriving DecidableEq, Repr

/-- Modelled from the spec: `fauxargocd.FauxComparedTo`, the JSON value of the
`reconciled_state` column (spec §6). -/
structure FauxComparedTo where
  Source : FauxApplicationSource := {}
  Destination : FauxApplicationDestination := {}
deriving DecidableEq, Repr

/-- Modelled from the spec: the decoders of the columns of an `ApplicationState` row: the gzip
codec of `resources` and `operation_state`, the YAML parser of `conditions`, the JSON parser
of `reconciled_state`. They are library code and are parameters here. -/
structure StatusDecoders where
  resources : Decoders (Option (List ResourceStatus))
  operationState : Decoders OperationState
  conditions : List Nat → Except GoError (List ApplicationCondition)
  reconciledState : String → Except GoError FauxComparedTo

/-- Modelled from the spec: the value of `.status` of a condition that holds; the constant is
declared in `managedgitopsv1alpha1`, outside the available sources. -/
def GitOpsConditionStatusTrue : String := "True"

/-- What the database says the status of a deployment is: nothing (no mapping or no
`ApplicationState` row), a decoding error, or a status. -/
inductive ObservedStatus where
  | absent
  | failed (err : GoError)
  | found (status : GitOpsDeploymentStatus)
deriving DecidableEq, Repr

/-- Modelled from the spec: the first four steps of `handleUpdateDeploymentStatusTick` (outside
the available sources), spec §4.5: locate the DeploymentToApplicationMapping; load the
ApplicationState; decompress `resources` and `operation_state`, parse `conditions` and
`reconciled_state`; resolve `reconciled_state.destination.name`, a ManagedEnvironment row id,
to the name of the managed-environment CR through the APICRToDatabaseMapping, leaving it blank
when there is no mapping. -/
def observedDeploymentStatus (decoders : StatusDecoders) (db : Database)
    (workspaceID gitopsDeplName gitopsDeplNamespace : String) : ObservedStatus :=
  match db.getDeploymentToApplicationMapping gitopsDeplName gitopsDeplNamespace workspaceID with
  | none => .absent
  | some mapping =>
    match db.getApplicationStateById mapping.Application_id with
    | none => .absent
    | some applicationState =>
      match decompressResourceData decoders.resources applicationState.Resources with
      | (_, some err) => .failed err
      | (resources, none) =>
        match decompressOperationState decoders.operationState
            applicationState.OperationState with
        | (_, some err) => .failed err
        | (operationState, none) =>
          match decoders.conditions applicationState.Conditions with
          | .error err => .failed err
          | .ok conditions =>
            match decoders.reconciledState applicationState.ReconciledState with
            | .error err => .failed err
            | .ok comparedTo =>
              let destinationName :=
                match db.apiCRToDatabaseMappings.find? (fun m =>
                  m.APIResourceType =
                      APICRToDatabaseMapping_ResourceType_GitOpsDeploymentManagedEnvironment
                    ∧ m.DBRelationType = APICRToDatabaseMapping_DBRelationType_ManagedEnvironment
                    ∧ m.DBRelationKey = comparedTo.Destination.Name) with
                | some m => m.APIResourceName
                | none => ""
              .found
                { Health := { Status := applicationState.Health,
                              Message := applicationState.Message },
                  Sync := { Status := applicationState.Sync_Status,
                            Revision := applicationState.Revision },
                  Resources := resources.getD [],
                  Conditions := conditions.map (fun c =>
                    { Type_ := c.Type_, Message := c.Message,
                      Status := GitOpsConditionStatusTrue }),
                  ReconciledState :=
                    { Source := { RepoURL := comparedTo.Source.RepoURL,
                                  Path := comparedTo.Source.Path,
                                  Branch := comparedTo.Source.TargetRevision },
                      Destination := { Name := destinationName,
                                       Namespace := comparedTo.Destination.Namespace } },
                  OperationState := operationState }

/-- Modelled from the spec: `applicationEventRunner_handleUpdateDeploymentStatusTick` (outside
the available sources), spec §4.5: it "returns `(false, nil)`" when the mapping or the
ApplicationState is absent, and otherwise "computes a diff against the CR's current `.status`;
only issues a status write if any field differs; returns `updated` accordingly". The result is
the custom resources afterwards, `updated`, and the error. A deployment that is not among the
custom resources is not written (the spec does not name this case). -/
def applicationEventRunner_handleUpdateDeploymentStatusTick (decoders : StatusDecoders)
    (a : applicationEventLoopRunner_Action) (gitopsDeplName gitopsDeplNamespace : String)
    (gitopsDeployments : List GitOpsDeployment) (db : Database) :
    List GitOpsDeployment × Bool × Option GoError :=
  match observedDeploymentStatus decoders db a.workspaceID gitopsDeplName
      gitopsDeplNamespace with
  | .absent => (gitopsDeployments, false, none)
  | .failed err => (gitopsDeployments, false, some err)
  | .found status =>
    match getGitOpsDeployment gitopsDeployments gitopsDeplName gitopsDeplNamespace with
    | none => (gitopsDeployments, false, none)
    | some gitopsDeployment =>
      if gitopsDeployment.Status = status then (gitopsDeployments, false, none)
      else
        (gitopsDeployments.map (fun d =>
          if d.Name = gitopsDeplName ∧ d.Namespace = gitopsDeplNamespace then
            { d with Status := status }
          else d), true, none)

/-- Decoders for the examples: the gzip reader passes the bytes through, the columns decode to
one empty `ResourceStatus`, an operation state "Sample message", no conditions, and the
compared-to value of the tests. -/
def sampleDecoders : StatusDecoders :=
  { resources := { gunzip := fun bytes => .ok bytes, unmarshal := fun _ => .ok (some [{}]) },
    operationState :=
      { gunzip := fun bytes => .ok bytes,
        unmarshal := fun _ => .ok { Message := "Sample message", RetryCount := 1,
                                    Automated := true, RetryLimit := -1 } },
    conditions := fun _ => .ok [],
    reconciledState := fun _ =>
      .ok { Source := { RepoURL := "test-url", Path := "test-path",
                        TargetRevision := "test-branch" },
            Destination := { Namespace := "test-namespace", Name := "" } } }

/-- The GitOpsDeployment `my-user/my-gitops-depl` of the status tests, with an empty status. -/
def myGitopsDepl : GitOpsDeployment :=
  { Name := "my-gitops-depl", Namespace := "my-user", UID := "uid-depl",
    Spec := { Source := { RepoURL := "https://github.com/test/test",
                          Path := "resources/test-data/sample-gitops-repository/environments/overlays/dev" } } }

/-- The event of the status tests: deployment `my-gitops-depl` in workspace `uid-1`. -/
def myGitopsDeplAction : applicationEventLoopRunner_Action :=
  { eventResourceName := "my-gitops-depl", eventResourceNamespace := "my-user",
    workspaceID := "uid-1" }

/-- The database of scenario S1: the deployment is mapped to the application `app-1`, whose
state is Healthy / Synced at revision `abcdefg`. -/
def statusDatabase : Database :=
  { applications := [{ Application_id := "app-1", Name := "my-gitops-depl" }],
    applicationStates := [{ healthyRow with Resources := [31, 139], OperationState := [31, 139] }],
    deploymentToApplicationMappings :=
      [{ Deploymenttoapplicationmapping_uid_id := "dtam-1", DeploymentName := "my-gitops-depl",
         DeploymentNamespace := "my-user", NamespaceUID := "uid-1", Application_id := "app-1" }] }

/-! ## Application event loop runner: deployment modified (spec §4.5) -/

/-- Modelled from the spec: the user errors of a GitOpsDeployment that spec §4.5 and §7 name:
`PathIsRequired`, `InvalidPathSlash`, and invalid managed-environment credentials. The texts of
the constants are declared in `managedgitopsv1alpha1`, outside the available sources. -/
inductive GitOpsDeploymentUserError where
  | PathIsRequired
  | InvalidPathSlash
  | InvalidManagedEnvironment (err : GoError)
deriving DecidableEq, Repr

/-- Modelled from the spec: the non-nil values of `gitopserrors.UserError` (outside the
available sources): an error the user can correct, or a system error. -/
inductive RunnerError where
  | user (e : GitOpsDeploymentUserError)
  | system (err : GoError)
deriving DecidableEq, Repr

/-- Modelled from the spec: the result of `ReconcileSharedManagedEnv` as spec §4.3 gives it,
`(ManagedEnvironment | nil, isUserError, err)`. -/
structure SharedManagedEnv where
  managedEnv : Option ManagedEnvironment := none
  isUserErr : Bool := false
  err : Option GoError := none
deriving DecidableEq, Repr

/-- Modelled from the spec: what the deployment handler gets from outside the database: the
shared resource loop's `ReconcileSharedManagedEnv` (for the deployment's namespace, the name in
`destination.environment`, and whether the target is the deployment's own namespace), the
canonical engine-application spec of spec §4.5 step 4, and the engine instance and cluster
user that new rows refer to. -/
structure RunnerCollaborators where
  ReconcileSharedManagedEnv : (namespace_ : String) → (name : String) →
    (isWorkspaceTarget : Bool) → SharedManagedEnv
  createSpecField : GitOpsDeployment → (managedEnvironmentId : String) → String
  engineInstanceId : String
  clusterUserId : String

/-- Modelled from the spec: the values returned by
`applicationEventRunner_handleDeploymentModified` that the claims speak of: the shutdown
signal, the Application row, and the error. -/
structure DeploymentModifiedResult where
  signalledShutdown : Bool := false
  application : Option Application := none
  err : Option RunnerError := none
deriving DecidableEq, Repr

/-- Modelled from the spec: creation of an `Operation` row for an Application (spec §3
invariant 5). -/
def Database.createOperation (db : Database) (applicationId instanceId ownerUserId : String) :
    Database :=
  { db with
    operations := db.operations ++
      [{ Operation_id := "operation-" ++ toString db.nextId, Resource_id := applicationId,
         Resource_type := "Application", Instance_id := instanceId,
         Operation_owner_user_id := ownerUserId, State := "Waiting" }],
    nextId := db.nextId + 1 }

/-- Modelled from the spec: `applicationEventRunner_handleDeploymentModified` is outside the
available sources. Spec §4.5, steps 1 to 6:
1. fetch the CR; if absent and a mapping exists, tear down the Application, ApplicationState,
   mapping and SyncOperation rows, create an Operation, signal shutdown;
2. `source.path == ""` is the user error `PathIsRequired`, `source.path == "/"` is
   `InvalidPathSlash`;
3. resolve the managed environment through the shared resource loop (the deployment's own
   namespace when `destination.environment` is empty);
4. compute the spec field and compare it with the stored Application row;
5. if no Application exists, create Application, mapping and an initial Operation;
6. if the Application exists and spec field or managed environment differ, update the row and
   create a new Operation.
The result is `none` where the spec does not say what happens (CR absent and no mapping).
Status conditions (step 7) are not part of this function's model. -/
def applicationEventRunner_handleDeploymentModified (srl : RunnerCollaborators)
    (a : applicationEventLoopRunner_Action) (gitopsDeployments : List GitOpsDeployment)
    (db : Database) : Option (Database × DeploymentModifiedResult) :=
  let mapping := db.getDeploymentToApplicationMapping a.eventResourceName
    a.eventResourceNamespace a.workspaceID
  match getGitOpsDeployment gitopsDeployments a.eventResourceName a.eventResourceNamespace with
  | none =>
    match mapping with
    | none => none
    | some m =>
      let db1 : Database :=
        { db with
          applications := db.applications.filter (fun x => x.Application_id ≠ m.Application_id),
          applicationStates := db.applicationStates.filter
            (fun x => x.Applicationstate_application_id ≠ m.Application_id),
          deploymentToApplicationMappings :=
            db.deploymentToApplicationMappings.filter (fun x => x ≠ m),
          syncOperations :=
            db.syncOperations.filter (fun x => x.Application_id ≠ m.Application_id) }
      some (db1.createOperation m.Application_id srl.engineInstanceId srl.clusterUserId,
        { signalledShutdown := true })
  | some gitopsDeployment =>
    if gitopsDeployment.Spec.Source.Path = "" then
      some (db, { err := some (.user .PathIsRequired) })
    else if gitopsDeployment.Spec.Source.Path = "/" then
      some (db, { err := some (.user .InvalidPathSlash) })
    else
      let env := srl.ReconcileSharedManagedEnv gitopsDeployment.Namespace
        gitopsDeployment.Spec.Destination.Environment
        (decide (gitopsDeployment.Spec.Destination.Environment = ""))
      match env.err with
      | some err =>
        some (db, { err := some (if env.isUserErr then .user (.InvalidManagedEnvironment err)
                                 else .system err) })
      | none =>
        let managedEnvironmentId :=
          match env.managedEnv with
          | some e => e.Managedenvironment_id
          | none => ""
        let specField := srl.createSpecField gitopsDeployment managedEnvironmentId
        match mapping.bind (fun m => db.getApplicationById m.Application_id) with
        | none =>
          let application : Application :=
            { Application_id := "application-" ++ toString db.nextId,
              Name := gitopsDeployment.Name, Spec_field := specField,
              Engine_instance_inst_id := srl.engineInstanceId,
              Managed_environment_id := managedEnvironmentId }
          let db1 : Database :=
            { db with
              applications := db.applications ++ [application],
              deploymentToApplicationMappings := db.deploymentToApplicationMappings ++
                [{ Deploymenttoapplicationmapping_uid_id := gitopsDeployment.UID,
                   DeploymentName := gitopsDeployment.Name,
                   DeploymentNamespace := gitopsDeployment.Namespace,
                   NamespaceUID := a.workspaceID,
                   Application_id := application.Application_id }],
              nextId := db.nextId + 1 }
          some (db1.createOperation application.Application_id srl.engineInstanceId
            srl.clusterUserId, { application := some application })
        | some application =>
          if application.Spec_field ≠ specField
              ∨ application.Managed_environment_id ≠ managedEnvironmentId then
            let updated : Application :=
              { application with Spec_field := specField,
                                 Managed_environment_id := managedEnvironmentId }
            let db1 : Database :=
              { db with
                applications := db.applications.map (fun x =>
                  if x.Application_id = application.Application_id then updated else x) }
            some (db1.createOperation application.Application_id
              application.Engine_instance_inst_id srl.clusterUserId,
              { application := some updated })
          else
            some (db, { application := some application })

/-- Collaborators for the examples: the shared resource loop resolves the deployment's own
namespace to the row `local-env` and every named environment to the given result. -/
def collaboratorsWith (named : SharedManagedEnv) : RunnerCollaborators :=
  { ReconcileSharedManagedEnv := fun _ _ isWorkspaceTarget =>
      if isWorkspaceTarget then { managedEnv := some { Managedenvironment_id := "local-env" } }
      else named,
    createSpecField := fun d managedEnvironmentId =>
      d.Spec.Source.RepoURL ++ " " ++ d.Spec.Source.Path ++ " " ++ managedEnvironmentId,
    engineInstanceId := "test-fake-engine-instance-id",
    clusterUserId := "test-user" }

/-- The deployment `my-gitops-depl` with `spec.source.path` left empty. -/
def myGitopsDeplNoPath : GitOpsDeployment :=
  { myGitopsDepl with Spec := { Source := { RepoURL := "https://github.com/test/test" } } }

/-- The deployment `my-gitops-depl` with `spec.source.path` set to "/". -/
def myGitopsDeplSlashPath : GitOpsDeployment :=
  { myGitopsDepl with
    Spec := { Source := { RepoURL := "https://github.com/test/test", Path := "/" } } }

/-- The deployment `my-gitops-depl`, valid path, targeting the managed environment
`my-managed-env`. -/
def myGitopsDeplWithEnv : GitOpsDeployment :=
  { myGitopsDepl with
    Spec := { myGitopsDepl.Spec with Destination := { Environment := "my-managed-env" } } }

/-- The message the workspace event loop sends for the event `managedEnvEvent`. -/
def managedEnvLoopMessage : workspaceResourceLoopMessage :=
  { apiNamespaceClient := some (clientOf [myUserNamespace]),
    messageType := "processManagedEnvironment",
    payload := .eventLoopMessage managedEnvMessage }

/-- The retry loop after `managedEnvLoopMessage` was received twice, its task was dispatched,
and the message was received a third time. -/
def busyRetryLoop : TaskRetryLoop workspaceResourceEventTask :=
  (internalWorkspaceResourceEventLoop managedEnvLoopMessage succeedingSharedResourceLoop).register
    (TaskRetryLoop.dispatch
      ((internalWorkspaceResourceEventLoop managedEnvLoopMessage
          succeedingSharedResourceLoop).register
        ((internalWorkspaceResourceEventLoop managedEnvLoopMessage
            succeedingSharedResourceLoop).register NewTaskRetryLoop))
      "managed-env-my-user-my-managed-env")

/-! ### workspace_resource_event_loop.go : the retry-loop task -/

/-- Go `workspaceResourceEventTask.PerformTask`. The predicate
`application_event_loop.IsManagedEnvironmentConnectionUserError` is declared outside the
available sources and is a parameter. A panic of the callee propagates. -/
def workspaceResourceEventTask.PerformTask
    (IsManagedEnvironmentConnectionUserError : Option GoError → Bool)
    (wert : workspaceResourceEventTask) : Run (Bool × Option GoError) :=
  let r := internalProcessWorkspaceResourceMessage wert.msg wert.sharedResourceLoop
  match r.outcome with
  | .panicked reason => ⟨r.effects, .panicked reason⟩
  | .returned (shouldRetry, err) =>
    if IsManagedEnvironmentConnectionUserError err then
      ⟨r.effects ++
        [.log .info ("user cluster credentials for URL are invalid: " ++ err.getD "<nil>")],
        .returned (shouldRetry, none)⟩
    else
      match err with
      | some _ =>
        ⟨r.effects ++ [.log .error "unable to process workspace resource message"],
          .returned (shouldRetry, none)⟩
      | none => ⟨r.effects, .returned (shouldRetry, none)⟩

/-- A managed-environment message whose `EventLoopMessage` has no event. -/
def nilEventLoopMessage : workspaceResourceLoopMessage :=
  { apiNamespaceClient := some (clientOf [myUserNamespace]),
    messageType := "processManagedEnvironment",
    payload := .eventLoopMessage { MessageType := "ManagedEnvironmentModified", Event := none } }

/-- A predicate for the examples: an error is a connection user error when its text ends in
the word `Unauthorized`. -/
def endsInUnauthorized (err : Option GoError) : Bool :=
  match err with
  | some e => "Unauthorized".data.isSuffixOf e.data
  | none => false

/-- The invariant of the cache map: every entry is stored under its own application id, and no
entry is stored under the empty key. -/
def Cache.storedUnderOwnId (cache : Cache) : Prop :=
  ∀ (k : String) (v : ApplicationState), Cache.get cache k = some v →
    v.Applicationstate_application_id = k ∧ k ≠ ""

/-- Collaborators of scenario S5 after the managed-environment CR was created: the named
environment resolves to the row `test-managed-env`. -/
def collaboratorsWithManagedEnv : RunnerCollaborators :=
  collaboratorsWith { managedEnv := some { Managedenvironment_id := "test-managed-env",
                                           Name := "my-managed-env" } }

/-- The database after the handler has reconciled `my-gitops-depl`, targeting its own
namespace, on an empty database (first step of scenario S5). -/
def createdDatabase : Database :=
  match applicationEventRunner_handleDeploymentModified (collaboratorsWith {})
      myGitopsDeplAction [myGitopsDepl] {} with
  | some (db1, _) => db1
  | none => {}

/-- The Application row of `my-gitops-depl` in `createdDatabase`. -/
def createdApplication : Application :=
  { Application_id := "application-0", Name := "my-gitops-depl",
    Spec_field := "https://github.com/test/test "
      ++ "resources/test-data/sample-gitops-repository/environments/overlays/dev local-env",
    Engine_instance_inst_id := "test-fake-engine-instance-id",
    Managed_environment_id := "local-env" }

/-- The run of the handler on `createdDatabase` after `destination.environment` was switched
to `my-managed-env` (second step of scenario S5): the database afterwards and the result. -/
def switchedRun : Database × DeploymentModifiedResult :=
  match applicationEventRunner_handleDeploymentModified collaboratorsWithManagedEnv
      myGitopsDeplAction [myGitopsDeplWithEnv] createdDatabase with
  | some r => r
  | none => ({}, {})

/-- The database after `my-gitops-depl`, targeting `my-managed-env`, was reconciled on an empty
database (first step of scenario S4). -/
def createdWithEnvDatabase : Database :=
  match applicationEventRunner_handleDeploymentModified collaboratorsWithManagedEnv
      myGitopsDeplAction [myGitopsDeplWithEnv] {} with
  | some (db1, _) => db1
  | none => {}

/-! ## Application event loop runner: finalizer removal (spec §4.5, §9) -/

/-- Modelled from the spec: how an `Update` of the API server ends under optimistic
concurrency (spec §9, "read-modify-write with conflict detection"). -/
inductive UpdateOutcome where
  | updated (stored : GitOpsDeployment)
  | conflict
  | notFound
deriving DecidableEq, Repr

/-- Modelled from the spec: `Update` of one GitOpsDeployment on the API server (the client is
outside the available sources). `stored` is the object the server holds under the key, if any.
The write is accepted only if the object still exists and the copy written carries the stored
resource version; an accepted write gets the next resource version. -/
def updateGitOpsDeployment (stored : Option GitOpsDeployment) (obj : GitOpsDeployment) :
    UpdateOutcome :=
  match stored with
  | none => .notFound
  | some current =>
    if current.ResourceVersion = obj.ResourceVersion then
      .updated { obj with ResourceVersion := current.ResourceVersion + 1 }
    else .conflict

/-- What a call of `removeFinalizerIfExists` leaves behind: the object the server holds
afterwards, the `Update` calls issued in order (with whether each was accepted), and the error
returned. -/
structure FinalizerRemoval where
  stored : Option GitOpsDeployment
  updates : List Bool
  err : Option GoError
deriving DecidableEq, Repr

/-- Modelled from the spec: `removeFinalizerIfExists` (package `application_event_loop`) is
outside the available sources. Spec §4.5: the runner removes the finalizer "with
optimistic-concurrency retry — on a conflict it re-reads the latest version and retries the
strip until success or the object is gone"; spec §9: "read-modify-write with conflict detection
and bounded retry". Each attempt reads the latest version, strips the finalizer if it is there,
and writes. `gitopsDepl` is the caller's copy, which only names the object. `writers` are the
concurrent writers: the first one acts between the read and the write of the first attempt
that writes, the second one in the next such attempt, and so on. -/
def removeFinalizerIfExists :
    (attempts : Nat) → (stored : Option GitOpsDeployment) → (gitopsDepl : GitOpsDeployment) →
    (finalizer : String) → (writers : List (Option GitOpsDeployment → Option GitOpsDeployment)) →
    FinalizerRemoval
  | 0, stored, _, _, _ =>
    { stored := stored, updates := [], err := some "the object has been modified" }
  | attempts + 1, stored, gitopsDepl, finalizer, writers =>
    match stored with
    | none => { stored := none, updates := [], err := none }
    | some latest =>
      if finalizer ∈ latest.Finalizers then
        let stored1 :=
          match writers with
          | [] => stored
          | w :: _ => w stored
        match updateGitOpsDeployment stored1
            { latest with Finalizers := latest.Finalizers.filter (fun f => f ≠ finalizer) } with
        | .updated obj => { stored := some obj, updates := [true], err := none }
        | .notFound => { stored := stored1, updates := [false], err := none }
        | .conflict =>
          let rest := removeFinalizerIfExists attempts stored1 gitopsDepl finalizer writers.tail
          { rest with updates := false :: rest.updates }
      else { stored := stored, updates := [], err := none }

/-- The finalizer of the test "should remove the finalizer when it is found". -/
def testFinalizer : String := "managed.gitops.test/test"

/-- The stored deployment of the finalizer tests: it carries the finalizer, at resource
version 2. -/
def storedWithFinalizer : GitOpsDeployment :=
  { abcDeployment with Finalizers := [testFinalizer], ResourceVersion := 2 }

/-- A concurrent writer that changes the path of the stored deployment. -/
def pathWriter (stored : Option GitOpsDeployment) : Option GitOpsDeployment :=
  stored.map (fun d =>
    { d with Spec := { d.Spec with Source := { d.Spec.Source with Path := "/sample" } },
             ResourceVersion := d.ResourceVersion + 1 })

/-! ## GitOpsDeployment conditions (spec §4.5 step 7, §7) -/

/-- Modelled from the spec: a non-nil `gitopserrors.UserError` as `NewUserDevError` builds it
(outside the available sources): the message for the user and the error for the developer. -/
structure UserDevError where
  userError : String
  devError : GoError
deriving DecidableEq, Repr

/-- Modelled from the spec: the condition type `ErrorOccurred` (spec §7); the constant is
declared in `managedgitopsv1alpha1`, outside the available sources. -/
def GitOpsDeploymentConditionErrorOccurred : String := "ErrorOccurred"

/-- Modelled from the spec: the value of `.status` of a condition that does not hold; the
constant is declared in `managedgitopsv1alpha1`, outside the available sources. -/
def GitOpsConditionStatusFalse : String := "False"

/-- Modelled from the spec: `HasCondition` of the condition manager (package `condition`,
outside the available sources): whether a condition of the type is in the list. -/
def HasCondition (conditions : List GitOpsDeploymentCondition) (conditionType : String) : Bool :=
  conditions.any (fun c => c.Type_ = conditionType)

/-- Modelled from the spec: `FindCondition` of the condition manager (outside the available
sources): the condition of the type, if there is one. -/
def FindCondition (conditions : List GitOpsDeploymentCondition) (conditionType : String) :
    Option GitOpsDeploymentCondition :=
  conditions.find? (fun c => c.Type_ = conditionType)

/-- Modelled from the spec: `SetCondition` of the condition manager (outside the available
sources): the condition of the type gets the status, reason and message; it is added when the
list has none of the type. -/
def SetCondition (conditions : List GitOpsDeploymentCondition)
    (conditionType status reason message : String) : List GitOpsDeploymentCondition :=
  if HasCondition conditions conditionType then
    conditions.map (fun c =>
      if c.Type_ = conditionType then
        { c with Status := status, Reason := reason, Message := message }
      else c)
  else
    conditions ++
      [{ Type_ := conditionType, Status := status, Reason := reason, Message := message }]

/-- What a call of `setGitOpsDeploymentCondition` leaves behind: the deployment object of the
adapter, the objects written through the status writer in order, and the error returned. -/
structure ConditionUpdate where
  gitopsDeployment : GitOpsDeployment
  statusWrites : List GitOpsDeployment
  err : Option GoError
deriving DecidableEq, Repr

/-- Modelled from the spec: `gitOpsDeploymentAdapter.setGitOpsDeploymentCondition` is outside
the available sources. Spec §7: the application event loop "translates user errors into
`ErrorOccurred` conditions with reason `ReconcileError` and, when the error clears,
transitions the condition to `False` with reason `ReconcileErrorResolved`". With an error the
condition is set to `True` with the given reason and the user message, and the status is
written; without an error a condition that is present is set to `False` and the status is
written; a condition that is absent is left absent. `statusUpdate` is the status writer of the
client, which may fail. -/
def setGitOpsDeploymentCondition (statusUpdate : GitOpsDeployment → Option GoError)
    (gitopsDeployment : GitOpsDeployment) (conditionType reason : String)
    (errMessage : Option UserDevError) : ConditionUpdate :=
  match errMessage with
  | some e =>
    let updated : GitOpsDeployment :=
      { gitopsDeployment with
        Status := { gitopsDeployment.Status with
          Conditions := SetCondition gitopsDeployment.Status.Conditions conditionType
            GitOpsConditionStatusTrue reason e.userError } }
    { gitopsDeployment := updated, statusWrites := [updated], err := statusUpdate updated }
  | none =>
    if HasCondition gitopsDeployment.Status.Conditions conditionType then
      let updated : GitOpsDeployment :=
        { gitopsDeployment with
          Status := { gitopsDeployment.Status with
            Conditions := SetCondition gitopsDeployment.Status.Conditions conditionType
              GitOpsConditionStatusFalse "ReconcileErrorResolved" "" } }
      { gitopsDeployment := updated, statusWrites := [updated], err := statusUpdate updated }
    else
      { gitopsDeployment := gitopsDeployment, statusWrites := [], err := none }

/-! ## Database query façade: ClusterUser (spec §4.2) -/

/-- Modelled from the spec: the errors of the query façade (package `db`, outside the
available sources): the "distinguished not-found sentinel" of spec §4.2, or any other
failure. -/
inductive QueryError where
  | resultNotFound
  | failed (text : String)
deriving DecidableEq, Repr

/-- Modelled from the spec: `db.IsResultNotFoundError` (outside the available sources),
spec §4.2 `IsResultNotFoundError(err) → bool`. -/
def IsResultNotFoundError (err : Option QueryError) : Bool :=
  decide (err = some .resultNotFound)

/-- Modelled from the spec: `CreateClusterUser` (outside the available sources). The row is
inserted unless a row with its primary key exists or a row with its user name exists (spec §3:
"one per distinct authenticated identity"). -/
def Database.CreateClusterUser (db : Database) (obj : ClusterUser) :
    Database × Option QueryError :=
  if db.clusterUsers.any (fun u =>
      u.Clusteruser_id = obj.Clusteruser_id ∨ u.User_name = obj.User_name) then
    (db, some (.failed "duplicate key value violates unique constraint"))
  else
    ({ db with clusterUsers := db.clusterUsers ++ [obj] }, none)

/-- Modelled from the spec: `GetClusterUserById` (outside the available sources): the object
is filled from the row with its primary key; a missing row is the not-found sentinel. -/
def Database.GetClusterUserById (db : Database) (obj : ClusterUser) :
    ClusterUser × Option QueryError :=
  match db.clusterUsers.find? (fun u => u.Clusteruser_id = obj.Clusteruser_id) with
  | some row => (row, none)
  | none => (obj, some .resultNotFound)

/-- Modelled from the spec: `GetClusterUserByUsername` (outside the available sources): the
object is filled from the row with its user name; a missing row is the not-found sentinel. -/
def Database.GetClusterUserByUsername (db : Database) (obj : ClusterUser) :
    ClusterUser × Option QueryError :=
  match db.clusterUsers.find? (fun u => u.User_name = obj.User_name) with
  | some row => (row, none)
  | none => (obj, some .resultNotFound)

/-- Modelled from the spec: `DeleteClusterUserById` (outside the available sources): the rows
with the primary key are removed and counted; spec §4.2: not-found on delete is "a
zero-rowsAffected non-error". -/
def Database.DeleteClusterUserById (db : Database) (id : String) :
    Database × Int × Option QueryError :=
  ({ db with clusterUsers := db.clusterUsers.filter (fun u => u.Clusteruser_id ≠ id) },
    ((db.clusterUsers.filter (fun u => u.Clusteruser_id = id)).length : Int), none)

/-- The user of the ClusterUser test. -/
def tirthUser : ClusterUser := { Clusteruser_id := "test-user-id", User_name := "tirthuser" }

/-! ## Theorems -/

/-! ### Admission webhook -/

/-- C1: `ValidateCreate` returns an error if and only if the name is exactly the sentinel; for
the sentinel it returns nil warnings and the error "name should not be <sentinel>", for every
other name nil warnings and a nil error. -/
theorem ValidateCreate_rejects_exactly_the_sentinel (r : GitOpsDeploymentSyncRun) :
    ((r.ValidateCreate).2 ≠ none ↔
        r.Name = "zyxwvutsrqponmlkjihgfedcba-abcdefghijklmnoqrstuvwxyz") ∧
    (r.Name = "zyxwvutsrqponmlkjihgfedcba-abcdefghijklmnoqrstuvwxyz" →
        r.ValidateCreate =
          (none, some "name should not be zyxwvutsrqponmlkjihgfedcba-abcdefghijklmnoqrstuvwxyz")) ∧
    (r.Name ≠ "zyxwvutsrqponmlkjihgfedcba-abcdefghijklmnoqrstuvwxyz" →
        r.ValidateCreate = (none, none)) := by
  unfold GitOpsDeploymentSyncRun.ValidateCreate invalid_name error_invalid_name
  by_cases h : r.Name = "zyxwvutsrqponmlkjihgfedcba-abcdefghijklmnoqrstuvwxyz"
  · simp [h]
  · simp [h]

/-- C1 at concrete names: the sentinel is rejected, a name that contains the sentinel and a
name that differs from it in case are admitted. -/
theorem ValidateCreate_rejects_exactly_the_sentinel_witness :
    GitOpsDeploymentSyncRun.ValidateCreate
        { Name := "zyxwvutsrqponmlkjihgfedcba-abcdefghijklmnoqrstuvwxyz", Namespace := "my-user" } =
      (none, some "name should not be zyxwvutsrqponmlkjihgfedcba-abcdefghijklmnoqrstuvwxyz") ∧
    GitOpsDeploymentSyncRun.ValidateCreate
        { Name := "zyxwvutsrqponmlkjihgfedcba-abcdefghijklmnoqrstuvwxyz-2", Namespace := "my-user" } =
      (none, none) ∧
    GitOpsDeploymentSyncRun.ValidateCreate
        { Name := "ZYXWVUTSRQPONMLKJIHGFEDCBA-ABCDEFGHIJKLMNOQRSTUVWXYZ", Namespace := "my-user" } =
      (none, none) :=
  ⟨(ValidateCreate_rejects_exactly_the_sentinel _).2.1 rfl,
   (ValidateCreate_rejects_exactly_the_sentinel _).2.2 (by decide),
   (ValidateCreate_rejects_exactly_the_sentinel _).2.2 (by decide)⟩

/-! ### Workspace resource event loop: handlers -/

/-- C2: for a managed-environment message whose namespace lookup succeeds, a non-nil error of
`ReconcileSharedManagedEnv` makes the handler return `(noRetry, nil)` when it is flagged as a
user error, and `(retry, non-nil error)` when it is not. -/
theorem handleResourceLoopManagedEnvironment_reconcile_error
    (c : Client) (messageType : String) (evl : EventLoopMessage) (event : EventLoopEvent)
    (srl : SharedResourceEventLoop) (ns : Namespace) (isUserErr : Bool) (e : GoError)
    (hev : evl.Event = some event)
    (hns : c.Get event.Request.Namespace { Name := event.Request.Namespace, UID := "" } = (ns, none))
    (hrec : srl.ReconcileSharedManagedEnv ns event.Request.Name event.Request.Namespace false =
      { isUserErr := isUserErr, err := some e }) :
    (isUserErr = true →
      (handleResourceLoopManagedEnvironment
        { apiNamespaceClient := some c, messageType := messageType,
          payload := .eventLoopMessage evl } srl).outcome = .returned (noRetry, none)) ∧
    (isUserErr = false →
      (handleResourceLoopManagedEnvironment
        { apiNamespaceClient := some c, messageType := messageType,
          payload := .eventLoopMessage evl } srl).outcome =
        .returned (true, some ("unable to reconcile shared managed env: " ++ e))) := by
  constructor <;> intro hu <;> subst hu <;>
    simp [handleResourceLoopManagedEnvironment, hev, hns, hrec]

/-- C2 at a concrete message: namespace `my-user` exists, the reconcile fails; a user error is
not retried and yields no error, a system error is retried. -/
theorem handleResourceLoopManagedEnvironment_reconcile_error_witness :
    (handleResourceLoopManagedEnvironment
        { apiNamespaceClient := some (clientOf [myUserNamespace]),
          messageType := workspaceResourceLoopMessageType_processManagedEnvironment,
          payload := .eventLoopMessage managedEnvMessage }
        (failingSharedResourceLoop true "secret not found")).outcome = .returned (false, none) ∧
    (handleResourceLoopManagedEnvironment
        { apiNamespaceClient := some (clientOf [myUserNamespace]),
          messageType := workspaceResourceLoopMessageType_processManagedEnvironment,
          payload := .eventLoopMessage managedEnvMessage }
        (failingSharedResourceLoop false "database is down")).outcome =
      .returned (true, some "unable to reconcile shared managed env: database is down") :=
  ⟨(handleResourceLoopManagedEnvironment_reconcile_error (clientOf [myUserNamespace]) _
      managedEnvMessage managedEnvEvent (failingSharedResourceLoop true "secret not found")
      myUserNamespace true "secret not found" rfl (by decide) rfl).1 rfl,
   (handleResourceLoopManagedEnvironment_reconcile_error (clientOf [myUserNamespace]) _
      managedEnvMessage managedEnvEvent (failingSharedResourceLoop false "database is down")
      myUserNamespace false "database is down" rfl (by decide) rfl).2 rfl⟩

/-- C3: when the lookup of the request's namespace reports NotFound, both handlers return
exactly `(noRetry, nil)` and their effects contain no reconcile call of the shared resource
loop. -/
theorem handlers_namespace_not_found
    (c : Client) (srl : SharedResourceEventLoop) (mt1 mt2 : String) (req : Request)
    (evl : EventLoopMessage) (event : EventLoopEvent) (obj : Namespace) (err : K8sError)
    (hev : evl.Event = some event) (hreq : event.Request = req)
    (hget : c.Get req.Namespace { Name := req.Namespace, UID := "" } = (obj, some err))
    (hnf : err.notFound = true) :
    ((handleResourceLoopRepositoryCredential
        { apiNamespaceClient := some c, messageType := mt1, payload := .request req } srl).outcome
        = .returned (noRetry, none) ∧
      ∀ eff ∈ (handleResourceLoopRepositoryCredential
        { apiNamespaceClient := some c, messageType := mt1, payload := .request req } srl).effects,
        eff.isReconcile = false) ∧
    ((handleResourceLoopManagedEnvironment
        { apiNamespaceClient := some c, messageType := mt2,
          payload := .eventLoopMessage evl } srl).outcome
        = .returned (noRetry, none) ∧
      ∀ eff ∈ (handleResourceLoopManagedEnvironment
        { apiNamespaceClient := some c, messageType := mt2,
          payload := .eventLoopMessage evl } srl).effects,
        eff.isReconcile = false) := by
  subst hreq
  constructor <;>
    simp [handleResourceLoopRepositoryCredential, handleResourceLoopManagedEnvironment, hev,
      hget, hnf, Effect.isReconcile]

/-- C3 at a concrete input: no namespace exists in the cluster. -/
theorem handlers_namespace_not_found_witness :
    (handleResourceLoopRepositoryCredential
        { apiNamespaceClient := some (clientOf []),
          messageType := workspaceResourceLoopMessageType_processRepositoryCredential,
          payload := .request { Namespace := "my-user", Name := "my-managed-env" } }
        succeedingSharedResourceLoop).outcome = .returned (false, none) ∧
    (handleResourceLoopManagedEnvironment
        { apiNamespaceClient := some (clientOf []),
          messageType := workspaceResourceLoopMessageType_processManagedEnvironment,
          payload := .eventLoopMessage managedEnvMessage }
        succeedingSharedResourceLoop).outcome = .returned (false, none) :=
  have h := handlers_namespace_not_found (clientOf []) succeedingSharedResourceLoop
    workspaceResourceLoopMessageType_processRepositoryCredential
    workspaceResourceLoopMessageType_processManagedEnvironment
    { Namespace := "my-user", Name := "my-managed-env" } managedEnvMessage managedEnvEvent
    { Name := "my-user", UID := "" } { msg := "namespace not found: my-user", notFound := true }
    rfl rfl (by decide) rfl
  ⟨h.1.1, h.2.1⟩

/-- C4: `handleResourceLoopManagedEnvironment` posts to the workspace event loop exactly when
the namespace lookup succeeded and `ReconcileSharedManagedEnv` returned a nil error; it then
posts one `managedEnvProcessed_Event` message whose payload is the `EventLoopMessage` it
received, and in every other case it posts nothing. -/
theorem handleResourceLoopManagedEnvironment_posts
    (msg : workspaceResourceLoopMessage) (srl : SharedResourceEventLoop) :
    (∀ (c : Client) (evl : EventLoopMessage) (event : EventLoopEvent) (ns : Namespace),
      msg.apiNamespaceClient = some c → msg.payload = .eventLoopMessage evl →
      evl.Event = some event →
      c.Get event.Request.Namespace { Name := event.Request.Namespace, UID := "" } = (ns, none) →
      (srl.ReconcileSharedManagedEnv ns event.Request.Name event.Request.Namespace false).err
        = none →
      (handleResourceLoopManagedEnvironment msg srl).posts =
        [{ messageType := "managedEnvProcessed_Event", payload := .eventLoopMessage evl }]) ∧
    ((¬ ∃ (c : Client) (evl : EventLoopMessage) (event : EventLoopEvent) (ns : Namespace),
      msg.apiNamespaceClient = some c ∧ msg.payload = .eventLoopMessage evl ∧
      evl.Event = some event ∧
      c.Get event.Request.Namespace { Name := event.Request.Namespace, UID := "" } = (ns, none) ∧
      (srl.ReconcileSharedManagedEnv ns event.Request.Name event.Request.Namespace false).err
        = none) →
      (handleResourceLoopManagedEnvironment msg srl).posts = []) := by
  obtain ⟨client, mt, payload⟩ := msg
  constructor
  · intro c evl event ns hc hp hev hget hrec
    simp only at hc hp
    subst hc hp
    simp [handleResourceLoopManagedEnvironment, hev, hget, hrec, Run.posts, Effect.posted?,
      workspaceEventLoopMessageType_managedEnvProcessed_Event]
  · intro hno
    cases payload with
    | eventLoopMessage evl =>
      cases hev : evl.Event with
      | none => simp [handleResourceLoopManagedEnvironment, hev, Run.posts, Effect.posted?]
      | some event =>
        cases client with
        | none => simp [handleResourceLoopManagedEnvironment, hev, Run.posts]
        | some c =>
          rcases hget : c.Get event.Request.Namespace
            { Name := event.Request.Namespace, UID := "" } with ⟨ns, _ | err⟩
          · cases hrec : (srl.ReconcileSharedManagedEnv ns event.Request.Name
              event.Request.Namespace false).err with
            | none => exact absurd ⟨c, evl, event, ns, rfl, rfl, hev, hget, hrec⟩ hno
            | some e =>
              by_cases hu : (srl.ReconcileSharedManagedEnv ns event.Request.Name
                event.Request.Namespace false).isUserErr = true <;>
                simp [handleResourceLoopManagedEnvironment, hev, hget, hrec, hu, Run.posts,
                  Effect.posted?]
          · by_cases hnf : err.notFound = true <;>
              simp [handleResourceLoopManagedEnvironment, hev, hget, hnf, Run.posts,
                Effect.posted?]
    | nil => simp [handleResourceLoopManagedEnvironment, Run.posts]
    | request req => simp [handleResourceLoopManagedEnvironment, Run.posts]
    | other t => simp [handleResourceLoopManagedEnvironment, Run.posts]

/-- C4 at concrete inputs: one post carrying the received message when the namespace exists and
the reconcile succeeds; no post for a missing namespace, an unreadable namespace, a user error,
a system error, or a payload of the wrong type. -/
theorem handleResourceLoopManagedEnvironment_posts_witness :
    (handleResourceLoopManagedEnvironment
        { apiNamespaceClient := some (clientOf [myUserNamespace]),
          messageType := workspaceResourceLoopMessageType_processManagedEnvironment,
          payload := .eventLoopMessage managedEnvMessage } succeedingSharedResourceLoop).posts =
      [{ messageType := "managedEnvProcessed_Event",
         payload := .eventLoopMessage managedEnvMessage }] ∧
    (handleResourceLoopManagedEnvironment
        { apiNamespaceClient := some (clientOf []),
          messageType := workspaceResourceLoopMessageType_processManagedEnvironment,
          payload := .eventLoopMessage managedEnvMessage } succeedingSharedResourceLoop).posts
      = [] ∧
    (handleResourceLoopManagedEnvironment
        { apiNamespaceClient := some unreachableClient,
          messageType := workspaceResourceLoopMessageType_processManagedEnvironment,
          payload := .eventLoopMessage managedEnvMessage } succeedingSharedResourceLoop).posts
      = [] ∧
    (handleResourceLoopManagedEnvironment
        { apiNamespaceClient := some (clientOf [myUserNamespace]),
          messageType := workspaceResourceLoopMessageType_processManagedEnvironment,
          payload := .eventLoopMessage managedEnvMessage }
        (failingSharedResourceLoop true "secret not found")).posts = [] ∧
    (handleResourceLoopManagedEnvironment
        { apiNamespaceClient := some (clientOf [myUserNamespace]),
          messageType := workspaceResourceLoopMessageType_processManagedEnvironment,
          payload := .eventLoopMessage managedEnvMessage }
        (failingSharedResourceLoop false "database is down")).posts = [] ∧
    (handleResourceLoopManagedEnvironment
        { apiNamespaceClient := some (clientOf [myUserNamespace]),
          messageType := workspaceResourceLoopMessageType_processManagedEnvironment,
          payload := .request { Namespace := "my-user", Name := "my-managed-env" } }
        succeedingSharedResourceLoop).posts = [] :=
  ⟨(handleResourceLoopManagedEnvironment_posts _ _).1 (clientOf [myUserNamespace])
      managedEnvMessage managedEnvEvent myUserNamespace rfl rfl rfl (by decide) rfl,
   by decide, by decide, by decide, by decide, by decide⟩

/-! ### Workspace resource event loop: retry-loop keys -/

/-- Every key the loop computes is built from the message kind and the request of the
message. -/
theorem mapKey_form (srl : SharedResourceEventLoop) (msg : workspaceResourceLoopMessage)
    (k : String) (hk : (internalWorkspaceResourceEventLoop msg srl).mapKey? = some k) :
    ∃ req, msg.request? = some req ∧
      ((msg.messageType = "processRepositoryCredential" ∧
          k = "repo-cred-" ++ req.Namespace ++ "-" ++ req.Name) ∨
       (msg.messageType = "processManagedEnvironment" ∧
          k = "managed-env-" ++ req.Namespace ++ "-" ++ req.Name)) := by
  obtain ⟨cl, mt, payload⟩ := msg
  simp only [internalWorkspaceResourceEventLoop,
    workspaceResourceLoopMessageType_processRepositoryCredential,
    workspaceResourceLoopMessageType_processManagedEnvironment] at hk
  by_cases h1 : mt = "processRepositoryCredential"
  · cases payload with
    | request req =>
      simp [h1, LoopIteration.mapKey?] at hk
      exact ⟨req, rfl, Or.inl ⟨h1, hk.symm⟩⟩
    | nil => simp [h1, LoopIteration.mapKey?] at hk
    | eventLoopMessage m => simp [h1, LoopIteration.mapKey?] at hk
    | other t => simp [h1, LoopIteration.mapKey?] at hk
  · by_cases h2 : mt = "processManagedEnvironment"
    · cases payload with
      | eventLoopMessage m =>
        cases hm : m.Event with
        | none => simp [h1, h2, hm, LoopIteration.mapKey?] at hk
        | some ev =>
          simp [h1, h2, hm, LoopIteration.mapKey?] at hk
          exact ⟨ev.Request, by simp [workspaceResourceLoopMessage.request?, hm],
            Or.inr ⟨h2, hk.symm⟩⟩
      | nil => simp [h1, h2, LoopIteration.mapKey?] at hk
      | request req => simp [h1, h2, LoopIteration.mapKey?] at hk
      | other t => simp [h1, h2, LoopIteration.mapKey?] at hk
    · simp [h1, h2, LoopIteration.mapKey?] at hk

/-- Go string concatenation can be cancelled on the left. -/
theorem string_append_cancel_left (a b c : String) (h : a ++ b = a ++ c) : b = c := by
  have hd := congrArg String.data h
  simp only [String.data_append] at hd
  exact String.ext (List.append_cancel_left hd)

/-- Go string concatenation can be cancelled on the right. -/
theorem string_append_cancel_right (a b c : String) (h : a ++ c = b ++ c) : a = b := by
  have hd := congrArg String.data h
  simp only [String.data_append] at hd
  exact String.ext (List.append_cancel_right hd)

/-- The two key kinds start with different letters, so their keys never coincide. -/
theorem repo_cred_key_ne_managed_env_key (a b : String) :
    "repo-cred-" ++ a ≠ "managed-env-" ++ b := by
  intro h
  have hd := congrArg String.data h
  simp only [String.data_append] at hd
  have h0 := congrArg List.head? hd
  simp at h0

/-- C5: a `processRepositoryCredential` message for request `(ns, n)` is handed to the retry
loop under the key `"repo-cred-" ++ ns ++ "-" ++ n`, a `processManagedEnvironment` message whose
event request is `(ns, n)` under `"managed-env-" ++ ns ++ "-" ++ n`; and every key the loop
computes is of one of these two forms, for the request of the message. -/
theorem internalWorkspaceResourceEventLoop_mapKey
    (client : Option Client) (srl : SharedResourceEventLoop) (ns n : String)
    (evl : EventLoopMessage) (event : EventLoopEvent)
    (hev : evl.Event = some event) (hreq : event.Request = { Namespace := ns, Name := n }) :
    (internalWorkspaceResourceEventLoop
        { apiNamespaceClient := client, messageType := "processRepositoryCredential",
          payload := .request { Namespace := ns, Name := n } } srl).mapKey?
      = some ("repo-cred-" ++ ns ++ "-" ++ n) ∧
    (internalWorkspaceResourceEventLoop
        { apiNamespaceClient := client, messageType := "processManagedEnvironment",
          payload := .eventLoopMessage evl } srl).mapKey?
      = some ("managed-env-" ++ ns ++ "-" ++ n) ∧
    (∀ (msg : workspaceResourceLoopMessage) (k : String),
      (internalWorkspaceResourceEventLoop msg srl).mapKey? = some k →
      ∃ req, msg.request? = some req ∧
        ((msg.messageType = "processRepositoryCredential" ∧
            k = "repo-cred-" ++ req.Namespace ++ "-" ++ req.Name) ∨
         (msg.messageType = "processManagedEnvironment" ∧
            k = "managed-env-" ++ req.Namespace ++ "-" ++ req.Name))) := by
  refine ⟨?_, ?_, ?_⟩
  · simp [internalWorkspaceResourceEventLoop, LoopIteration.mapKey?,
      workspaceResourceLoopMessageType_processRepositoryCredential]
  · simp [internalWorkspaceResourceEventLoop, LoopIteration.mapKey?, hev, hreq,
      workspaceResourceLoopMessageType_processRepositoryCredential,
      workspaceResourceLoopMessageType_processManagedEnvironment]
  · intro msg k hk
    exact mapKey_form srl msg k hk

/-- C5 at concrete messages. -/
theorem internalWorkspaceResourceEventLoop_mapKey_witness :
    (internalWorkspaceResourceEventLoop
        { apiNamespaceClient := some (clientOf [myUserNamespace]),
          messageType := "processRepositoryCredential",
          payload := .request { Namespace := "my-user", Name := "my-managed-env" } }
        succeedingSharedResourceLoop).mapKey? = some "repo-cred-my-user-my-managed-env" ∧
    (internalWorkspaceResourceEventLoop
        { apiNamespaceClient := some (clientOf [myUserNamespace]),
          messageType := "processManagedEnvironment",
          payload := .eventLoopMessage managedEnvMessage }
        succeedingSharedResourceLoop).mapKey? = some "managed-env-my-user-my-managed-env" :=
  have h := internalWorkspaceResourceEventLoop_mapKey (some (clientOf [myUserNamespace]))
    succeedingSharedResourceLoop "my-user" "my-managed-env" managedEnvMessage managedEnvEvent
    rfl rfl
  ⟨h.1, h.2.1⟩

/-- Two accepted messages with the same retry-loop key have the same message kind and the same
text `namespace-name`; they have the same request as soon as they agree on the namespace or on
the name. -/
theorem mapKey_eq_joined
    (srl1 srl2 : SharedResourceEventLoop) (m1 m2 : workspaceResourceLoopMessage) (k : String)
    (h1 : (internalWorkspaceResourceEventLoop m1 srl1).mapKey? = some k)
    (h2 : (internalWorkspaceResourceEventLoop m2 srl2).mapKey? = some k) :
    m1.messageType = m2.messageType ∧
    ∃ r1 r2, m1.request? = some r1 ∧ m2.request? = some r2 ∧
      r1.Namespace ++ "-" ++ r1.Name = r2.Namespace ++ "-" ++ r2.Name ∧
      (r1.Namespace = r2.Namespace → r1 = r2) ∧ (r1.Name = r2.Name → r1 = r2) := by
  obtain ⟨r1, hr1, hk1⟩ := mapKey_form srl1 m1 k h1
  obtain ⟨r2, hr2, hk2⟩ := mapKey_form srl2 m2 k h2
  have key : ∀ (p : String), p ++ r1.Namespace ++ "-" ++ r1.Name
      = p ++ r2.Namespace ++ "-" ++ r2.Name →
      r1.Namespace ++ "-" ++ r1.Name = r2.Namespace ++ "-" ++ r2.Name ∧
      (r1.Namespace = r2.Namespace → r1 = r2) ∧ (r1.Name = r2.Name → r1 = r2) := by
    intro p hp
    have hjoin : r1.Namespace ++ "-" ++ r1.Name = r2.Namespace ++ "-" ++ r2.Name := by
      apply string_append_cancel_left p
      simpa [String.append_assoc] using hp
    refine ⟨hjoin, ?_, ?_⟩
    · intro hns
      have hn : r1.Name = r2.Name := by
        apply string_append_cancel_left (r1.Namespace ++ "-")
        rw [hjoin, hns]
      cases r1; cases r2; simp_all
    · intro hn
      have hns : r1.Namespace = r2.Namespace := by
        apply string_append_cancel_right _ _ "-"
        apply string_append_cancel_right _ _ r1.Name
        rw [hjoin, hn]
      cases r1; cases r2; simp_all
  rcases hk1 with ⟨ht1, hk1⟩ | ⟨ht1, hk1⟩ <;> rcases hk2 with ⟨ht2, hk2⟩ | ⟨ht2, hk2⟩
  · exact ⟨ht1.trans ht2.symm, r1, r2, hr1, hr2, key _ (hk1.symm.trans hk2)⟩
  · exact absurd (by simpa [String.append_assoc] using hk1.symm.trans hk2)
      (repo_cred_key_ne_managed_env_key _ _)
  · exact absurd (by simpa [String.append_assoc] using hk2.symm.trans hk1)
      (repo_cred_key_ne_managed_env_key _ _)
  · exact ⟨ht1.trans ht2.symm, r1, r2, hr1, hr2, key _ (hk1.symm.trans hk2)⟩

/-- C6: the workspace resource event loop is started for one namespace, `namespaceName`, and
the messages it accepts are about requests of that namespace. Two such messages whose
retry-loop keys are equal have the same message kind, the same request namespace and the same
request name: only duplicate events share a key. -/
theorem mapKey_eq_only_if
    (namespaceName : String) (srl : SharedResourceEventLoop)
    (m1 m2 : workspaceResourceLoopMessage) (k : String)
    (hns1 : ∀ r, m1.request? = some r → r.Namespace = namespaceName)
    (hns2 : ∀ r, m2.request? = some r → r.Namespace = namespaceName)
    (h1 : (internalWorkspaceResourceEventLoop m1 srl).mapKey? = some k)
    (h2 : (internalWorkspaceResourceEventLoop m2 srl).mapKey? = some k) :
    m1.messageType = m2.messageType ∧
    ∃ r1 r2, m1.request? = some r1 ∧ m2.request? = some r2 ∧
      r1.Namespace = r2.Namespace ∧ r1.Name = r2.Name := by
  obtain ⟨hkind, r1, r2, hr1, hr2, -, hsame, -⟩ := mapKey_eq_joined srl srl m1 m2 k h1 h2
  have hns : r1.Namespace = r2.Namespace := (hns1 r1 hr1).trans (hns2 r2 hr2).symm
  exact ⟨hkind, r1, r2, hr1, hr2, hns, congrArg Request.Name (hsame hns)⟩

/-- C6 in the loop of the namespace `my-user`: two managed-environment messages with the key
`managed-env-my-user-my-managed-env`, which differ in client, message type of the event loop
message and event type, are about the same request. -/
theorem mapKey_eq_only_if_witness :
    ("processManagedEnvironment" : String) = "processManagedEnvironment" ∧
    ∃ r1 r2 : Request,
      workspaceResourceLoopMessage.request?
        { apiNamespaceClient := some (clientOf [myUserNamespace]),
          messageType := "processManagedEnvironment",
          payload := .eventLoopMessage managedEnvMessage } = some r1 ∧
      workspaceResourceLoopMessage.request?
        { apiNamespaceClient := none, messageType := "processManagedEnvironment",
          payload := .eventLoopMessage
            { MessageType := "", Event := some { managedEnvEvent with EventType := "" } } }
        = some r2 ∧
      r1.Namespace = r2.Namespace ∧ r1.Name = r2.Name :=
  mapKey_eq_only_if "my-user" succeedingSharedResourceLoop
    { apiNamespaceClient := some (clientOf [myUserNamespace]),
      messageType := "processManagedEnvironment",
      payload := .eventLoopMessage managedEnvMessage }
    { apiNamespaceClient := none, messageType := "processManagedEnvironment",
      payload := .eventLoopMessage
        { MessageType := "", Event := some { managedEnvEvent with EventType := "" } } }
    "managed-env-my-user-my-managed-env"
    (by intro r hr; cases hr; rfl) (by intro r hr; cases hr; rfl) (by decide) (by decide)

/-- The namespace is what keeps keys apart: the join with `-` alone does not. The repository
credential `db` of the namespace `team-a` and the repository credential `a-db` of the
namespace `team` get the same key text, each in the retry loop of its own namespace. -/
theorem mapKey_collision :
    (internalWorkspaceResourceEventLoop
        { apiNamespaceClient := some (clientOf [myUserNamespace]),
          messageType := "processRepositoryCredential",
          payload := .request { Namespace := "team-a", Name := "db" } }
        succeedingSharedResourceLoop).mapKey? = some "repo-cred-team-a-db" ∧
    (internalWorkspaceResourceEventLoop
        { apiNamespaceClient := some (clientOf [myUserNamespace]),
          messageType := "processRepositoryCredential",
          payload := .request { Namespace := "team", Name := "a-db" } }
        succeedingSharedResourceLoop).mapKey? = some "repo-cred-team-a-db" ∧
    ("team-a" : String) ≠ "team" ∧ ("db" : String) ≠ "a-db" := by
  decide

/-! ### Workspace resource event loop: fatal messages -/

/-- C7: `internalProcessWorkspaceResourceMessage` returns `(noRetry, non-nil error)` for every
message whose type is neither `processRepositoryCredential` nor `processManagedEnvironment`,
and for every message whose payload is not of the type its message type requires. -/
theorem internalProcessWorkspaceResourceMessage_fatal
    (msg : workspaceResourceLoopMessage) (srl : SharedResourceEventLoop) :
    (msg.messageType ≠ "processRepositoryCredential" →
      msg.messageType ≠ "processManagedEnvironment" →
      ∃ e, (internalProcessWorkspaceResourceMessage msg srl).outcome
        = .returned (noRetry, some e)) ∧
    (msg.messageType = "processRepositoryCredential" →
      (∀ req, msg.payload ≠ .request req) →
      ∃ e, (internalProcessWorkspaceResourceMessage msg srl).outcome
        = .returned (noRetry, some e)) ∧
    (msg.messageType = "processManagedEnvironment" →
      (∀ m, msg.payload ≠ .eventLoopMessage m) →
      ∃ e, (internalProcessWorkspaceResourceMessage msg srl).outcome
        = .returned (noRetry, some e)) := by
  obtain ⟨client, mt, payload⟩ := msg
  refine ⟨?_, ?_, ?_⟩
  · intro h1 h2
    simp only at h1 h2
    cases client <;>
      simp [internalProcessWorkspaceResourceMessage, h1, h2,
        workspaceResourceLoopMessageType_processRepositoryCredential,
        workspaceResourceLoopMessageType_processManagedEnvironment]
  · intro h1 hp
    simp only at h1 hp
    subst h1
    cases client with
    | none => simp [internalProcessWorkspaceResourceMessage]
    | some c =>
      cases payload with
      | request req => exact absurd rfl (hp req)
      | nil =>
        simp [internalProcessWorkspaceResourceMessage, wrapHandlerRun,
          handleResourceLoopRepositoryCredential,
          workspaceResourceLoopMessageType_processRepositoryCredential]
      | eventLoopMessage m =>
        simp [internalProcessWorkspaceResourceMessage, wrapHandlerRun,
          handleResourceLoopRepositoryCredential,
          workspaceResourceLoopMessageType_processRepositoryCredential]
      | other t =>
        simp [internalProcessWorkspaceResourceMessage, wrapHandlerRun,
          handleResourceLoopRepositoryCredential,
          workspaceResourceLoopMessageType_processRepositoryCredential]
  · intro h2 hp
    simp only at h2 hp
    subst h2
    cases client with
    | none => simp [internalProcessWorkspaceResourceMessage]
    | some c =>
      cases payload with
      | eventLoopMessage m => exact absurd rfl (hp m)
      | nil =>
        simp [internalProcessWorkspaceResourceMessage, wrapHandlerRun,
          handleResourceLoopManagedEnvironment,
          workspaceResourceLoopMessageType_processRepositoryCredential,
          workspaceResourceLoopMessageType_processManagedEnvironment]
      | request req =>
        simp [internalProcessWorkspaceResourceMessage, wrapHandlerRun,
          handleResourceLoopManagedEnvironment,
          workspaceResourceLoopMessageType_processRepositoryCredential,
          workspaceResourceLoopMessageType_processManagedEnvironment]
      | other t =>
        simp [internalProcessWorkspaceResourceMessage, wrapHandlerRun,
          handleResourceLoopManagedEnvironment,
          workspaceResourceLoopMessageType_processRepositoryCredential,
          workspaceResourceLoopMessageType_processManagedEnvironment]

/-- C7 at concrete messages: an unknown message type, a repository-credential message that
carries an `EventLoopMessage`, and a managed-environment message that carries a request. -/
theorem internalProcessWorkspaceResourceMessage_fatal_witness :
    (∃ e, (internalProcessWorkspaceResourceMessage
        { apiNamespaceClient := some (clientOf [myUserNamespace]),
          messageType := "processSecret",
          payload := .request { Namespace := "my-user", Name := "my-managed-env" } }
        succeedingSharedResourceLoop).outcome = .returned (false, some e)) ∧
    (∃ e, (internalProcessWorkspaceResourceMessage
        { apiNamespaceClient := some (clientOf [myUserNamespace]),
          messageType := "processRepositoryCredential",
          payload := .eventLoopMessage managedEnvMessage }
        succeedingSharedResourceLoop).outcome = .returned (false, some e)) ∧
    (∃ e, (internalProcessWorkspaceResourceMessage
        { apiNamespaceClient := some (clientOf [myUserNamespace]),
          messageType := "processManagedEnvironment",
          payload := .request { Namespace := "my-user", Name := "my-managed-env" } }
        succeedingSharedResourceLoop).outcome = .returned (false, some e)) :=
  ⟨(internalProcessWorkspaceResourceMessage_fatal _ _).1 (by decide) (by decide),
   (internalProcessWorkspaceResourceMessage_fatal _ _).2.1 rfl (by intro req h; cases h),
   (internalProcessWorkspaceResourceMessage_fatal _ _).2.2 rfl (by intro m h; cases h)⟩

/-! ### Application state cache -/

/-- On a cache miss the response of `processGetMessage` carries the zero `ApplicationState`
and the error of the database lookup, whatever the lookup returned. -/
theorem processGetMessage_miss_response {σ : Type} (dbQueries : DatabaseQueries σ) (db : σ)
    (req : applicationStateCacheRequest) (cache : Cache)
    (hmiss : Cache.get cache req.primaryKey = none) :
    (processGetMessage dbQueries db req cache).response =
      { applicationState := {},
        err := (dbQueries.GetApplicationStateById db
          { Applicationstate_application_id := req.primaryKey }).2.2 } := by
  simp [processGetMessage, hmiss]

/-- When the database update succeeds, `processUpdateMessage` leaves the cache as it was. -/
theorem processUpdateMessage_success_cache {σ : Type} (dbQueries : DatabaseQueries σ) (db : σ)
    (req : applicationStateCacheRequest) (cache : Cache)
    (hok : (dbQueries.UpdateApplicationState db req.createOrUpdateObject).2.2 = none) :
    (processUpdateMessage dbQueries db req cache).cache = cache ∧
    (processUpdateMessage dbQueries db req cache).response.err = none := by
  rcases hq : dbQueries.UpdateApplicationState db req.createOrUpdateObject with ⟨db1, obj, err⟩
  rw [hq] at hok
  simp only at hok
  subst hok
  simp [processUpdateMessage, hq]

/-- When the database update fails, `processUpdateMessage` stores the object under the
request's primary key and responds with the error. -/
theorem processUpdateMessage_failure_cache {σ : Type} (dbQueries : DatabaseQueries σ) (db : σ)
    (req : applicationStateCacheRequest) (cache : Cache) (e : GoError)
    (hfail : (dbQueries.UpdateApplicationState db req.createOrUpdateObject).2.2 = some e) :
    (processUpdateMessage dbQueries db req cache).cache =
      Cache.set cache req.primaryKey
        (dbQueries.UpdateApplicationState db req.createOrUpdateObject).2.1 ∧
    (processUpdateMessage dbQueries db req cache).response.err = some e := by
  rcases hq : dbQueries.UpdateApplicationState db req.createOrUpdateObject with ⟨db1, obj, err⟩
  rw [hq] at hfail
  simp only at hfail
  subst hfail
  simp [processUpdateMessage, hq]

/-- C8 on the code: with an empty cache and a database holding the row `app-1`, the database
lookup succeeds with that row, yet `processGetMessage` responds with the zero
`ApplicationState` and a nil error, and `GetApplicationStateById` returns the zero value to
its caller; the row itself only reaches the cache. -/
theorem processGetMessage_miss_responds_zero_value :
    Cache.get [] "app-1" = none ∧
    rowsDatabase.GetApplicationStateById [healthyRow] { Applicationstate_application_id := "app-1" }
      = ([healthyRow], healthyRow, none) ∧
    (processGetMessage rowsDatabase [healthyRow]
        { msgType := .ApplicationStateCacheMessage_Get, primaryKey := "app-1" } []).response
      = { applicationState := {}, err := none } ∧
    (GetApplicationStateById rowsDatabase (some ([], [healthyRow])) false false "app-1").outcome
      = .returned ({}, none) ∧
    ({} : ApplicationState) ≠ healthyRow ∧
    (processGetMessage rowsDatabase [healthyRow]
        { msgType := .ApplicationStateCacheMessage_Get, primaryKey := "app-1" } []).cache
      = [("app-1", healthyRow)] := by
  decide

/-- C9 on the code: the database update of `app-1` succeeds, the response carries a nil error,
and the cache is not touched: it still has no entry for `app-1`. -/
theorem processUpdateMessage_success_leaves_cache :
    rowsDatabase.UpdateApplicationState [staleRow] healthyRow = ([healthyRow], healthyRow, none) ∧
    (processUpdateMessage rowsDatabase [staleRow]
        { msgType := .ApplicationStateCacheMessage_Update, createOrUpdateObject := healthyRow,
          primaryKey := "app-1" } []).response.err = none ∧
    (processUpdateMessage rowsDatabase [staleRow]
        { msgType := .ApplicationStateCacheMessage_Update, createOrUpdateObject := healthyRow,
          primaryKey := "app-1" } []).cache = [] ∧
    Cache.get (processUpdateMessage rowsDatabase [staleRow]
        { msgType := .ApplicationStateCacheMessage_Update, createOrUpdateObject := healthyRow,
          primaryKey := "app-1" } []).cache "app-1" = none := by
  decide

/-- C10 on the code: the database has no row `app-1`, so the update fails; the response
carries the error, and the cache entry of `app-1` is replaced by the object that was not
written. -/
theorem processUpdateMessage_failure_writes_cache :
    rowsDatabase.UpdateApplicationState [] healthyRow = ([], healthyRow, some "no rows affected") ∧
    (processUpdateMessage rowsDatabase []
        { msgType := .ApplicationStateCacheMessage_Update, createOrUpdateObject := healthyRow,
          primaryKey := "app-1" } [("app-1", staleRow)]).response.err
      = some "no rows affected" ∧
    (processUpdateMessage rowsDatabase []
        { msgType := .ApplicationStateCacheMessage_Update, createOrUpdateObject := healthyRow,
          primaryKey := "app-1" } [("app-1", staleRow)]).cache = [("app-1", healthyRow)] ∧
    (processUpdateMessage rowsDatabase []
        { msgType := .ApplicationStateCacheMessage_Update, createOrUpdateObject := healthyRow,
          primaryKey := "app-1" } [("app-1", staleRow)]).cache ≠ [("app-1", staleRow)] := by
  decide

/-- C11, as amended: for an application id that is not in the cache, when the database lookup
fails with error `e`, `processGetMessage` responds with `e` and leaves the cache unchanged; a
call of `GetApplicationStateById` to a cache loop that is receiving returns `e` with an empty
`ApplicationState` whenever its `select` takes the response (always, when the context is not
done), and the loop goes on with the same cache; when the context is done and the `select`
takes that case, the call returns the error `context cancelled in GetApplicationStateById`
with an empty `ApplicationState` and the loop is left blocked. -/
theorem GetApplicationStateById_miss_error {σ : Type} (dbQueries : DatabaseQueries σ) (db : σ)
    (cache : Cache) (id : String) (e : GoError)
    (hmiss : Cache.get cache id = none)
    (herr : (dbQueries.GetApplicationStateById db
      { Applicationstate_application_id := id }).2.2 = some e) :
    (∀ takeDone : Bool,
      GetApplicationStateById dbQueries (some (cache, db)) false takeDone id
        = { outcome := .returned ({}, some e),
            actor := some (cache, (dbQueries.GetApplicationStateById db
              { Applicationstate_application_id := id }).1) }) ∧
    GetApplicationStateById dbQueries (some (cache, db)) true false id
      = { outcome := .returned ({}, some e),
          actor := some (cache, (dbQueries.GetApplicationStateById db
            { Applicationstate_application_id := id }).1) } ∧
    GetApplicationStateById dbQueries (some (cache, db)) true true id
      = { outcome := .returned ({}, some "context cancelled in GetApplicationStateById"),
          actor := none } ∧
    (processGetMessage dbQueries db
      { msgType := .ApplicationStateCacheMessage_Get, primaryKey := id } cache).response
      = { applicationState := {}, err := some e } ∧
    (processGetMessage dbQueries db
      { msgType := .ApplicationStateCacheMessage_Get, primaryKey := id } cache).cache
      = cache := by
  rcases hq : dbQueries.GetApplicationStateById db
    { Applicationstate_application_id := id } with ⟨db1, obj, err⟩
  rw [hq] at herr
  simp only at herr
  subst herr
  refine ⟨?_, ?_, ?_, ?_, ?_⟩
  · intro takeDone
    simp [GetApplicationStateById, applicationStateCacheLoop, processGetMessage, hmiss, hq,
      GetApplicationStateById_result, selectCase]
  · simp [GetApplicationStateById, applicationStateCacheLoop, processGetMessage, hmiss, hq,
      GetApplicationStateById_result, selectCase]
  · simp [GetApplicationStateById, applicationStateCacheLoop, processGetMessage, hmiss, hq,
      GetApplicationStateById_result, selectCase]
  · simp [processGetMessage, hmiss, hq]
  · simp [processGetMessage, hmiss, hq]

/-- C11, as amended, at a concrete input: the database has no row `app-2`, the cache holds only
`app-1`, the context is not done. -/
theorem GetApplicationStateById_miss_error_witness :
    Cache.get [("app-1", healthyRow)] "app-2" = none ∧
    GetApplicationStateById rowsDatabase (some ([("app-1", healthyRow)], [healthyRow])) false
        false "app-2"
      = { outcome := .returned ({}, some "no results found"),
          actor := some ([("app-1", healthyRow)], [healthyRow]) } ∧
    (processGetMessage rowsDatabase [healthyRow]
      { msgType := .ApplicationStateCacheMessage_Get, primaryKey := "app-2" }
      [("app-1", healthyRow)]).cache = [("app-1", healthyRow)] :=
  have h := GetApplicationStateById_miss_error rowsDatabase [healthyRow]
    [("app-1", healthyRow)] "app-2" "no results found" (by decide) (by decide)
  ⟨by decide, h.1 false, h.2.2.2.2⟩

/-- C11 as stated fails: the application id `app-2` is not in the cache and the database lookup
fails with `no results found`, but the context of the caller is done and the `select` takes
that case; the call returns another error than the one of the lookup. And when the cache loop
does not receive, the call does not return at all. -/
theorem GetApplicationStateById_context_done :
    Cache.get [("app-1", healthyRow)] "app-2" = none ∧
    (rowsDatabase.GetApplicationStateById [healthyRow]
      { Applicationstate_application_id := "app-2" }).2.2 = some "no results found" ∧
    (GetApplicationStateById rowsDatabase (some ([("app-1", healthyRow)], [healthyRow])) true
        true "app-2").outcome
      = .returned ({}, some "context cancelled in GetApplicationStateById") ∧
    (GetApplicationStateById rowsDatabase (some ([("app-1", healthyRow)], [healthyRow])) true
        true "app-2").outcome
      ≠ .returned ({}, some "no results found") ∧
    (GetApplicationStateById rowsDatabase none false false "app-2").outcome = .blocked := by
  decide

/-- C12: `CreateApplicationState` returns the non-nil error `unimplemented` for every
`ApplicationState`, sends no request to the cache loop, and so leaves cache and database as
they are. -/
theorem CreateApplicationState_unimplemented (appState : ApplicationState) :
    (CreateApplicationState appState).result = some "unimplemented" ∧
    (CreateApplicationState appState).result ≠ none ∧
    (CreateApplicationState appState).sent = [] ∧
    ∀ {σ : Type} (dbQueries : DatabaseQueries σ) (cache : Cache) (db : σ),
      applicationStateCacheLoop_run dbQueries cache db (CreateApplicationState appState).sent
        = (cache, db) := by
  refine ⟨rfl, by simp [CreateApplicationState], rfl, ?_⟩
  intro σ dbQueries cache db
  simp [CreateApplicationState, applicationStateCacheLoop_run]

/-- C13: every task the loop hands to its retry loop is registered with factor 2, minimum
200 ms, maximum 10 s (both as nanosecond counts) and jitter enabled; the minimum is below the
maximum. -/
theorem internalWorkspaceResourceEventLoop_backoff
    (msg : workspaceResourceLoopMessage) (srl : SharedResourceEventLoop) (mapKey : String)
    (task : workspaceResourceEventTask) (backoff : ExponentialBackoff)
    (h : internalWorkspaceResourceEventLoop msg srl
      = .addTaskIfNotPresent mapKey task backoff) :
    backoff = { Factor := 2, Min := 200 * 1000000, Max := 10 * 1000000000, Jitter := true } ∧
    backoff.Min ≤ backoff.Max := by
  obtain ⟨cl, mt, payload⟩ := msg
  have hb : backoff = ⟨2, 200 * 1000000, 10 * 1000000000, true⟩ := by
    unfold internalWorkspaceResourceEventLoop at h
    simp only at h
    split at h
    · cases payload <;> simp [Millisecond, Second] at h
      exact h.2.2.symm
    · split at h
      · cases payload with
        | eventLoopMessage m =>
          cases hm : m.Event <;> simp [hm, Millisecond, Second] at h
          exact h.2.2.symm
        | nil => simp at h
        | request req => simp at h
        | other t => simp at h
      · simp at h
  subst hb
  exact ⟨rfl, by decide⟩

/-- C13 at the two kinds of accepted message. -/
theorem internalWorkspaceResourceEventLoop_backoff_witness :
    (({ Factor := 2, Min := Millisecond * 200, Max := Second * 10, Jitter := true } :
        ExponentialBackoff)
      = { Factor := 2, Min := 200 * 1000000, Max := 10 * 1000000000, Jitter := true } ∧
      Millisecond * 200 ≤ Second * 10) ∧
    (({ Factor := 2, Min := Millisecond * 200, Max := Second * 10, Jitter := true } :
        ExponentialBackoff)
      = { Factor := 2, Min := 200 * 1000000, Max := 10 * 1000000000, Jitter := true } ∧
      Millisecond * 200 ≤ Second * 10) :=
  ⟨internalWorkspaceResourceEventLoop_backoff
      { apiNamespaceClient := some (clientOf [myUserNamespace]),
        messageType := "processRepositoryCredential",
        payload := .request { Namespace := "my-user", Name := "my-repo-cred" } }
      succeedingSharedResourceLoop "repo-cred-my-user-my-repo-cred" _ _ rfl,
   internalWorkspaceResourceEventLoop_backoff
      { apiNamespaceClient := some (clientOf [myUserNamespace]),
        messageType := "processManagedEnvironment",
        payload := .eventLoopMessage managedEnvMessage }
      succeedingSharedResourceLoop "managed-env-my-user-my-managed-env" _ _ rfl⟩

/-! ### Task retry loop -/

/-- Taking the first entry of a key out of a list takes its key out of the list of keys. -/
theorem keys_perm_of_find {τ : Type} (key : String) :
    ∀ (l : List (TaskEntry τ)) (e : TaskEntry τ),
      l.find? (fun e => e.key = key) = some e →
      (l.map (fun e => e.key)).Perm
        (e.key :: (l.eraseP (fun e => e.key = key)).map (fun e => e.key))
  | [], e, h => by simp at h
  | x :: rest, e, h => by
    by_cases hx : x.key = key
    · simp [List.find?, hx] at h
      subst h
      simp [List.eraseP, hx]
    · simp [List.find?, hx] at h
      have ih := keys_perm_of_find key rest e h
      simp only [List.eraseP, hx, decide_False, cond_false, List.map_cons]
      exact (List.Perm.cons _ ih).trans (List.Perm.swap _ _ _)

/-- Adding a task keeps the keys of the retry loop free of duplicates. -/
theorem AddTaskIfNotPresent_nodup {τ : Type} (loop : TaskRetryLoop τ) (key : String) (task : τ)
    (backoff : ExponentialBackoff) (h : loop.keys.Nodup) :
    (loop.AddTaskIfNotPresent key task backoff).keys.Nodup := by
  unfold TaskRetryLoop.AddTaskIfNotPresent
  by_cases hk : key ∈ loop.keys
  · simp only [hk, if_true]
    split
    · exact h
    · exact h
  · simp only [hk, if_false]
    have hp : (loop.queued.map (fun e => e.key) ++ [key]
        ++ loop.running.map (fun e => e.key)).Perm (key :: loop.keys) := by
      simp only [TaskRetryLoop.keys, List.append_assoc, List.singleton_append]
      exact List.perm_middle
    simp only [TaskRetryLoop.keys, List.map_append, List.map_cons, List.map_nil]
    exact hp.nodup_iff.mpr (List.nodup_cons.mpr ⟨hk, h⟩)

/-- Dispatching a task keeps the keys of the retry loop free of duplicates. -/
theorem dispatch_nodup {τ : Type} (loop : TaskRetryLoop τ) (key : String)
    (h : loop.keys.Nodup) : (loop.dispatch key).keys.Nodup := by
  unfold TaskRetryLoop.dispatch
  cases hf : loop.queued.find? (fun e => e.key = key) with
  | none => simpa using h
  | some e =>
    have hp := keys_perm_of_find key loop.queued e hf
    simp only [TaskRetryLoop.keys, List.map_cons]
    have hq : (loop.queued.map (fun e => e.key) ++ loop.running.map (fun e => e.key)).Perm
        ((loop.queued.eraseP (fun e => e.key = key)).map (fun e => e.key)
          ++ e.key :: loop.running.map (fun e => e.key)) :=
      (hp.append_right _).trans List.perm_middle.symm
    exact hq.nodup_iff.mp h

/-- The end of a run keeps the keys of the retry loop free of duplicates. -/
theorem completed_nodup {τ : Type} (loop : TaskRetryLoop τ) (key : String) (retry : Bool)
    (h : loop.keys.Nodup) : (loop.completed key retry).keys.Nodup := by
  unfold TaskRetryLoop.completed
  cases hf : loop.running.find? (fun e => e.key = key) with
  | none => simpa using h
  | some e =>
    have hp := keys_perm_of_find key loop.running e hf
    have hq : (loop.queued.map (fun e => e.key) ++ loop.running.map (fun e => e.key)).Perm
        (e.key :: (loop.queued.map (fun e => e.key)
          ++ (loop.running.eraseP (fun e => e.key = key)).map (fun e => e.key))) :=
      (hp.append_left _).trans List.perm_middle
    have hn := hq.nodup_iff.mp h
    have hr : (loop.queued.map (fun e => e.key) ++ [e.key]
        ++ (loop.running.eraseP (fun e => e.key = key)).map (fun e => e.key)).Perm
        (e.key :: (loop.queued.map (fun e => e.key)
          ++ (loop.running.eraseP (fun e => e.key = key)).map (fun e => e.key))) := by
      simp only [List.append_assoc, List.singleton_append]
      exact List.perm_middle
    cases retry with
    | true =>
      simp only [if_true, TaskRetryLoop.keys, List.map_append, List.map_cons, List.map_nil]
      exact hr.nodup_iff.mpr hn
    | false =>
      simp only [Bool.false_eq_true, if_false]
      split
      · simp only [TaskRetryLoop.keys, List.map_append, List.map_cons, List.map_nil]
        exact hr.nodup_iff.mpr hn
      · simp only [TaskRetryLoop.keys]
        exact (List.nodup_cons.mp hn).2

/-- In every reachable state of the retry loop of a workspace resource event loop, no key
occurs twice among the queued and running tasks. -/
theorem RetryLoopReachable_nodup (srl : SharedResourceEventLoop)
    (loop : TaskRetryLoop workspaceResourceEventTask) (h : RetryLoopReachable srl loop) :
    loop.keys.Nodup := by
  induction h with
  | start => simp [NewTaskRetryLoop, TaskRetryLoop.keys]
  | received msg _ ih =>
    cases hi : internalWorkspaceResourceEventLoop msg srl with
    | addTaskIfNotPresent k t b =>
      simpa [LoopIteration.register] using AddTaskIfNotPresent_nodup _ k t b ih
    | continued s => simpa [LoopIteration.register] using ih
    | panicked s => simpa [LoopIteration.register] using ih
  | dispatched key _ ih => exact dispatch_nodup _ key ih
  | completed key retry _ ih => exact completed_nodup _ key retry ih

/-- A task added under a key that is queued or running is stored nowhere: the queued and the
running tasks stay as they are. -/
theorem AddTaskIfNotPresent_present {τ : Type} (loop : TaskRetryLoop τ) (key : String)
    (task : τ) (backoff : ExponentialBackoff) (hk : key ∈ loop.keys) :
    (loop.AddTaskIfNotPresent key task backoff).queued = loop.queued ∧
    (loop.AddTaskIfNotPresent key task backoff).running = loop.running := by
  unfold TaskRetryLoop.AddTaskIfNotPresent
  simp only [hk, if_true]
  split <;> exact ⟨rfl, rfl⟩

/-- A task added under the key of a running task marks the key for a follow-up attempt. -/
theorem AddTaskIfNotPresent_running {τ : Type} (loop : TaskRetryLoop τ) (key : String)
    (task : τ) (backoff : ExponentialBackoff)
    (hk : key ∈ loop.running.map (fun e => e.key)) :
    key ∈ (loop.AddTaskIfNotPresent key task backoff).followUp := by
  have hkeys : key ∈ loop.keys := by
    simp only [TaskRetryLoop.keys, List.mem_append]
    exact Or.inr hk
  unfold TaskRetryLoop.AddTaskIfNotPresent
  simp only [hkeys, if_true, hk, true_and]
  by_cases hf : key ∈ loop.followUp
  · simp [hf]
  · simp [hf]

/-- The run of a task whose key is marked ends without retry: the task is queued again. -/
theorem completed_followUp {τ : Type} (loop : TaskRetryLoop τ) (key : String)
    (hk : key ∈ loop.running.map (fun e => e.key)) (hf : key ∈ loop.followUp) :
    key ∈ (loop.completed key false).queued.map (fun e => e.key) ∧
    key ∉ (loop.completed key false).followUp := by
  unfold TaskRetryLoop.completed
  cases hfind : loop.running.find? (fun e => e.key = key) with
  | none =>
    rw [List.find?_eq_none] at hfind
    obtain ⟨e, he, hek⟩ := List.mem_map.mp hk
    exact absurd (by simpa using hek) (hfind e he)
  | some e =>
    have hek : e.key = key := by simpa using List.find?_some hfind
    simp [hf, hek, List.mem_filter]

/-- C14: in every reachable state of the retry loop of a workspace resource event loop, each
key has at most one task queued or running. `AddTaskIfNotPresent` appends the task to the
queue when its key has no task queued or running, and drops it otherwise: the queued and the
running tasks stay as they are. A task added while the task of its key is running marks the key
for the one follow-up attempt: when the run ends without retry, the key is queued again, still
with one task. -/
theorem retry_loop_one_task_per_key (srl : SharedResourceEventLoop)
    (loop : TaskRetryLoop workspaceResourceEventTask) (h : RetryLoopReachable srl loop) :
    (∀ key : String, loop.keys.count key ≤ 1) ∧
    ∀ (key : String) (task : workspaceResourceEventTask) (backoff : ExponentialBackoff),
      (key ∉ loop.keys →
        loop.AddTaskIfNotPresent key task backoff =
          { loop with queued := loop.queued ++
              [{ key := key, task := task, backoff := backoff, attempts := 0 }] }) ∧
      (key ∈ loop.keys →
        (loop.AddTaskIfNotPresent key task backoff).queued = loop.queued ∧
        (loop.AddTaskIfNotPresent key task backoff).running = loop.running) ∧
      (key ∈ loop.running.map (fun e => e.key) →
        key ∈ (loop.AddTaskIfNotPresent key task backoff).followUp ∧
        ((loop.AddTaskIfNotPresent key task backoff).completed key false).keys.count key = 1 ∧
        key ∈ ((loop.AddTaskIfNotPresent key task backoff).completed key false).queued.map
          (fun e => e.key)) := by
  refine ⟨?_, ?_⟩
  · exact List.nodup_iff_count_le_one.mp (RetryLoopReachable_nodup srl loop h)
  · intro key task backoff
    refine ⟨?_, ?_, ?_⟩
    · intro hk
      simp [TaskRetryLoop.AddTaskIfNotPresent, hk]
    · intro hk
      exact AddTaskIfNotPresent_present loop key task backoff hk
    · intro hk
      have hkeys : key ∈ loop.keys := by
        simp only [TaskRetryLoop.keys, List.mem_append]
        exact Or.inr hk
      have hmark := AddTaskIfNotPresent_running loop key task backoff hk
      have hrun : key ∈ (loop.AddTaskIfNotPresent key task backoff).running.map
          (fun e => e.key) := by
        rw [(AddTaskIfNotPresent_present loop key task backoff hkeys).2]
        exact hk
      have hq := (completed_followUp _ key hrun hmark).1
      have hnodup := completed_nodup _ key false
        (AddTaskIfNotPresent_nodup loop key task backoff
          (RetryLoopReachable_nodup srl loop h))
      refine ⟨hmark, ?_, hq⟩
      apply Nat.le_antisymm (List.nodup_iff_count_le_one.mp hnodup key)
      apply List.count_pos_iff.mpr
      simp only [TaskRetryLoop.keys, List.mem_append]
      exact Or.inl hq

/-- C14 at a concrete run: the same managed-environment message is received twice, the task is
dispatched, and the message is received a third time, during the run; the key has one task
throughout, the running one, and is marked for a follow-up. When the run ends without retry
the task is queued once more; when that second run ends, the retry loop is empty. -/
theorem retry_loop_one_task_per_key_witness :
    RetryLoopReachable succeedingSharedResourceLoop busyRetryLoop ∧
    (∀ key : String, busyRetryLoop.keys.count key ≤ 1) ∧
    busyRetryLoop.keys = ["managed-env-my-user-my-managed-env"] ∧
    busyRetryLoop.queued.length = 0 ∧ busyRetryLoop.running.length = 1 ∧
    busyRetryLoop.followUp = ["managed-env-my-user-my-managed-env"] ∧
    ((busyRetryLoop.completed "managed-env-my-user-my-managed-env" false).queued.map
        (fun e => e.key) = ["managed-env-my-user-my-managed-env"]) ∧
    (busyRetryLoop.completed "managed-env-my-user-my-managed-env" false).running.length = 0 ∧
    (((busyRetryLoop.completed "managed-env-my-user-my-managed-env" false).dispatch
        "managed-env-my-user-my-managed-env").completed
        "managed-env-my-user-my-managed-env" false).keys = [] :=
  ⟨.received _ (.dispatched _ (.received _ (.received _ .start))),
   (retry_loop_one_task_per_key succeedingSharedResourceLoop busyRetryLoop
      (.received _ (.dispatched _ (.received _ (.received _ .start))))).1,
   by decide, by decide, by decide, by decide, by decide, by decide, by decide⟩

/-! ### Compression codec -/

/-- C19: decompressing an empty byte sequence returns a nil result and no error, whatever the
gzip reader and the deserialiser are. -/
theorem decompressOperationState_empty {OperationState : Type}
    (decoders : Decoders OperationState) :
    decompressOperationState decoders [] = (none, none) := by
  simp [decompressOperationState]

/-! ### Workspace event loop: who is told about a managed environment -/

/-- C20: on a database whose mappings and applications are unique by key,
`handleManagedEnvironmentModified_shouldInformGitOpsDeployment` returns true if and only if
(a) the deployment's `destination.environment` is the name of the event's request, or (b) the
Application row of the deployment's DeploymentToApplicationMapping references a managed
environment that an APICRToDatabaseMapping maps back to the event's resource; it never returns
an error, so it returns `(false, nil)` when neither holds. -/
theorem shouldInformGitOpsDeployment_iff
    (gitopsDeployment : GitOpsDeployment) (managedEnvEvent : EventLoopEvent) (db : Database)
    (hmappings : ∀ m1 ∈ db.deploymentToApplicationMappings,
      ∀ m2 ∈ db.deploymentToApplicationMappings,
      m1.DeploymentName = m2.DeploymentName → m1.DeploymentNamespace = m2.DeploymentNamespace →
      m1.NamespaceUID = m2.NamespaceUID → m1 = m2)
    (happs : ∀ a1 ∈ db.applications, ∀ a2 ∈ db.applications,
      a1.Application_id = a2.Application_id → a1 = a2) :
    ((handleManagedEnvironmentModified_shouldInformGitOpsDeployment gitopsDeployment
        managedEnvEvent db).1 = true ↔
      (gitopsDeployment.Spec.Destination.Environment = managedEnvEvent.Request.Name ∨
        ∃ mapping ∈ db.deploymentToApplicationMappings, ∃ application ∈ db.applications,
        ∃ m ∈ db.apiCRToDatabaseMappings,
          mapping.DeploymentName = gitopsDeployment.Name ∧
          mapping.DeploymentNamespace = gitopsDeployment.Namespace ∧
          mapping.NamespaceUID = managedEnvEvent.WorkspaceID ∧
          application.Application_id = mapping.Application_id ∧
          m.APIResourceType = "GitOpsDeploymentManagedEnvironment" ∧
          m.APIResourceName = managedEnvEvent.Request.Name ∧
          m.APIResourceNamespace = managedEnvEvent.Request.Namespace ∧
          m.NamespaceUID = managedEnvEvent.WorkspaceID ∧
          m.DBRelationType = "ManagedEnvironment" ∧
          m.DBRelationKey = application.Managed_environment_id)) ∧
    (handleManagedEnvironmentModified_shouldInformGitOpsDeployment gitopsDeployment
        managedEnvEvent db).2 = none := by
  unfold handleManagedEnvironmentModified_shouldInformGitOpsDeployment
  by_cases ha : gitopsDeployment.Spec.Destination.Environment = managedEnvEvent.Request.Name
  · simp [ha]
  · simp only [ha, if_false, false_or]
    cases hm : db.getDeploymentToApplicationMapping gitopsDeployment.Name
        gitopsDeployment.Namespace managedEnvEvent.WorkspaceID with
    | none =>
      simp only [Bool.false_eq_true, false_iff, and_true]
      rintro ⟨mapping, hmem, app, -, m, -, h1, h2, h3, -⟩
      have hnone := List.find?_eq_none.mp hm mapping hmem
      simp [h1, h2, h3] at hnone
    | some mapping0 =>
      have hmem0 := List.mem_of_find?_eq_some hm
      have hp0 := List.find?_some hm
      simp only [decide_eq_true_eq] at hp0
      dsimp only
      cases happ : db.getApplicationById mapping0.Application_id with
      | none =>
        simp only [Bool.false_eq_true, false_iff, and_true]
        rintro ⟨mapping, hmem, app, hamem, m, -, h1, h2, h3, h4, -⟩
        have hmm : mapping = mapping0 :=
          hmappings mapping hmem mapping0 hmem0 (h1.trans hp0.1.symm) (h2.trans hp0.2.1.symm)
            (h3.trans hp0.2.2.symm)
        subst hmm
        have hnone := List.find?_eq_none.mp happ app hamem
        simp [h4] at hnone
      | some app0 =>
        have hamem0 := List.mem_of_find?_eq_some happ
        have hap0 := List.find?_some happ
        simp only [decide_eq_true_eq] at hap0
        simp only [and_true, List.any_eq_true, decide_eq_true_eq,
          APICRToDatabaseMapping_ResourceType_GitOpsDeploymentManagedEnvironment,
          APICRToDatabaseMapping_DBRelationType_ManagedEnvironment]
        constructor
        · rintro ⟨m, hmmem, h⟩
          exact ⟨mapping0, hmem0, app0, hamem0, m, hmmem, hp0.1, hp0.2.1, hp0.2.2, hap0, h⟩
        · rintro ⟨mapping, hmem, app, hamem, m, hmmem, h1, h2, h3, h4, h⟩
          have hmm : mapping = mapping0 :=
            hmappings mapping hmem mapping0 hmem0 (h1.trans hp0.1.symm)
              (h2.trans hp0.2.1.symm) (h3.trans hp0.2.2.symm)
          subst hmm
          have haa : app = app0 := happs app hamem app0 hamem0 (h4.trans hap0.symm)
          subst haa
          exact ⟨m, hmmem, h⟩

/-- C20 on the database of the tests: the deployment is informed through its application row;
it is not once the APICRToDatabaseMapping is deleted; and it is informed, whatever the
database, when its `destination.environment` names the managed environment. -/
theorem shouldInformGitOpsDeployment_iff_witness :
    handleManagedEnvironmentModified_shouldInformGitOpsDeployment abcDeployment managedEnvEvent
      testDatabase = (true, none) ∧
    handleManagedEnvironmentModified_shouldInformGitOpsDeployment abcDeployment managedEnvEvent
      { testDatabase with apiCRToDatabaseMappings := [] } = (false, none) ∧
    handleManagedEnvironmentModified_shouldInformGitOpsDeployment
      { abcDeployment with
        Spec := { abcDeployment.Spec with
          Destination := { Environment := "my-managed-env", Namespace := "abc-namespace" } } }
      managedEnvEvent {} = (true, none) := by
  have h := shouldInformGitOpsDeployment_iff abcDeployment managedEnvEvent testDatabase
    (by decide) (by decide)
  refine ⟨Prod.ext (h.1.mpr (Or.inr ?_)) h.2, by decide, by decide⟩
  exact ⟨_, List.mem_singleton.mpr rfl, _, List.mem_singleton.mpr rfl, managedEnvMapping,
    List.mem_singleton.mpr rfl, by decide⟩

/-! ### Application event loop runner: status tick -/

/-- After a status write, the deployment found under `(name, namespace)` carries the written
status. -/
theorem getGitOpsDeployment_after_write (gitopsDeployments : List GitOpsDeployment)
    (name namespace_ : String) (status : GitOpsDeploymentStatus) (d0 : GitOpsDeployment)
    (h : getGitOpsDeployment gitopsDeployments name namespace_ = some d0) :
    getGitOpsDeployment (gitopsDeployments.map (fun d =>
        if d.Name = name ∧ d.Namespace = namespace_ then { d with Status := status } else d))
      name namespace_ = some { d0 with Status := status } := by
  induction gitopsDeployments with
  | nil => simp [getGitOpsDeployment] at h
  | cons x rest ih =>
    unfold getGitOpsDeployment at h ih ⊢
    by_cases hx : x.Name = name ∧ x.Namespace = namespace_
    · simp only [List.find?, hx, and_self, decide_True, Option.some.injEq] at h
      subst h
      simp [List.find?, hx]
    · have hx2 : ¬ (x.Name = name ∧ x.Namespace = namespace_) := hx
      simp only [List.find?, hx, decide_False] at h
      simp only [List.map_cons, hx, if_false, List.find?, decide_False]
      exact ih h

/-- C17: the status tick is idempotent: when a tick ends without error, a second tick on the
custom resources it left, with the same database, returns `updated = false` and no error, and
leaves the custom resources (so the deployment's status) as they are. -/
theorem handleUpdateDeploymentStatusTick_idempotent (decoders : StatusDecoders)
    (a : applicationEventLoopRunner_Action) (gitopsDeplName gitopsDeplNamespace : String)
    (gitopsDeployments : List GitOpsDeployment) (db : Database)
    (hok : (applicationEventRunner_handleUpdateDeploymentStatusTick decoders a gitopsDeplName
      gitopsDeplNamespace gitopsDeployments db).2.2 = none) :
    applicationEventRunner_handleUpdateDeploymentStatusTick decoders a gitopsDeplName
        gitopsDeplNamespace
        (applicationEventRunner_handleUpdateDeploymentStatusTick decoders a gitopsDeplName
          gitopsDeplNamespace gitopsDeployments db).1 db
      = ((applicationEventRunner_handleUpdateDeploymentStatusTick decoders a gitopsDeplName
          gitopsDeplNamespace gitopsDeployments db).1, false, none) := by
  unfold applicationEventRunner_handleUpdateDeploymentStatusTick at hok ⊢
  cases hobs : observedDeploymentStatus decoders db a.workspaceID gitopsDeplName
      gitopsDeplNamespace with
  | absent => simp [hobs]
  | failed err => simp [hobs] at hok
  | found status =>
    simp only [hobs]
    cases hget : getGitOpsDeployment gitopsDeployments gitopsDeplName gitopsDeplNamespace with
    | none => simp [hget]
    | some d0 =>
      by_cases hsame : d0.Status = status
      · simp [hget, hsame]
      · simp only [hsame, if_false]
        rw [getGitOpsDeployment_after_write gitopsDeployments gitopsDeplName
          gitopsDeplNamespace status d0 hget]
        simp

/-- C17 on scenario S1: the first tick writes the status (`updated = true`, health Healthy,
revision `abcdefg`), the second tick returns `updated = false` and changes nothing. -/
theorem handleUpdateDeploymentStatusTick_idempotent_witness :
    (applicationEventRunner_handleUpdateDeploymentStatusTick sampleDecoders myGitopsDeplAction
      "my-gitops-depl" "my-user" [myGitopsDepl] statusDatabase).2 = (true, none) ∧
    (applicationEventRunner_handleUpdateDeploymentStatusTick sampleDecoders myGitopsDeplAction
      "my-gitops-depl" "my-user" [myGitopsDepl] statusDatabase).1.map
        (fun d => (d.Status.Health.Status, d.Status.Sync.Revision)) = [("Healthy", "abcdefg")] ∧
    applicationEventRunner_handleUpdateDeploymentStatusTick sampleDecoders myGitopsDeplAction
        "my-gitops-depl" "my-user"
        (applicationEventRunner_handleUpdateDeploymentStatusTick sampleDecoders
          myGitopsDeplAction "my-gitops-depl" "my-user" [myGitopsDepl] statusDatabase).1
        statusDatabase
      = ((applicationEventRunner_handleUpdateDeploymentStatusTick sampleDecoders
          myGitopsDeplAction "my-gitops-depl" "my-user" [myGitopsDepl] statusDatabase).1,
        false, none) :=
  ⟨by decide, by decide,
   handleUpdateDeploymentStatusTick_idempotent sampleDecoders myGitopsDeplAction
     "my-gitops-depl" "my-user" [myGitopsDepl] statusDatabase (by decide)⟩

/-! ### Application event loop runner: deployment modified -/

/-- C15, as amended: for a GitOpsDeployment that exists, the handler returns the user error
`PathIsRequired` when `spec.source.path` is empty and `InvalidPathSlash` when it is "/",
without touching the database; for any other path it returns no error, from any database
state, when the resolution of the target environment reports none. -/
theorem handleDeploymentModified_path_validation (srl : RunnerCollaborators)
    (a : applicationEventLoopRunner_Action) (gitopsDeployments : List GitOpsDeployment)
    (db : Database) (gitopsDeployment : GitOpsDeployment)
    (hget : getGitOpsDeployment gitopsDeployments a.eventResourceName a.eventResourceNamespace
      = some gitopsDeployment) :
    (gitopsDeployment.Spec.Source.Path = "" →
      applicationEventRunner_handleDeploymentModified srl a gitopsDeployments db
        = some (db, { err := some (.user .PathIsRequired) })) ∧
    (gitopsDeployment.Spec.Source.Path = "/" →
      applicationEventRunner_handleDeploymentModified srl a gitopsDeployments db
        = some (db, { err := some (.user .InvalidPathSlash) })) ∧
    (gitopsDeployment.Spec.Source.Path ≠ "" → gitopsDeployment.Spec.Source.Path ≠ "/" →
      (srl.ReconcileSharedManagedEnv gitopsDeployment.Namespace
        gitopsDeployment.Spec.Destination.Environment
        (decide (gitopsDeployment.Spec.Destination.Environment = ""))).err = none →
      ∃ db1 result,
        applicationEventRunner_handleDeploymentModified srl a gitopsDeployments db
          = some (db1, result) ∧ result.err = none) := by
  refine ⟨?_, ?_, ?_⟩
  · intro hp
    simp [applicationEventRunner_handleDeploymentModified, hget, hp]
  · intro hp
    simp [applicationEventRunner_handleDeploymentModified, hget, hp]
  · intro h1 h2 henv
    unfold applicationEventRunner_handleDeploymentModified
    simp only [hget, h1, h2, if_false, henv]
    cases happ : (db.getDeploymentToApplicationMapping a.eventResourceName
        a.eventResourceNamespace a.workspaceID).bind
        (fun m => db.getApplicationById m.Application_id) with
    | none => exact ⟨_, _, rfl, rfl⟩
    | some application =>
      dsimp only
      split
      · exact ⟨_, _, rfl, rfl⟩
      · exact ⟨_, _, rfl, rfl⟩

/-- C15, as amended, on scenario S2: with an empty path the handler returns `PathIsRequired`,
with the path "/" it returns `InvalidPathSlash`, and with a valid path it returns no error
and creates the Application row and its first Operation. -/
theorem handleDeploymentModified_path_validation_witness :
    applicationEventRunner_handleDeploymentModified (collaboratorsWith {}) myGitopsDeplAction
        [myGitopsDeplNoPath] {}
      = some ({}, { err := some (.user .PathIsRequired) }) ∧
    applicationEventRunner_handleDeploymentModified (collaboratorsWith {}) myGitopsDeplAction
        [myGitopsDeplSlashPath] {}
      = some ({}, { err := some (.user .InvalidPathSlash) }) ∧
    (∃ db1 result,
      applicationEventRunner_handleDeploymentModified (collaboratorsWith {}) myGitopsDeplAction
        [myGitopsDepl] {} = some (db1, result) ∧ result.err = none) ∧
    (applicationEventRunner_handleDeploymentModified (collaboratorsWith {}) myGitopsDeplAction
        [myGitopsDepl] {}).map (fun r => (r.1.applications.length, r.1.operations.length, r.2.err))
      = some (1, 1, none) :=
  ⟨(handleDeploymentModified_path_validation (collaboratorsWith {}) myGitopsDeplAction
      [myGitopsDeplNoPath] {} myGitopsDeplNoPath rfl).1 rfl,
   (handleDeploymentModified_path_validation (collaboratorsWith {}) myGitopsDeplAction
      [myGitopsDeplSlashPath] {} myGitopsDeplSlashPath rfl).2.1 rfl,
   (handleDeploymentModified_path_validation (collaboratorsWith {}) myGitopsDeplAction
      [myGitopsDepl] {} myGitopsDepl rfl).2.2 (by decide) (by decide) rfl,
   by decide⟩

/-- C15 as stated fails: a GitOpsDeployment with a valid path whose `destination.environment`
names a managed environment with invalid credentials gets a user error. -/
theorem handleDeploymentModified_valid_path_user_error :
    getGitOpsDeployment [myGitopsDeplWithEnv] "my-gitops-depl" "my-user"
      = some myGitopsDeplWithEnv ∧
    myGitopsDeplWithEnv.Spec.Source.Path ≠ "" ∧ myGitopsDeplWithEnv.Spec.Source.Path ≠ "/" ∧
    applicationEventRunner_handleDeploymentModified
        (collaboratorsWith { isUserErr := true, err := some "invalid cluster credentials" })
        myGitopsDeplAction [myGitopsDeplWithEnv] {}
      = some ({}, { err := some (.user (.InvalidManagedEnvironment
          "invalid cluster credentials")) }) := by
  decide

/-! ### Workspace resource event loop: corrupt messages and the retry-loop task -/

/-- C26 on the code: for a `processManagedEnvironment` message whose `EventLoopMessage` has a
nil `Event`, the key computation of the loop dereferences the event and panics, and so does
`handleResourceLoopManagedEnvironment` right after logging the SEVERE line; nothing is
returned, with or without retry. -/
theorem nil_event_panics :
    (match internalWorkspaceResourceEventLoop nilEventLoopMessage succeedingSharedResourceLoop with
      | .panicked reason => reason = "invalid memory address or nil pointer dereference"
      | _ => False) ∧
    handleResourceLoopManagedEnvironment nilEventLoopMessage succeedingSharedResourceLoop
      = { effects := [.log .error "SEVERE: process managed env event is nil"],
          outcome := .panicked "invalid memory address or nil pointer dereference" } ∧
    (internalProcessWorkspaceResourceMessage nilEventLoopMessage
        succeedingSharedResourceLoop).outcome
      = .panicked "invalid memory address or nil pointer dereference" := by
  refine ⟨?_, by decide, by decide⟩
  simp [internalWorkspaceResourceEventLoop, nilEventLoopMessage, nilDereference,
    workspaceResourceLoopMessageType_processRepositoryCredential,
    workspaceResourceLoopMessageType_processManagedEnvironment]

/-- Wrapping a handler run that returned gives a run that returned. -/
theorem wrapHandlerRun_returns (before : List Effect) (r : Run (Bool × Option GoError))
    (a : Bool) (b : Option GoError) (hr : r.outcome = .returned (a, b)) :
    ∃ a1 b1, (wrapHandlerRun before r).outcome = .returned (a1, b1) := by
  cases b with
  | none => exact ⟨false, none, by simp only [wrapHandlerRun, hr]⟩
  | some e =>
    exact ⟨a, some ("failed to process workspace resource message: " ++ e),
      by simp only [wrapHandlerRun, hr]⟩

/-- With a namespace client, `handleResourceLoopRepositoryCredential` returns. -/
theorem handleResourceLoopRepositoryCredential_returns (c : Client) (mt : String)
    (payload : Payload) (srl : SharedResourceEventLoop) :
    ∃ a b, (handleResourceLoopRepositoryCredential
      { apiNamespaceClient := some c, messageType := mt, payload := payload } srl).outcome
      = .returned (a, b) := by
  cases payload with
  | request req =>
    simp only [handleResourceLoopRepositoryCredential]
    rcases c.Get req.Namespace { Name := req.Namespace, UID := "" } with ⟨ns, _ | err⟩
    · dsimp only
      cases srl.ReconcileRepositoryCredential ns req.Name <;> exact ⟨_, _, rfl⟩
    · dsimp only
      split <;> exact ⟨_, _, rfl⟩
  | nil => exact ⟨_, _, rfl⟩
  | eventLoopMessage m => exact ⟨_, _, rfl⟩
  | other t => exact ⟨_, _, rfl⟩

/-- With a namespace client and an event in the message,
`handleResourceLoopManagedEnvironment` returns. -/
theorem handleResourceLoopManagedEnvironment_returns (c : Client) (mt : String)
    (m : EventLoopMessage) (ev : EventLoopEvent) (hm : m.Event = some ev)
    (srl : SharedResourceEventLoop) :
    ∃ a b, (handleResourceLoopManagedEnvironment
      { apiNamespaceClient := some c, messageType := mt, payload := .eventLoopMessage m }
      srl).outcome = .returned (a, b) := by
  simp only [handleResourceLoopManagedEnvironment, hm]
  rcases c.Get ev.Request.Namespace { Name := ev.Request.Namespace, UID := "" }
    with ⟨ns, _ | err⟩
  · dsimp only
    cases (srl.ReconcileSharedManagedEnv ns ev.Request.Name ev.Request.Namespace false).err with
    | none => exact ⟨_, _, rfl⟩
    | some e =>
      dsimp only
      split <;> exact ⟨_, _, rfl⟩
  · dsimp only
    split <;> exact ⟨_, _, rfl⟩

/-- A task that the loop hands to the retry loop is processed without a panic. -/
theorem registered_task_returns (msg : workspaceResourceLoopMessage)
    (srl : SharedResourceEventLoop) (mapKey : String) (task : workspaceResourceEventTask)
    (backoff : ExponentialBackoff)
    (h : internalWorkspaceResourceEventLoop msg srl = .addTaskIfNotPresent mapKey task backoff) :
    ∃ shouldRetry err,
      (internalProcessWorkspaceResourceMessage task.msg task.sharedResourceLoop).outcome
        = .returned (shouldRetry, err) := by
  obtain ⟨cl, mt, payload⟩ := msg
  unfold internalWorkspaceResourceEventLoop at h
  simp only at h
  by_cases ht1 : mt = workspaceResourceLoopMessageType_processRepositoryCredential
  · simp only [ht1, if_true] at h
    cases payload with
    | request req =>
      simp only [LoopIteration.addTaskIfNotPresent.injEq] at h
      obtain ⟨-, htask, -⟩ := h
      subst htask
      unfold internalProcessWorkspaceResourceMessage
      cases cl with
      | none => exact ⟨_, _, rfl⟩
      | some c =>
        simp only [Option.isNone_some, Bool.false_eq_true, if_false, if_true]
        obtain ⟨a, b, hr⟩ := handleResourceLoopRepositoryCredential_returns c
          workspaceResourceLoopMessageType_processRepositoryCredential (.request req) srl
        exact wrapHandlerRun_returns _ _ a b hr
    | nil => simp at h
    | eventLoopMessage m => simp at h
    | other t => simp at h
  · simp only [ht1, if_false] at h
    by_cases ht2 : mt = workspaceResourceLoopMessageType_processManagedEnvironment
    · simp only [ht2, if_true] at h
      cases payload with
      | eventLoopMessage m =>
        cases hm : m.Event with
        | none => simp [hm] at h
        | some ev =>
          simp only [hm, LoopIteration.addTaskIfNotPresent.injEq] at h
          obtain ⟨-, htask, -⟩ := h
          subst htask
          unfold internalProcessWorkspaceResourceMessage
          cases cl with
          | none => exact ⟨_, _, rfl⟩
          | some c =>
            rw [ht2] at ht1
            simp only [Option.isNone_some, Bool.false_eq_true, if_false, ht1, if_true]
            obtain ⟨a, b, hr⟩ := handleResourceLoopManagedEnvironment_returns c
              workspaceResourceLoopMessageType_processManagedEnvironment m ev hm srl
            exact wrapHandlerRun_returns _ _ a b hr
      | nil => simp at h
      | request req => simp at h
      | other t => simp at h
    · simp [ht2] at h

/-- C28: whenever `internalProcessWorkspaceResourceMessage` returns `(retry, err)`,
`PerformTask` returns `(retry, nil)`, whether or not the error is recognised as a
managed-environment connection user error; and for every task that the loop hands to the retry
loop it does return. -/
theorem PerformTask_result (IsManagedEnvironmentConnectionUserError : Option GoError → Bool)
    (task : workspaceResourceEventTask) :
    (∀ shouldRetry err,
      (internalProcessWorkspaceResourceMessage task.msg task.sharedResourceLoop).outcome
        = .returned (shouldRetry, err) →
      (task.PerformTask IsManagedEnvironmentConnectionUserError).outcome
        = .returned (shouldRetry, none)) ∧
    (∀ msg srl mapKey backoff,
      internalWorkspaceResourceEventLoop msg srl = .addTaskIfNotPresent mapKey task backoff →
      ∃ shouldRetry err,
        (internalProcessWorkspaceResourceMessage task.msg task.sharedResourceLoop).outcome
          = .returned (shouldRetry, err) ∧
        (task.PerformTask IsManagedEnvironmentConnectionUserError).outcome
          = .returned (shouldRetry, none)) := by
  have key : ∀ shouldRetry err,
      (internalProcessWorkspaceResourceMessage task.msg task.sharedResourceLoop).outcome
        = .returned (shouldRetry, err) →
      (task.PerformTask IsManagedEnvironmentConnectionUserError).outcome
        = .returned (shouldRetry, none) := by
    intro shouldRetry err h
    unfold workspaceResourceEventTask.PerformTask
    simp only [h]
    by_cases hp : IsManagedEnvironmentConnectionUserError err = true
    · simp [hp]
    · cases err <;> simp [hp]
  refine ⟨key, ?_⟩
  intro msg srl mapKey backoff h
  obtain ⟨shouldRetry, err, hr⟩ := registered_task_returns msg srl mapKey task backoff h
  exact ⟨shouldRetry, err, hr, key shouldRetry err hr⟩

/-- C28 at a concrete task: the reconcile of the managed environment fails with a system error
ending in `Unauthorized`; the task returns `(true, nil)` both when the predicate recognises
the error and when it recognises none. -/
theorem PerformTask_result_witness :
    (internalProcessWorkspaceResourceMessage managedEnvLoopMessage
        (failingSharedResourceLoop false "Unauthorized")).outcome
      = .returned (true, some ("failed to process workspace resource message: "
          ++ "unable to reconcile shared managed env: Unauthorized")) ∧
    (workspaceResourceEventTask.PerformTask endsInUnauthorized
        { msg := managedEnvLoopMessage,
          sharedResourceLoop := failingSharedResourceLoop false "Unauthorized" }).outcome
      = .returned (true, none) ∧
    (workspaceResourceEventTask.PerformTask (fun _ => false)
        { msg := managedEnvLoopMessage,
          sharedResourceLoop := failingSharedResourceLoop false "Unauthorized" }).outcome
      = .returned (true, none) :=
  ⟨by decide,
   (PerformTask_result endsInUnauthorized
      { msg := managedEnvLoopMessage,
        sharedResourceLoop := failingSharedResourceLoop false "Unauthorized" }).1 true
      (some ("failed to process workspace resource message: "
          ++ "unable to reconcile shared managed env: Unauthorized")) (by decide),
   (PerformTask_result (fun _ => false)
      { msg := managedEnvLoopMessage,
        sharedResourceLoop := failingSharedResourceLoop false "Unauthorized" }).1 true
      (some ("failed to process workspace resource message: "
          ++ "unable to reconcile shared managed env: Unauthorized")) (by decide)⟩

/-- C29: for a message with a namespace client and a `ctrl.Request` payload,
`handleResourceLoopRepositoryCredential` returns `retry = true` exactly when the namespace
lookup fails with an error other than NotFound or `ReconcileRepositoryCredential` returns an
error, then together with a non-nil error; in every other case it returns `(noRetry, nil)`. -/
theorem handleResourceLoopRepositoryCredential_retry (c : Client) (messageType : String)
    (req : Request) (srl : SharedResourceEventLoop) :
    ((∃ err, (handleResourceLoopRepositoryCredential
          { apiNamespaceClient := some c, messageType := messageType, payload := .request req }
          srl).outcome = .returned (true, err)) ↔
      ((∃ e, (c.Get req.Namespace { Name := req.Namespace, UID := "" }).2 = some e
          ∧ e.notFound = false) ∨
        ((c.Get req.Namespace { Name := req.Namespace, UID := "" }).2 = none ∧
          srl.ReconcileRepositoryCredential
            (c.Get req.Namespace { Name := req.Namespace, UID := "" }).1 req.Name ≠ none))) ∧
    ((∃ e, (handleResourceLoopRepositoryCredential
          { apiNamespaceClient := some c, messageType := messageType, payload := .request req }
          srl).outcome = .returned (true, some e)) ∨
      (handleResourceLoopRepositoryCredential
          { apiNamespaceClient := some c, messageType := messageType, payload := .request req }
          srl).outcome = .returned (noRetry, none)) := by
  simp only [handleResourceLoopRepositoryCredential]
  rcases c.Get req.Namespace { Name := req.Namespace, UID := "" } with ⟨ns, _ | err⟩
  · dsimp only
    cases hrec : srl.ReconcileRepositoryCredential ns req.Name with
    | none => simp
    | some e => simp
  · dsimp only
    by_cases hnf : err.notFound = true
    · simp [hnf]
    · simp [hnf]

/-- C29 at concrete inputs: retried for an unreachable API server and for a failing reconcile,
not retried for a missing namespace and for a successful reconcile. -/
theorem handleResourceLoopRepositoryCredential_retry_witness :
    (handleResourceLoopRepositoryCredential
        { apiNamespaceClient := some unreachableClient,
          messageType := "processRepositoryCredential",
          payload := .request { Namespace := "my-user", Name := "my-repo-cred" } }
        succeedingSharedResourceLoop).outcome
      = .returned (true, some ("unexpected error in retrieving repo credentials: "
          ++ "the server is currently unable to handle the request")) ∧
    (handleResourceLoopRepositoryCredential
        { apiNamespaceClient := some (clientOf [myUserNamespace]),
          messageType := "processRepositoryCredential",
          payload := .request { Namespace := "my-user", Name := "my-repo-cred" } }
        (failingSharedResourceLoop true "secret not found")).outcome
      = .returned (true, some "unable to reconcile repository credential. Error: secret not found") ∧
    (handleResourceLoopRepositoryCredential
        { apiNamespaceClient := some (clientOf []),
          messageType := "processRepositoryCredential",
          payload := .request { Namespace := "my-user", Name := "my-repo-cred" } }
        succeedingSharedResourceLoop).outcome = .returned (false, none) ∧
    ((∃ e, (handleResourceLoopRepositoryCredential
          { apiNamespaceClient := some (clientOf [myUserNamespace]),
            messageType := "processRepositoryCredential",
            payload := .request { Namespace := "my-user", Name := "my-repo-cred" } }
          succeedingSharedResourceLoop).outcome = .returned (true, some e)) ∨
      (handleResourceLoopRepositoryCredential
          { apiNamespaceClient := some (clientOf [myUserNamespace]),
            messageType := "processRepositoryCredential",
            payload := .request { Namespace := "my-user", Name := "my-repo-cred" } }
          succeedingSharedResourceLoop).outcome = .returned (false, none)) :=
  ⟨by decide, by decide, by decide,
   (handleResourceLoopRepositoryCredential_retry (clientOf [myUserNamespace])
      "processRepositoryCredential" { Namespace := "my-user", Name := "my-repo-cred" }
      succeedingSharedResourceLoop).2⟩

/-! ### Application state cache: hits and the key invariant -/

/-- Looking up a key after `cache[k] = v`. -/
theorem Cache.get_set (cache : Cache) (k k1 : String) (v : ApplicationState) :
    Cache.get (Cache.set cache k v) k1 = if k = k1 then some v else Cache.get cache k1 := by
  by_cases h : k = k1
  · simp [Cache.set, Cache.get, h]
  · simp only [Cache.set, Cache.get, h, if_false]
    induction cache with
    | nil => simp [Cache.delete, Cache.get]
    | cons x rest ih =>
      obtain ⟨kx, vx⟩ := x
      by_cases hx : kx = k
      · subst hx
        simp only [Cache.delete, List.filter, ne_eq, not_true_eq_false, decide_False,
          Cache.get, h, if_false] at ih ⊢
        exact ih
      · simp only [Cache.delete, List.filter, ne_eq, hx, not_false_eq_true, decide_True,
          Cache.get] at ih ⊢
        by_cases hx1 : kx = k1
        · simp [hx1]
        · simp only [hx1, if_false]
          exact ih

/-- Looking up a key after `delete(cache, k)`. -/
theorem Cache.get_delete (cache : Cache) (k k1 : String) :
    Cache.get (Cache.delete cache k) k1 = if k = k1 then none else Cache.get cache k1 := by
  induction cache with
  | nil => simp [Cache.delete, Cache.get]
  | cons x rest ih =>
    obtain ⟨kx, vx⟩ := x
    by_cases hx : kx = k
    · subst hx
      simp only [Cache.delete, List.filter, ne_eq, not_true_eq_false, decide_False,
        Cache.get] at ih ⊢
      by_cases h : kx = k1
      · simpa [h] using ih
      · simpa [h] using ih
    · simp only [Cache.delete, List.filter, ne_eq, hx, not_false_eq_true, decide_True,
        Cache.get] at ih ⊢
      by_cases hx1 : kx = k1
      · have : ¬ k = k1 := fun hk => hx (hx1.trans hk.symm)
        simp [hx1, this]
      · simp only [hx1, if_false]
        exact ih

/-- `processGetMessage` keeps every cache entry under its own, non-empty application id. -/
theorem processGetMessage_preserves_invariant {σ : Type} (dbQueries : DatabaseQueries σ)
    (db : σ) (req : applicationStateCacheRequest) (cache : Cache)
    (hinv : cache.storedUnderOwnId) :
    (processGetMessage dbQueries db req cache).cache.storedUnderOwnId := by
  unfold processGetMessage
  cases hget : Cache.get cache req.primaryKey with
  | some res => simpa [hget] using hinv
  | none =>
    rcases hq : dbQueries.GetApplicationStateById db
      { Applicationstate_application_id := req.primaryKey } with ⟨db1, obj, err⟩
    simp only [hget, hq]
    cases err with
    | some e => simpa using hinv
    | none =>
      by_cases hid : obj.Applicationstate_application_id = ""
      · simpa [hid] using hinv
      · simp only [ne_eq, not_true_eq_false, if_false, hid, not_false_eq_true, and_self,
          if_true]
        intro k v hk
        rw [Cache.get_set] at hk
        by_cases hkk : obj.Applicationstate_application_id = k
        · simp only [hkk, if_true, Option.some.injEq] at hk
          subst hk
          exact ⟨hkk, fun h0 => hid (hkk.trans h0)⟩
        · simp only [hkk, if_false] at hk
          exact hinv k v hk

/-- `processDeleteMessage` keeps every cache entry under its own, non-empty application id. -/
theorem processDeleteMessage_preserves_invariant {σ : Type} (dbQueries : DatabaseQueries σ)
    (db : σ) (req : applicationStateCacheRequest) (cache : Cache)
    (hinv : cache.storedUnderOwnId) :
    (processDeleteMessage dbQueries db req cache).cache.storedUnderOwnId := by
  unfold processDeleteMessage
  dsimp only
  intro k v hk
  rw [Cache.get_delete] at hk
  by_cases hkk : req.primaryKey = k
  · simp [hkk] at hk
  · simp only [hkk, if_false] at hk
    exact hinv k v hk

/-- C27: for an application id that is in the cache with value `v`, `processGetMessage`
responds with `v` and a nil error, makes no database call, and leaves database and cache as
they are. -/
theorem processGetMessage_hit {σ : Type} (dbQueries : DatabaseQueries σ) (db : σ)
    (req : applicationStateCacheRequest) (cache : Cache) (v : ApplicationState)
    (hhit : Cache.get cache req.primaryKey = some v) :
    (processGetMessage dbQueries db req cache).response
      = { applicationState := v, err := none } ∧
    (processGetMessage dbQueries db req cache).dbCalls = [] ∧
    (processGetMessage dbQueries db req cache).db = db ∧
    (processGetMessage dbQueries db req cache).cache = cache := by
  simp [processGetMessage, hhit]

/-- C27 at a concrete input: `app-1` is cached with a stale value while the database holds a
newer row; the cached value is returned and the database is not asked. -/
theorem processGetMessage_hit_witness :
    (processGetMessage rowsDatabase [healthyRow]
        { msgType := .ApplicationStateCacheMessage_Get, primaryKey := "app-1" }
        [("app-1", staleRow)]).response = { applicationState := staleRow, err := none } ∧
    (processGetMessage rowsDatabase [healthyRow]
        { msgType := .ApplicationStateCacheMessage_Get, primaryKey := "app-1" }
        [("app-1", staleRow)]).dbCalls = [] ∧
    (processGetMessage rowsDatabase [healthyRow]
        { msgType := .ApplicationStateCacheMessage_Get, primaryKey := "app-1" }
        [("app-1", staleRow)]).db = [healthyRow] ∧
    (processGetMessage rowsDatabase [healthyRow]
        { msgType := .ApplicationStateCacheMessage_Get, primaryKey := "app-1" }
        [("app-1", staleRow)]).cache = [("app-1", staleRow)] :=
  processGetMessage_hit rowsDatabase [healthyRow]
    { msgType := .ApplicationStateCacheMessage_Get, primaryKey := "app-1" }
    [("app-1", staleRow)] staleRow (by decide)

/-- C30 on the code: `processUpdateMessage` stores the object under the primary key of the
request, not under the object's application id. The only request in the file that carries an
object, the one `UpdateApplicationState` builds, has no primary key. Given a request with the
object `app-1` and no primary key, when the database update fails, the empty cache gets the
entry of `app-1` under the empty key, and with the primary key `app-2` it gets it under
`app-2`. -/
theorem processUpdateMessage_breaks_key_invariant :
    (UpdateApplicationState healthyRow).sent.map (fun r => r.primaryKey) = [""] ∧
    Cache.get (processUpdateMessage rowsDatabase []
        { msgType := .ApplicationStateCacheMessage_Update, createOrUpdateObject := healthyRow,
          primaryKey := "" } []).cache "" = some healthyRow ∧
    Cache.get (processUpdateMessage rowsDatabase []
        { msgType := .ApplicationStateCacheMessage_Update, createOrUpdateObject := healthyRow,
          primaryKey := "app-2" } []).cache "app-2" = some healthyRow ∧
    healthyRow.Applicationstate_application_id = "app-1" := by
  decide

/-! ### Application event loop runner: managed environment of an existing Application -/

/-- The Application row reached through the mapping is the row stored under its own id. -/
theorem existing_application_by_id (db : Database) (name namespace_ namespaceUID : String)
    (application : Application)
    (h : (db.getDeploymentToApplicationMapping name namespace_ namespaceUID).bind
      (fun m => db.getApplicationById m.Application_id) = some application) :
    db.getApplicationById application.Application_id = some application := by
  cases hm : db.getDeploymentToApplicationMapping name namespace_ namespaceUID with
  | none => simp [hm] at h
  | some m =>
    simp only [hm, Option.bind_some] at h
    have hid : application.Application_id = m.Application_id := by
      have := List.find?_some h
      simpa using this
    rw [hid]
    exact h

/-- After the row of an Application is replaced by a row with the same id, a lookup by that
id finds the new row. -/
theorem getApplicationById_after_update (applications : List Application)
    (application updated : Application)
    (hid : updated.Application_id = application.Application_id)
    (h : applications.find? (fun app => app.Application_id = application.Application_id)
      = some application) :
    (applications.map (fun x =>
        if x.Application_id = application.Application_id then updated else x)).find?
      (fun app => app.Application_id = application.Application_id) = some updated := by
  induction applications with
  | nil => simp at h
  | cons x rest ih =>
    by_cases hx : x.Application_id = application.Application_id
    · simp [List.find?, hx, hid]
    · simp only [List.find?, hx, decide_False] at h
      simp only [List.map_cons, hx, if_false, List.find?, decide_False]
      exact ih h

/-- C21: when a successful run of the handler changes the `managed_environment_id` of an
Application row that already exists, the Application returned and stored has the same
Application id, and exactly one Operation row is added, whose `resource_id` is that id. -/
theorem handleDeploymentModified_environment_change (srl : RunnerCollaborators)
    (a : applicationEventLoopRunner_Action) (gitopsDeployments : List GitOpsDeployment)
    (db db1 : Database) (result : DeploymentModifiedResult) (application app1 : Application)
    (hexisting : (db.getDeploymentToApplicationMapping a.eventResourceName
        a.eventResourceNamespace a.workspaceID).bind
        (fun m => db.getApplicationById m.Application_id) = some application)
    (hrun : applicationEventRunner_handleDeploymentModified srl a gitopsDeployments db
      = some (db1, result))
    (hok : result.err = none)
    (happ : result.application = some app1)
    (hchanged : app1.Managed_environment_id ≠ application.Managed_environment_id) :
    app1.Application_id = application.Application_id ∧
    db1.getApplicationById application.Application_id = some app1 ∧
    ∃ op : Operation, db1.operations = db.operations ++ [op] ∧
      op.Resource_id = application.Application_id ∧
      (db1.operations.filter (fun o => o.Resource_id = application.Application_id)).length
        = (db.operations.filter (fun o => o.Resource_id = application.Application_id)).length
          + 1 := by
  have hbyid := existing_application_by_id db _ _ _ application hexisting
  unfold applicationEventRunner_handleDeploymentModified at hrun
  simp only [hexisting] at hrun
  cases hget : getGitOpsDeployment gitopsDeployments a.eventResourceName
      a.eventResourceNamespace with
  | none =>
    simp only [hget] at hrun
    cases hm : db.getDeploymentToApplicationMapping a.eventResourceName
        a.eventResourceNamespace a.workspaceID with
    | none => simp [hm] at hrun
    | some m =>
      simp only [hm, Option.some.injEq, Prod.mk.injEq] at hrun
      obtain ⟨-, hres⟩ := hrun
      subst hres
      simp at happ
  | some d =>
    simp only [hget] at hrun
    split at hrun
    · simp only [Option.some.injEq, Prod.mk.injEq] at hrun
      obtain ⟨-, hres⟩ := hrun
      subst hres
      simp at hok
    · split at hrun
      · simp only [Option.some.injEq, Prod.mk.injEq] at hrun
        obtain ⟨-, hres⟩ := hrun
        subst hres
        simp at hok
      · split at hrun
        · simp only [Option.some.injEq, Prod.mk.injEq] at hrun
          obtain ⟨-, hres⟩ := hrun
          subst hres
          simp at hok
        · split at hrun
          · simp only [Option.some.injEq, Prod.mk.injEq] at hrun
            obtain ⟨hdb, hres⟩ := hrun
            subst hres
            simp only [Option.some.injEq] at happ
            subst happ
            subst hdb
            refine ⟨rfl, ?_, ?_⟩
            · simp only [Database.getApplicationById, Database.createOperation]
              exact getApplicationById_after_update db.applications application _ rfl hbyid
            · exact ⟨_, rfl, rfl, by simp [Database.createOperation, List.filter_append]⟩
          · simp only [Option.some.injEq, Prod.mk.injEq] at hrun
            obtain ⟨-, hres⟩ := hrun
            subst hres
            simp only [Option.some.injEq] at happ
            subst happ
            exact absurd rfl hchanged

/-- C21 on scenario S5: the deployment is first reconciled against its own namespace (one
Operation), then switched to `my-managed-env`; the Application keeps the id `application-0`,
its managed environment changes, and it has two Operations. -/
theorem handleDeploymentModified_environment_change_witness :
    createdDatabase.getApplicationById "application-0" = some createdApplication ∧
    (createdDatabase.operations.filter (fun o => o.Resource_id = "application-0")).length = 1 ∧
    (switchedRun.2.application.map (fun app => (app.Application_id, app.Managed_environment_id))
      = some ("application-0", "test-managed-env")) ∧
    (switchedRun.1.getApplicationById "application-0").map
        (fun app => app.Managed_environment_id) = some "test-managed-env" ∧
    (switchedRun.1.operations.filter (fun o => o.Resource_id = "application-0")).length = 2 := by
  have h := handleDeploymentModified_environment_change collaboratorsWithManagedEnv
    myGitopsDeplAction [myGitopsDeplWithEnv] createdDatabase switchedRun.1 switchedRun.2
    createdApplication
    { createdApplication with
      Spec_field := "https://github.com/test/test "
        ++ "resources/test-data/sample-gitops-repository/environments/overlays/dev "
        ++ "test-managed-env",
      Managed_environment_id := "test-managed-env" }
    (by decide) (by decide) (by decide) (by decide) (by decide)
  obtain ⟨-, hrow, op, -, -, hcount⟩ := h
  refine ⟨by decide, by decide, by decide, ?_, ?_⟩
  · rw [show createdApplication.Application_id = "application-0" from rfl] at hrow
    rw [hrow]
    rfl
  · rw [show createdApplication.Application_id = "application-0" from rfl] at hcount
    rw [hcount]
    decide

/-- C22: a GitOpsDeployment with a valid path names a managed environment whose CR is gone, so
that the shared resource loop returns `(nil, false, nil)` (spec §4.3 step 1); the handler, run
on a database that holds the deployment's Application, returns no error and no shutdown
signal, and the Application, returned and stored, keeps its id and has an empty
`managed_environment_id`. -/
theorem handleDeploymentModified_deleted_environment (srl : RunnerCollaborators)
    (a : applicationEventLoopRunner_Action) (gitopsDeployments : List GitOpsDeployment)
    (db : Database) (gitopsDeployment : GitOpsDeployment) (application : Application)
    (hget : getGitOpsDeployment gitopsDeployments a.eventResourceName a.eventResourceNamespace
      = some gitopsDeployment)
    (hpath1 : gitopsDeployment.Spec.Source.Path ≠ "")
    (hpath2 : gitopsDeployment.Spec.Source.Path ≠ "/")
    (hnamed : gitopsDeployment.Spec.Destination.Environment ≠ "")
    (hgone : srl.ReconcileSharedManagedEnv gitopsDeployment.Namespace
      gitopsDeployment.Spec.Destination.Environment false
      = { managedEnv := none, isUserErr := false, err := none })
    (hexisting : (db.getDeploymentToApplicationMapping a.eventResourceName
        a.eventResourceNamespace a.workspaceID).bind
        (fun m => db.getApplicationById m.Application_id) = some application) :
    ∃ (db1 : Database) (app1 : Application),
      applicationEventRunner_handleDeploymentModified srl a gitopsDeployments db
        = some (db1, { signalledShutdown := false, application := some app1, err := none }) ∧
      app1.Application_id = application.Application_id ∧
      app1.Managed_environment_id = "" ∧
      db1.getApplicationById application.Application_id = some app1 := by
  have hbyid := existing_application_by_id db _ _ _ application hexisting
  unfold applicationEventRunner_handleDeploymentModified
  simp only [hget, hpath1, hpath2, if_false, hnamed, decide_False, hgone, hexisting]
  split
  · refine ⟨_, _, rfl, rfl, rfl, ?_⟩
    simp only [Database.getApplicationById, Database.createOperation]
    exact getApplicationById_after_update db.applications application _ rfl hbyid
  · rename_i hsame
    simp only [ne_eq, not_or, not_not] at hsame
    exact ⟨db, application, rfl, rfl, hsame.2, hbyid⟩

/-- C22 on scenario S4: the deployment was reconciled against `my-managed-env`; after the CR is
deleted, the handler keeps the Application `application-0` and empties its
`managed_environment_id`. -/
theorem handleDeploymentModified_deleted_environment_witness :
    (createdWithEnvDatabase.getApplicationById "application-0").map
        (fun app => app.Managed_environment_id) = some "test-managed-env" ∧
    ∃ (db1 : Database) (app1 : Application),
      applicationEventRunner_handleDeploymentModified (collaboratorsWith {}) myGitopsDeplAction
          [myGitopsDeplWithEnv] createdWithEnvDatabase
        = some (db1, { signalledShutdown := false, application := some app1, err := none }) ∧
      app1.Application_id = "application-0" ∧
      app1.Managed_environment_id = "" ∧
      db1.getApplicationById "application-0" = some app1 :=
  ⟨by decide,
   handleDeploymentModified_deleted_environment (collaboratorsWith {}) myGitopsDeplAction
     [myGitopsDeplWithEnv] createdWithEnvDatabase myGitopsDeplWithEnv
     { Application_id := "application-0", Name := "my-gitops-depl",
       Spec_field := "https://github.com/test/test "
         ++ "resources/test-data/sample-gitops-repository/environments/overlays/dev "
         ++ "test-managed-env",
       Engine_instance_inst_id := "test-fake-engine-instance-id",
       Managed_environment_id := "test-managed-env" }
     (by decide) (by decide) (by decide) (by decide) (by decide) (by decide)⟩

/-! ### Application event loop runner: finalizer removal -/

/-- Without concurrent writers, one attempt settles the call. -/
theorem removeFinalizerIfExists_quiet (attempts : Nat) (stored : Option GitOpsDeployment)
    (gitopsDepl : GitOpsDeployment) (finalizer : String) :
    removeFinalizerIfExists (attempts + 1) stored gitopsDepl finalizer [] =
      match stored with
      | none => { stored := none, updates := [], err := none }
      | some latest =>
        if finalizer ∈ latest.Finalizers then
          { stored := some { latest with
              Finalizers := latest.Finalizers.filter (fun f => f ≠ finalizer),
              ResourceVersion := latest.ResourceVersion + 1 },
            updates := [true], err := none }
        else { stored := some latest, updates := [], err := none } := by
  cases stored with
  | none => simp [removeFinalizerIfExists]
  | some latest =>
    by_cases hf : finalizer ∈ latest.Finalizers
    · simp [removeFinalizerIfExists, hf, updateGitOpsDeployment]
    · simp [removeFinalizerIfExists, hf]

/-- C23: `removeFinalizerIfExists` returns no error in each of these cases, whatever the
caller's copy is. A stored object that carries the finalizer loses it by one update; when a
concurrent writer makes the first write conflict, the latest version is read again and the
retry removes the finalizer; after any single concurrent writer the call returns no error and
the stored object, if there is one, does not carry the finalizer. A stored object without the
finalizer, and an object that no longer exists, get no update. -/
theorem removeFinalizerIfExists_cases (attempts : Nat) (gitopsDepl : GitOpsDeployment)
    (finalizer : String) :
    (∀ latest : GitOpsDeployment, finalizer ∈ latest.Finalizers →
      removeFinalizerIfExists (attempts + 1) (some latest) gitopsDepl finalizer [] =
        { stored := some { latest with
            Finalizers := latest.Finalizers.filter (fun f => f ≠ finalizer),
            ResourceVersion := latest.ResourceVersion + 1 },
          updates := [true], err := none }) ∧
    (∀ (latest current : GitOpsDeployment)
        (w : Option GitOpsDeployment → Option GitOpsDeployment),
      finalizer ∈ latest.Finalizers → w (some latest) = some current →
      current.ResourceVersion ≠ latest.ResourceVersion → finalizer ∈ current.Finalizers →
      removeFinalizerIfExists (attempts + 2) (some latest) gitopsDepl finalizer [w] =
        { stored := some { current with
            Finalizers := current.Finalizers.filter (fun f => f ≠ finalizer),
            ResourceVersion := current.ResourceVersion + 1 },
          updates := [false, true], err := none }) ∧
    (∀ (stored : Option GitOpsDeployment)
        (w : Option GitOpsDeployment → Option GitOpsDeployment),
      (removeFinalizerIfExists (attempts + 2) stored gitopsDepl finalizer [w]).err = none ∧
      ∀ d, (removeFinalizerIfExists (attempts + 2) stored gitopsDepl finalizer [w]).stored
        = some d → finalizer ∉ d.Finalizers) ∧
    (∀ (latest : GitOpsDeployment)
        (writers : List (Option GitOpsDeployment → Option GitOpsDeployment)),
      finalizer ∉ latest.Finalizers →
      removeFinalizerIfExists (attempts + 1) (some latest) gitopsDepl finalizer writers =
        { stored := some latest, updates := [], err := none }) ∧
    (∀ writers : List (Option GitOpsDeployment → Option GitOpsDeployment),
      removeFinalizerIfExists (attempts + 1) none gitopsDepl finalizer writers =
        { stored := none, updates := [], err := none }) := by
  have hfilter : ∀ l : List String, finalizer ∉ l.filter (fun f => f ≠ finalizer) := by
    intro l h
    simp [List.mem_filter] at h
  refine ⟨?_, ?_, ?_, ?_, ?_⟩
  · intro latest hf
    have h := removeFinalizerIfExists_quiet attempts (some latest) gitopsDepl finalizer
    simpa [hf] using h
  · intro latest current w hf hw hrv hfc
    have hq := removeFinalizerIfExists_quiet attempts (some current) gitopsDepl finalizer
    simp only [hfc, if_true] at hq
    rw [removeFinalizerIfExists]
    simp only [hf, if_true, hw, updateGitOpsDeployment, hrv, if_false, List.tail_cons, hq]
  · intro stored w
    cases stored with
    | none => simp [removeFinalizerIfExists]
    | some latest =>
      by_cases hf : finalizer ∈ latest.Finalizers
      · rw [removeFinalizerIfExists]
        simp only [hf, if_true]
        cases hw : w (some latest) with
        | none => simp [updateGitOpsDeployment]
        | some current =>
          by_cases hrv : current.ResourceVersion = latest.ResourceVersion
          · simp only [updateGitOpsDeployment, hrv, if_true]
            refine ⟨trivial, ?_⟩
            intro d hd
            simp only [Option.some.injEq] at hd
            subst hd
            exact hfilter _
          · simp only [updateGitOpsDeployment, hrv, if_false, List.tail_cons]
            have hq := removeFinalizerIfExists_quiet attempts (some current) gitopsDepl
              finalizer
            rw [hq]
            by_cases hfc : finalizer ∈ current.Finalizers
            · simp only [hfc, if_true]
              refine ⟨trivial, ?_⟩
              intro d hd
              simp only [Option.some.injEq] at hd
              subst hd
              exact hfilter _
            · simp only [hfc, if_false]
              refine ⟨trivial, ?_⟩
              intro d hd
              simp only [Option.some.injEq] at hd
              subst hd
              exact hfc
      · simp only [removeFinalizerIfExists, hf, if_false]
        refine ⟨trivial, ?_⟩
        intro d hd
        simp only [Option.some.injEq] at hd
        subst hd
        exact hf
  · intro latest writers hf
    simp [removeFinalizerIfExists, hf]
  · intro writers
    simp [removeFinalizerIfExists]

/-- C23 on the four tests, with five attempts and a stale caller's copy without the finalizer:
the finalizer is found and removed by one update; not found, no update; object deleted, no
update; a concurrent writer makes the first write conflict and the second write removes the
finalizer. -/
theorem removeFinalizerIfExists_cases_witness :
    removeFinalizerIfExists 5 (some storedWithFinalizer) abcDeployment testFinalizer [] =
      { stored := some { abcDeployment with Finalizers := [], ResourceVersion := 3 },
        updates := [true], err := none } ∧
    removeFinalizerIfExists 5 (some abcDeployment) abcDeployment testFinalizer [] =
      { stored := some abcDeployment, updates := [], err := none } ∧
    removeFinalizerIfExists 5 none storedWithFinalizer testFinalizer [] =
      { stored := none, updates := [], err := none } ∧
    removeFinalizerIfExists 5 (some storedWithFinalizer) abcDeployment testFinalizer
        [pathWriter] =
      { stored := (pathWriter (some storedWithFinalizer)).map (fun d =>
          { d with Finalizers := [], ResourceVersion := 4 }),
        updates := [false, true], err := none } :=
  ⟨(removeFinalizerIfExists_cases 4 abcDeployment testFinalizer).1 storedWithFinalizer
      (by decide),
   (removeFinalizerIfExists_cases 4 abcDeployment testFinalizer).2.2.2.1 abcDeployment []
      (by decide),
   (removeFinalizerIfExists_cases 4 storedWithFinalizer testFinalizer).2.2.2.2 [],
   by decide⟩

/-! ### GitOpsDeployment conditions -/

/-- After `SetCondition`, the condition of the type is found with the status, reason and
message that were set. -/
theorem FindCondition_SetCondition (conditions : List GitOpsDeploymentCondition)
    (conditionType status reason message : String) :
    ∃ c, FindCondition (SetCondition conditions conditionType status reason message)
        conditionType = some c ∧
      c.Type_ = conditionType ∧ c.Status = status ∧ c.Reason = reason ∧
      c.Message = message := by
  unfold SetCondition
  by_cases hhas : HasCondition conditions conditionType = true
  · simp only [hhas, if_true]
    induction conditions with
    | nil => simp [HasCondition] at hhas
    | cons x rest ih =>
      by_cases hx : x.Type_ = conditionType
      · exact ⟨{ x with Status := status, Reason := reason, Message := message },
          by simp [FindCondition, List.find?, hx], hx, rfl, rfl, rfl⟩
      · have hrest : HasCondition rest conditionType = true := by
          simpa [HasCondition, hx] using hhas
        obtain ⟨c, hc, hprops⟩ := ih hrest
        refine ⟨c, ?_, hprops⟩
        simpa [FindCondition, List.find?, hx] using hc
  · simp only [hhas, Bool.false_eq_true, if_false]
    have hnone : conditions.find? (fun c => decide (c.Type_ = conditionType)) = none := by
      rw [List.find?_eq_none]
      intro c hc hct
      apply hhas
      simp only [HasCondition, List.any_eq_true]
      exact ⟨c, hc, hct⟩
    exact ⟨{ Type_ := conditionType, Status := status, Reason := reason, Message := message },
      by simp [FindCondition, List.find?_append, hnone], rfl, rfl, rfl, rfl⟩

/-- C24: `setGitOpsDeploymentCondition(ErrorOccurred, ReconcileError, err)`: with a user error
the condition becomes `True` with reason `ReconcileError` and the user message, and the status
is written; with no error and the condition present it becomes `False` with reason
`ReconcileErrorResolved` and an empty message, and the status is written; with no error and
the condition absent nothing is written and nil is returned. -/
theorem setGitOpsDeploymentCondition_cases (statusUpdate : GitOpsDeployment → Option GoError)
    (gitopsDeployment : GitOpsDeployment) :
    (∀ e : UserDevError,
      (∃ c, FindCondition (setGitOpsDeploymentCondition statusUpdate gitopsDeployment
            "ErrorOccurred" "ReconcileError" (some e)).gitopsDeployment.Status.Conditions
            "ErrorOccurred" = some c ∧
          c.Status = "True" ∧ c.Reason = "ReconcileError" ∧ c.Message = e.userError) ∧
      (setGitOpsDeploymentCondition statusUpdate gitopsDeployment "ErrorOccurred"
          "ReconcileError" (some e)).statusWrites
        = [(setGitOpsDeploymentCondition statusUpdate gitopsDeployment "ErrorOccurred"
            "ReconcileError" (some e)).gitopsDeployment] ∧
      (setGitOpsDeploymentCondition statusUpdate gitopsDeployment "ErrorOccurred"
          "ReconcileError" (some e)).err
        = statusUpdate (setGitOpsDeploymentCondition statusUpdate gitopsDeployment
            "ErrorOccurred" "ReconcileError" (some e)).gitopsDeployment) ∧
    (HasCondition gitopsDeployment.Status.Conditions "ErrorOccurred" = true →
      (∃ c, FindCondition (setGitOpsDeploymentCondition statusUpdate gitopsDeployment
            "ErrorOccurred" "ReconcileError" none).gitopsDeployment.Status.Conditions
            "ErrorOccurred" = some c ∧
          c.Status = "False" ∧ c.Reason = "ReconcileErrorResolved" ∧ c.Message = "") ∧
      (setGitOpsDeploymentCondition statusUpdate gitopsDeployment "ErrorOccurred"
          "ReconcileError" none).statusWrites
        = [(setGitOpsDeploymentCondition statusUpdate gitopsDeployment "ErrorOccurred"
            "ReconcileError" none).gitopsDeployment] ∧
      (setGitOpsDeploymentCondition statusUpdate gitopsDeployment "ErrorOccurred"
          "ReconcileError" none).err
        = statusUpdate (setGitOpsDeploymentCondition statusUpdate gitopsDeployment
            "ErrorOccurred" "ReconcileError" none).gitopsDeployment) ∧
    (HasCondition gitopsDeployment.Status.Conditions "ErrorOccurred" = false →
      setGitOpsDeploymentCondition statusUpdate gitopsDeployment "ErrorOccurred"
          "ReconcileError" none
        = { gitopsDeployment := gitopsDeployment, statusWrites := [], err := none }) := by
  refine ⟨?_, ?_, ?_⟩
  · intro e
    refine ⟨?_, rfl, rfl⟩
    obtain ⟨c, hc, -, h2, h3, h4⟩ := FindCondition_SetCondition
      gitopsDeployment.Status.Conditions "ErrorOccurred" GitOpsConditionStatusTrue
      "ReconcileError" e.userError
    exact ⟨c, by simpa [setGitOpsDeploymentCondition] using hc, h2, h3, h4⟩
  · intro hhas
    simp only [setGitOpsDeploymentCondition, hhas, if_true]
    refine ⟨?_, trivial, trivial⟩
    obtain ⟨c, hc, -, h2, h3, h4⟩ := FindCondition_SetCondition
      gitopsDeployment.Status.Conditions "ErrorOccurred" GitOpsConditionStatusFalse
      "ReconcileErrorResolved" ""
    exact ⟨c, hc, h2, h3, h4⟩
  · intro hhas
    simp [setGitOpsDeploymentCondition, hhas]

/-- C24 on a deployment without conditions: nothing happens without an error; a reconcile
error sets the condition and writes the status; once it is set, a nil error resolves it and
writes the status. -/
theorem setGitOpsDeploymentCondition_cases_witness :
    setGitOpsDeploymentCondition (fun _ => none) myGitopsDepl "ErrorOccurred" "ReconcileError"
        none
      = { gitopsDeployment := myGitopsDepl, statusWrites := [], err := none } ∧
    (setGitOpsDeploymentCondition (fun _ => none) myGitopsDepl "ErrorOccurred"
        "ReconcileError"
        (some { userError := "reconcile error", devError := "reconcile error" })
      ).gitopsDeployment.Status.Conditions
      = [{ Type_ := "ErrorOccurred", Message := "reconcile error", Status := "True",
           Reason := "ReconcileError" }] ∧
    (setGitOpsDeploymentCondition (fun _ => none)
        { myGitopsDepl with
          Status := { Conditions := [{ Type_ := "ErrorOccurred", Message := "reconcile error",
                                       Status := "True", Reason := "ReconcileError" }] } }
        "ErrorOccurred" "ReconcileError" none).gitopsDeployment.Status.Conditions
      = [{ Type_ := "ErrorOccurred", Message := "", Status := "False",
           Reason := "ReconcileErrorResolved" }] ∧
    (setGitOpsDeploymentCondition (fun _ => none)
        { myGitopsDepl with
          Status := { Conditions := [{ Type_ := "ErrorOccurred", Message := "reconcile error",
                                       Status := "True", Reason := "ReconcileError" }] } }
        "ErrorOccurred" "ReconcileError" none).statusWrites.length = 1 :=
  ⟨(setGitOpsDeploymentCondition_cases (fun _ => none) myGitopsDepl).2.2 (by decide),
   by decide, by decide, by decide⟩

/-! ### Database query façade: ClusterUser -/

/-- C25: after a successful `CreateClusterUser` of `u`, `GetClusterUserByUsername` and
`GetClusterUserById` return `u`; `DeleteClusterUserById` then affects one row without error,
and a following `GetClusterUserById` fails with the not-found error. -/
theorem ClusterUser_create_get_delete (db db1 : Database) (u : ClusterUser)
    (hcreate : db.CreateClusterUser u = (db1, none)) :
    db1.GetClusterUserByUsername { User_name := u.User_name } = (u, none) ∧
    db1.GetClusterUserById { Clusteruser_id := u.Clusteruser_id } = (u, none) ∧
    (db1.DeleteClusterUserById u.Clusteruser_id).2 = (1, none) ∧
    IsResultNotFoundError
      (((db1.DeleteClusterUserById u.Clusteruser_id).1.GetClusterUserById
        { Clusteruser_id := u.Clusteruser_id }).2) = true := by
  unfold Database.CreateClusterUser at hcreate
  by_cases hdup : db.clusterUsers.any (fun x =>
      decide (x.Clusteruser_id = u.Clusteruser_id ∨ x.User_name = u.User_name)) = true
  · rw [if_pos hdup] at hcreate
    exact absurd (congrArg Prod.snd hcreate) (by simp)
  · rw [if_neg hdup] at hcreate
    simp only [Prod.mk.injEq, and_true] at hcreate
    subst hcreate
    have hfresh : ∀ x ∈ db.clusterUsers,
        x.Clusteruser_id ≠ u.Clusteruser_id ∧ x.User_name ≠ u.User_name := by
      intro x hx
      constructor
      · intro h
        exact hdup (List.any_eq_true.mpr ⟨x, hx, by simp [h]⟩)
      · intro h
        exact hdup (List.any_eq_true.mpr ⟨x, hx, by simp [h]⟩)
    have hname : db.clusterUsers.find? (fun x => decide (x.User_name = u.User_name)) = none := by
      rw [List.find?_eq_none]
      intro x hx
      simpa using (hfresh x hx).2
    have hid : db.clusterUsers.find? (fun x => decide (x.Clusteruser_id = u.Clusteruser_id))
        = none := by
      rw [List.find?_eq_none]
      intro x hx
      simpa using (hfresh x hx).1
    have hdrop : db.clusterUsers.filter (fun x => decide (x.Clusteruser_id = u.Clusteruser_id))
        = [] := by
      rw [List.filter_eq_nil_iff]
      intro x hx
      simpa using (hfresh x hx).1
    refine ⟨?_, ?_, ?_, ?_⟩
    · simp [Database.GetClusterUserByUsername, List.find?_append, hname]
    · simp [Database.GetClusterUserById, List.find?_append, hid]
    · simp [Database.DeleteClusterUserById, List.filter_append, hdrop]
    · have hdel : (Database.DeleteClusterUserById
          { db with clusterUsers := db.clusterUsers ++ [u] } u.Clusteruser_id).1.clusterUsers
          = db.clusterUsers := by
        simp [Database.DeleteClusterUserById, List.filter_append]
        exact fun x hx => (hfresh x hx).1
      simp only [Database.GetClusterUserById, hdel, hid]
      rfl

/-- C25 on the test: the user `tirthuser` is created in a database that holds another user. -/
theorem ClusterUser_create_get_delete_witness :
    Database.CreateClusterUser
        { clusterUsers := [{ Clusteruser_id := "test-user", User_name := "test-user" }] }
        tirthUser
      = ({ clusterUsers := [{ Clusteruser_id := "test-user", User_name := "test-user" },
                            tirthUser] }, none) ∧
    Database.GetClusterUserByUsername
        { clusterUsers := [{ Clusteruser_id := "test-user", User_name := "test-user" },
                           tirthUser] }
        { User_name := "tirthuser" } = (tirthUser, none) ∧
    Database.GetClusterUserById
        { clusterUsers := [{ Clusteruser_id := "test-user", User_name := "test-user" },
                           tirthUser] }
        { Clusteruser_id := "test-user-id" } = (tirthUser, none) ∧
    (Database.DeleteClusterUserById
        { clusterUsers := [{ Clusteruser_id := "test-user", User_name := "test-user" },
                           tirthUser] }
        "test-user-id").2 = (1, none) ∧
    IsResultNotFoundError
      ((Database.GetClusterUserById
        (Database.DeleteClusterUserById
          { clusterUsers := [{ Clusteruser_id := "test-user", User_name := "test-user" },
                             tirthUser] }
          "test-user-id").1
        { Clusteruser_id := "test-user-id" }).2) = true :=
  ⟨by decide,
   ClusterUser_create_get_delete
     { clusterUsers := [{ Clusteruser_id := "test-user", User_name := "test-user" }] }
     { clusterUsers := [{ Clusteruser_id := "test-user", User_name := "test-user" },
                        tirthUser] }
     tirthUser (by decide)⟩

end ManagedGitops
